import Mathlib

/-!
# keepalived-allocator-operator: the VirtualIP reconciler

A shallow embedding of `controllers/virtualip_controller.go` and the
properties of its address allocation and of its reconciliation state machine.

Layout
* `Net`      : the part of Go's `net` package the controller calls
               (`ParseCIDR`, `IP.Mask`, `IPNet.Contains`, `IP.String`), for IPv4.
* `Kube`     : the objects the controller reads and writes and the object
               store behind `client.Client`, with injectable failures.
* `Keepalived` : the controller's functions, one definition per Go function.

Conventions
* a Go `byte` is a `Nat` below 256, a `net.IP` is the list of its bytes;
* a Go `map[string]string` is an association list with distinct keys;
* a Go `(T, error)` result is a `Res T`; a loop that never ends is `Res.hang`;
* a function that writes to the cluster takes the store and returns the new
  store next to its result.

The definitions come first (the model, then the notions and the example
objects the properties are stated with), the properties after them: the
arithmetic of addresses, the allocation (`getAvailableIPs`, `reserveIP`,
`allocateIP`), the reconciliation (`Reconcile`).
-/

set_option autoImplicit false

namespace Net

/-! ## Addresses -/

/-- Go `net.IP` in its 4-byte form: the bytes, most significant first. -/
abbrev IP := List Nat

/-- Go `net.IPMask`. -/
abbrev IPMask := List Nat

/-- Go `net.IPNet`: the network number and the mask. -/
structure IPNet where
  IP : IP
  Mask : IPMask
deriving DecidableEq, Repr

/-- ASCII digit of a value below ten (Go: `v + '0'`). -/
def digit (v : Nat) : Char := Char.ofNat (48 + v)

/-- Go `net.ubtoa`: the decimal form of a byte, without leading zeros. -/
def ubtoa (v : Nat) : List Char :=
  if v < 10 then [digit v]
  else if v < 100 then [digit (v / 10), digit (v % 10)]
  else [digit (v / 100), digit ((v / 10) % 10), digit (v % 10)]

/-- Lower-case hexadecimal digit (Go: `hexDigit[v]`). -/
def hexDigit (v : Nat) : Char :=
  if v < 10 then Char.ofNat (48 + v) else Char.ofNat (87 + v)

/-- Go `net.hexString`: two hexadecimal digits per byte. -/
def hexString : List Nat → List Char
  | [] => []
  | b :: bs => hexDigit (b / 16) :: hexDigit (b % 16) :: hexString bs

/-- Go `IP.String` on the byte lengths the controller can hold: dotted decimal
for four bytes, `<nil>` for none, `?` and the hexadecimal bytes otherwise
(the 16-byte forms never reach the controller's loop variable, which is the
result of `To4`). -/
def IPString : IP → String
  | [] => "<nil>"
  | [a, b, c, d] =>
      String.mk (ubtoa a ++ '.' :: (ubtoa b ++ '.' :: (ubtoa c ++ '.' :: ubtoa d)))
  | ip => String.mk ('?' :: hexString ip)

/-- The mask bytes of Go `net.CIDRMask`: `l` bytes left to fill, `n` one-bits
left to place (`0xff` while `n >= 8`, then `^byte(0xff >> n)`, then zeros). -/
def CIDRMaskBytes : Nat → Nat → List Nat
  | 0, _ => []
  | l + 1, n =>
      if 8 ≤ n then 255 :: CIDRMaskBytes l (n - 8)
      else (255 - 255 / 2 ^ n) :: CIDRMaskBytes l 0

/-- Go `net.CIDRMask(ones, bits)` for `0 <= ones <= bits`. -/
def CIDRMask (ones bits : Nat) : IPMask := CIDRMaskBytes (bits / 8) ones

/-- Go `IP.Mask` on a 4-byte address and a 4-byte mask: the bytewise AND;
`nil` when the lengths differ. -/
def Mask (ip : IP) (mask : IPMask) : IP :=
  if ip.length = mask.length then List.zipWith (fun a m => a &&& m) ip mask else []

/-- The comparison loop of Go `IPNet.Contains`:
`nn[i]&m[i] != ip[i]&m[i]` for no index `i`. -/
def sameNetwork : List Nat → List Nat → List Nat → Bool
  | n :: nn, m :: mm, a :: ip => (n &&& m) = (a &&& m) && sameNetwork nn mm ip
  | _, _, _ => true

/-- Go `IPNet.Contains`: same length as the network number, and equal to it
under the mask. -/
def Contains (n : IPNet) (ip : IP) : Bool :=
  ip.length = n.IP.length && sameNetwork n.IP n.Mask ip

/-! ## Parsing -/

/-- The digit loop of Go `net.dtoi`: consumes decimal digits, accumulating
into `n`; `count` digits were consumed so far. Gives the value, the number
of digits and the rest of the input, or `none` at the overflow cut-off
`0xFFFFFF`. -/
def dtoiLoop : List Char → Nat → Nat → Option (Nat × Nat × List Char)
  | [], n, count => some (n, count, [])
  | c :: cs, n, count =>
      if '0' ≤ c ∧ c ≤ '9' then
        let n1 := n * 10 + (c.toNat - 48)
        if 16777215 ≤ n1 then none else dtoiLoop cs n1 (count + 1)
      else some (n, count, c :: cs)

/-- Go `net.dtoi`: a decimal number at the start of the input; fails when
there is no digit. -/
def dtoi (s : List Char) : Option (Nat × Nat × List Char) :=
  match dtoiLoop s 0 0 with
  | some (n, count, rest) => if count = 0 then none else some (n, count, rest)
  | none => none

/-- One field of Go `net.parseIPv4`: a decimal number of at most `0xFF`
without a leading zero (rejected since Go 1.17). -/
def parseField (s : List Char) : Option (Nat × List Char) :=
  match dtoi s with
  | some (n, count, rest) =>
      if 255 < n then none
      else if 1 < count ∧ s.head? = some '0' then none
      else some (n, rest)
  | none => none

/-- Skips the separating dot of Go `net.parseIPv4`. -/
def parseDot : List Char → Option (List Char)
  | '.' :: rest => some rest
  | _ => none

/-- Go `net.parseIPv4`: four fields separated by dots and nothing else. -/
def parseIPv4 (s : List Char) : Option IP :=
  match parseField s with
  | none => none
  | some (a, s1) =>
    match parseDot s1 with
    | none => none
    | some s2 =>
      match parseField s2 with
      | none => none
      | some (b, s3) =>
        match parseDot s3 with
        | none => none
        | some s4 =>
          match parseField s4 with
          | none => none
          | some (c, s5) =>
            match parseDot s5 with
            | none => none
            | some s6 =>
              match parseField s6 with
              | some (d, []) => some [a, b, c, d]
              | _ => none

/-- Splits at the first `/` (Go: `bytealg.IndexByteString(s, '/')`). -/
def splitSlash : List Char → Option (List Char × List Char)
  | [] => none
  | c :: cs =>
      if c = '/' then some ([], cs)
      else match splitSlash cs with
        | some (a, m) => some (c :: a, m)
        | none => none

/-- Go `net.ParseCIDR` for IPv4: the address as written and the prefix length
`n`, from which the network is `IPNet{IP: ip.Mask(m), Mask: m}` with
`m = CIDRMask(n, 32)`. IPv6 text (a declared non-goal of the controller) is
not modelled and counts as unparsable. -/
def ParseCIDR (s : String) : Option (IP × Nat) :=
  match splitSlash s.data with
  | none => none
  | some (addr, mask) =>
    match parseIPv4 addr, dtoi mask with
    | some ip, some (n, _, []) => if n ≤ 32 then some (ip, n) else none
    | _, _ => none

/-- The network of a parsed CIDR: `&IPNet{IP: ip.Mask(m), Mask: m}`. -/
def network (ip : IP) (n : Nat) : IPNet :=
  { IP := Mask ip (CIDRMask n 32), Mask := CIDRMask n 32 }

/-! ## Numeric reading of an address -/

/-- The number a byte sequence denotes, most significant byte first. -/
def toNat (ip : IP) : Nat := ip.foldl (fun acc b => acc * 256 + b) 0

/-- The 4-byte address of a number below `2 ^ 32`. -/
def ofNat (v : Nat) : IP :=
  [v / 16777216 % 256, v / 65536 % 256, v / 256 % 256, v % 256]

/-- A well-formed 4-byte address: four bytes, each below 256. -/
def IsIPv4 (ip : IP) : Prop := ip.length = 4 ∧ ∀ b ∈ ip, b < 256

instance (ip : IP) : Decidable (IsIPv4 ip) := by
  unfold IsIPv4; infer_instance

end Net

namespace Kube

/-! ## Errors and results -/

/-- The conditions the controller tells apart on an error of the store
(`apierrors.IsNotFound`, `apierrors.IsAlreadyExists`); `other` is every other
error, among them those built with `errors.New`. -/
inductive ErrKind where
  | notFound
  | alreadyExists
  | other
deriving DecidableEq, Repr

/-- A Go `error` value: its condition and its text (`err.Error()`). -/
structure Err where
  kind : ErrKind
  msg : String
deriving DecidableEq, Repr

/-- Go `errors.New(text)`. -/
def errorsNew (text : String) : Err := { kind := .other, msg := text }

/-- The outcome of a Go call of result type `(T, error)`: a value, a non-nil
error, or no return at all (`hang`: a loop in the callee never ends). -/
inductive Res (α : Type) where
  | ok (a : α)
  | error (e : Err)
  | hang
deriving DecidableEq, Repr

/-! ## String maps -/

/-- Go `map[string]string`, as an association list. -/
abbrev StringMap := List (String × String)

/-- Map lookup `m[k]`. -/
def mapGet : StringMap → String → Option String
  | [], _ => none
  | (k1, v) :: m, k => if k1 = k then some v else mapGet m k

/-- Map assignment `m[k] = v`: overwrites the entry of `k`, or adds one. -/
def mapSet : StringMap → String → String → StringMap
  | [], k, v => [(k, v)]
  | (k1, v1) :: m, k, v => if k1 = k then (k, v) :: m else (k1, v1) :: mapSet m k v

/-- Go `delete(m, k)`. -/
def mapDelete (m : StringMap) (k : String) : StringMap := m.filter (fun p => p.1 ≠ k)

/-! ## Objects -/

/-- Go `metav1.OwnerReference` (the fields `SetOwnerReference` fills). -/
structure OwnerReference where
  APIVersion : String
  Kind : String
  Name : String
  UID : String
deriving DecidableEq, Repr

/-- Go `corev1.ServiceSpec`: the two fields the controller writes, and `Rest`
for every other field of the spec. -/
structure ServiceSpec where
  ClusterIP : String
  ExternalIPs : List String
  Rest : String
deriving DecidableEq, Repr

/-- Go `corev1.Service`; `Rest` stands for every field not listed. -/
structure Service where
  Namespace : String
  Name : String
  ResourceVersion : String
  Annotations : StringMap
  OwnerReferences : List OwnerReference
  Spec : ServiceSpec
  Rest : String
deriving DecidableEq, Repr

/-- Modelled from the spec: `paasv1.IP` of package `api/v1`, the AddressClaim
record: a cluster-scoped object whose name is the address, with labels and
annotations. -/
structure IPObject where
  Name : String
  Labels : StringMap
  Annotations : StringMap
deriving DecidableEq, Repr

/-- Modelled from the spec: `paasv1.GroupSegmentMappingSpec` of package
`api/v1`: CIDR segment, excluded addresses, grouping identifier. -/
structure GroupSegmentMappingSpec where
  Segment : String
  ExcludedIPs : List String
  KeepalivedGroup : String
deriving DecidableEq, Repr

/-- Modelled from the spec: `paasv1.GroupSegmentMapping` of package `api/v1`. -/
structure GroupSegmentMapping where
  Name : String
  Spec : GroupSegmentMappingSpec
deriving DecidableEq, Repr

/-- Modelled from the spec: the lifecycle state of `paasv1.VirtualIPStatus`
(`paasv1.StateError`, ...); `unset` is the absence of any state. -/
inductive State where
  | unset
  | Error
  | CreatingIP
  | Exposing
  | Valid
deriving DecidableEq, Repr

/-- Modelled from the spec: `paasv1.VirtualIPSpec` of package `api/v1`. -/
structure VirtualIPSpec where
  Segment : String
  Service : String
  Clone : Bool
deriving DecidableEq, Repr

/-- Modelled from the spec: `paasv1.VirtualIPStatus` of package `api/v1`;
`Clone` is a `*bool`, `none` being the nil pointer. -/
structure VirtualIPStatus where
  IP : String
  GSM : String
  KeepalivedGroup : String
  Service : String
  Clone : Option Bool
  State : State
  Message : String
deriving DecidableEq, Repr

/-- Modelled from the spec: `paasv1.VirtualIP` of package `api/v1`, with the
metadata the controller reads; `DeletionTimestamp = none` is the nil
timestamp, for which `IsZero()` holds. -/
structure VirtualIP where
  Namespace : String
  Name : String
  UID : String
  DeletionTimestamp : Option Nat
  Finalizers : List String
  Spec : VirtualIPSpec
  Status : VirtualIPStatus
deriving DecidableEq, Repr

/-- Go `ctrl.Result`. -/
structure Result where
  Requeue : Bool := false
  RequeueAfter : Nat := 0
deriving DecidableEq, Repr

/-- Go `ctrl.Request`: the key of the object to reconcile. -/
structure Request where
  Namespace : String
  Name : String
deriving DecidableEq, Repr

end Kube

namespace Kube

/-! ## The object store behind `client.Client`

The store is the state every controller function passes along. What the
model takes from the control plane:
* a `Get`, `Update` or `Delete` of an absent object answers "not found", a
  `Create` of a present one "already exists";
* the status of a VirtualIP is a sub-resource: `Update` writes metadata and
  spec, `Status().Update` writes the status;
* any request can also fail for a reason outside the store (`Client`).

Not modelled, being the control plane's own later actions: the removal of a
deleting object once its finalizer list is empty, the cascading deletion of
owned objects, resource versions and server-side defaulting.
-/

/-- The objects of the cluster the controller can see. Each list is in the
store's listing order; a create appends, an update replaces in place. -/
structure Store where
  VirtualIPs : List VirtualIP
  IPs : List IPObject
  GroupSegmentMappings : List GroupSegmentMapping
  Services : List Service
deriving DecidableEq, Repr

/-- The requests the controller sends to the store. -/
inductive Op where
  | getVirtualIP (ns name : String)
  | updateVirtualIP (ns name : String)
  | updateVirtualIPStatus (ns name : String)
  | listIP
  | getIP (name : String)
  | createIP (name : String)
  | updateIP (name : String)
  | deleteIP (name : String)
  | listGroupSegmentMapping
  | getService (ns name : String)
  | createService (ns name : String)
  | updateService (ns name : String)
deriving DecidableEq, Repr

/-- The failure behaviour of the `client.Client` of one invocation: for each
request, the error the store answers with instead of serving it (transport
or backend failure, admission, a conflicting writer), or `none` when the
request is served. A served request can still fail by its own semantics:
not found, already exists. -/
abbrev Client := Op → Option Err

/-- A client that serves every request. -/
def Client.reliable : Client := fun _ => none

/-- The store's "not found" error. -/
def notFound (resource name : String) : Err :=
  { kind := .notFound, msg := resource ++ " \"" ++ name ++ "\" not found" }

/-- The store's "already exists" error. -/
def alreadyExists (resource name : String) : Err :=
  { kind := .alreadyExists, msg := resource ++ " \"" ++ name ++ "\" already exists" }

/-- The stored VirtualIP of a key, if any. -/
def Store.virtualIP (s : Store) (ns name : String) : Option VirtualIP :=
  s.VirtualIPs.find? (fun v => v.Namespace = ns ∧ v.Name = name)

/-- The stored IP record of a name, if any. -/
def Store.ip (s : Store) (name : String) : Option IPObject :=
  s.IPs.find? (fun x => x.Name = name)

/-- The stored service of a key, if any. -/
def Store.service (s : Store) (ns name : String) : Option Service :=
  s.Services.find? (fun x => x.Namespace = ns ∧ x.Name = name)

/-- Store request `Get` of a VirtualIP. -/
def getVirtualIP (c : Client) (ns name : String) (s : Store) : Res VirtualIP :=
  match c (.getVirtualIP ns name) with
  | some e => .error e
  | none =>
    match s.virtualIP ns name with
    | some v => .ok v
    | none => .error (notFound "virtualips.paas.org" name)

/-- Store request `Update` of a VirtualIP: writes metadata and spec; the status
is a sub-resource and keeps its stored value. -/
def updateVirtualIP (c : Client) (v : VirtualIP) (s : Store) : Store × Option Err :=
  match c (.updateVirtualIP v.Namespace v.Name) with
  | some e => (s, some e)
  | none =>
    match s.virtualIP v.Namespace v.Name with
    | some _ =>
      ({ s with VirtualIPs := s.VirtualIPs.map (fun x =>
          if x.Namespace = v.Namespace ∧ x.Name = v.Name then { v with Status := x.Status }
          else x) }, none)
    | none => (s, some (notFound "virtualips.paas.org" v.Name))

/-- Store request `Status().Update` of a VirtualIP: writes the status only. -/
def updateVirtualIPStatus (c : Client) (v : VirtualIP) (s : Store) : Store × Option Err :=
  match c (.updateVirtualIPStatus v.Namespace v.Name) with
  | some e => (s, some e)
  | none =>
    match s.virtualIP v.Namespace v.Name with
    | some _ =>
      ({ s with VirtualIPs := s.VirtualIPs.map (fun x =>
          if x.Namespace = v.Namespace ∧ x.Name = v.Name then { x with Status := v.Status }
          else x) }, none)
    | none => (s, some (notFound "virtualips.paas.org" v.Name))

/-- Store request `List` of IP records with the label selector `key=value`. -/
def listIP (c : Client) (key value : String) (s : Store) : Res (List IPObject) :=
  match c .listIP with
  | some e => .error e
  | none => .ok (s.IPs.filter (fun ip => mapGet ip.Labels key = some value))

/-- Store request `Get` of an IP record. -/
def getIP (c : Client) (name : String) (s : Store) : Res IPObject :=
  match c (.getIP name) with
  | some e => .error e
  | none =>
    match s.ip name with
    | some x => .ok x
    | none => .error (notFound "ips.paas.org" name)

/-- Store request `Create` of an IP record: create-if-absent on the name. -/
def createIP (c : Client) (ip : IPObject) (s : Store) : Store × Option Err :=
  match c (.createIP ip.Name) with
  | some e => (s, some e)
  | none =>
    match s.ip ip.Name with
    | some _ => (s, some (alreadyExists "ips.paas.org" ip.Name))
    | none => ({ s with IPs := s.IPs ++ [ip] }, none)

/-- Store request `Update` of an IP record. -/
def updateIP (c : Client) (ip : IPObject) (s : Store) : Store × Option Err :=
  match c (.updateIP ip.Name) with
  | some e => (s, some e)
  | none =>
    match s.ip ip.Name with
    | some _ =>
      ({ s with IPs := s.IPs.map (fun x => if x.Name = ip.Name then ip else x) }, none)
    | none => (s, some (notFound "ips.paas.org" ip.Name))

/-- Store request `Delete` of an IP record, by name; the record must exist. -/
def deleteIP (c : Client) (name : String) (s : Store) : Store × Option Err :=
  match c (.deleteIP name) with
  | some e => (s, some e)
  | none =>
    match s.ip name with
    | some _ => ({ s with IPs := s.IPs.filter (fun x => x.Name ≠ name) }, none)
    | none => (s, some (notFound "ips.paas.org" name))

/-- Store request `List` of all segment-mappings. -/
def listGroupSegmentMapping (c : Client) (s : Store) : Res (List GroupSegmentMapping) :=
  match c .listGroupSegmentMapping with
  | some e => .error e
  | none => .ok s.GroupSegmentMappings

/-- Store request `Get` of a service. -/
def getService (c : Client) (ns name : String) (s : Store) : Res Service :=
  match c (.getService ns name) with
  | some e => .error e
  | none =>
    match s.service ns name with
    | some x => .ok x
    | none => .error (notFound "services" name)

/-- Store request `Create` of a service. -/
def createService (c : Client) (svc : Service) (s : Store) : Store × Option Err :=
  match c (.createService svc.Namespace svc.Name) with
  | some e => (s, some e)
  | none =>
    match s.service svc.Namespace svc.Name with
    | some _ => (s, some (alreadyExists "services" svc.Name))
    | none => ({ s with Services := s.Services ++ [svc] }, none)

/-- Store request `Update` of a service. -/
def updateService (c : Client) (svc : Service) (s : Store) : Store × Option Err :=
  match c (.updateService svc.Namespace svc.Name) with
  | some e => (s, some e)
  | none =>
    match s.service svc.Namespace svc.Name with
    | some _ =>
      ({ s with Services := s.Services.map (fun x =>
          if x.Namespace = svc.Namespace ∧ x.Name = svc.Name then svc else x) }, none)
    | none => (s, some (notFound "services" svc.Name))

end Kube

namespace Controllerutil

open Kube

/-! ## The helpers of `controller-runtime` the controller calls -/

/-- Go `controllerutil.ContainsFinalizer`. -/
def ContainsFinalizer (o : VirtualIP) (finalizer : String) : Bool :=
  o.Finalizers.contains finalizer

/-- Go `controllerutil.AddFinalizer`: appends the finalizer unless present. -/
def AddFinalizer (o : VirtualIP) (finalizer : String) : VirtualIP :=
  if o.Finalizers.contains finalizer then o
  else { o with Finalizers := o.Finalizers ++ [finalizer] }

/-- Go `controllerutil.RemoveFinalizer`: removes every occurrence. -/
def RemoveFinalizer (o : VirtualIP) (finalizer : String) : VirtualIP :=
  { o with Finalizers := o.Finalizers.filter (fun f => f ≠ finalizer) }

/-- Go `runtime.Scheme`, as far as the controller depends on it: the API
version and kind registered for the VirtualIP type, if any. -/
abbrev Scheme := Option (String × String)

/-- Go `controllerutil.upsertOwnerRef`: replaces the reference to the same
owner (same API version, kind and name), or appends. -/
def upsertOwnerRef (ref : OwnerReference) : List OwnerReference → List OwnerReference
  | [] => [ref]
  | r :: rs =>
      if r.APIVersion = ref.APIVersion ∧ r.Kind = ref.Kind ∧ r.Name = ref.Name then ref :: rs
      else r :: upsertOwnerRef ref rs

/-- Go `controllerutil.SetOwnerReference(owner, object, scheme)`: validates
the owner's namespace against the object's, looks the owner's kind up in the
scheme and upserts the owner reference. The error for an unregistered kind
ends, in the library, with the name of the scheme, which `Scheme` does not
carry. -/
def SetOwnerReference (owner : VirtualIP) (object : Service) (scheme : Scheme) : Res Service :=
  if owner.Namespace ≠ "" ∧ object.Namespace = "" then
    .error (errorsNew ("cluster-scoped resource must not have a namespace-scoped owner, " ++
      "owner\x27s namespace " ++ owner.Namespace))
  else if owner.Namespace ≠ "" ∧ owner.Namespace ≠ object.Namespace then
    .error (errorsNew ("cross-namespace owner references are disallowed, " ++
      "owner\x27s namespace " ++ owner.Namespace ++
      ", obj\x27s namespace " ++ object.Namespace))
  else
    match scheme with
    | none => .error (errorsNew "no kind is registered for the type v1.VirtualIP")
    | some (apiVersion, kind) =>
        let ref : OwnerReference := ⟨apiVersion, kind, owner.Name, owner.UID⟩
        .ok { object with OwnerReferences := upsertOwnerRef ref object.OwnerReferences }

/-- The error of `controllerutil.mutate` when the mutation changes the key. -/
def mutateKeyError : Err :=
  errorsNew "MutateFn cannot mutate object name and/or object namespace"

/-- Go `controllerutil.CreateOrUpdate` on an IP record: fetch by key; when
absent, mutate and create; when present, mutate and update unless the
mutation changed nothing. -/
def CreateOrUpdateIP (c : Client) (obj : IPObject) (f : IPObject → IPObject) (s : Store) :
    Store × Option Err :=
  match getIP c obj.Name s with
  | .error e =>
      if e.kind = .notFound then
        if (f obj).Name ≠ obj.Name then (s, some mutateKeyError)
        else createIP c (f obj) s
      else (s, some e)
  | .hang => (s, none)
  | .ok existing =>
      if (f existing).Name ≠ obj.Name then (s, some mutateKeyError)
      else if f existing = existing then (s, none)
      else updateIP c (f existing) s

/-- Go `controllerutil.CreateOrUpdate` on a service. -/
def CreateOrUpdateService (c : Client) (obj : Service) (f : Service → Service) (s : Store) :
    Store × Option Err :=
  match getService c obj.Namespace obj.Name s with
  | .error e =>
      if e.kind = .notFound then
        if (f obj).Namespace ≠ obj.Namespace ∨ (f obj).Name ≠ obj.Name then
          (s, some mutateKeyError)
        else createService c (f obj) s
      else (s, some e)
  | .hang => (s, none)
  | .ok existing =>
      if (f existing).Namespace ≠ obj.Namespace ∨ (f existing).Name ≠ obj.Name then
        (s, some mutateKeyError)
      else if f existing = existing then (s, none)
      else updateService c (f existing) s

end Controllerutil

namespace Keepalived

open Kube Controllerutil

/-! ## The controller: `controllers/virtualip_controller.go` -/

/-- Go `VirtualIPReconciler`: the client (here its failure behaviour; the
store it talks to is passed along as state) and the scheme. `Getenv` is the
process environment (`os.Getenv`) the package variable
`keepalivedGroupNamespace` is initialised from. The logger has no effect on
the store and is left out. -/
structure VirtualIPReconciler where
  Client : Client
  Scheme : Scheme
  Getenv : String → String

/-- Go `getEnv`: the variable, or the fallback when it is empty or unset. -/
def getEnv (getenv : String → String) (key fallback : String) : String :=
  let value := getenv key
  if value.length = 0 then fallback else value

/-- Go package variable `groupSegmentMappingLabel`. -/
def groupSegmentMappingLabel : String := "gsm"

/-- Go package variable `keepalivedGroupNamespace`. -/
def keepalivedGroupNamespace (r : VirtualIPReconciler) : String :=
  getEnv r.Getenv "KEEPALIVED_GROUP_NAMESPACE" "keepalived-operator"

/-- The annotation key `patchService` writes. -/
def keepalivedGroupAnnotation : String := "keepalived-operator.redhat-cop.io/keepalivedgroup"

/-- Go `(r *VirtualIPReconciler).getService`: the service named by the
recorded status, in the namespace of the VirtualIP. -/
def getService (r : VirtualIPReconciler) (virtualIP : VirtualIP) (s : Store) : Res Service :=
  Kube.getService r.Client virtualIP.Namespace virtualIP.Status.Service s

/-- Go `(r *VirtualIPReconciler).cloneService`. -/
def cloneService (r : VirtualIPReconciler) (virtualIP : VirtualIP) (clone : Service) :
    Res Service :=
  let clone := { clone with Name := clone.Name ++ "-keepalived-clone" }
  let clone := { clone with Spec := { clone.Spec with ClusterIP := "" } }
  let clone := { clone with ResourceVersion := "" }
  let clone := { clone with OwnerReferences := [] }
  match SetOwnerReference virtualIP clone r.Scheme with
  | .error err =>
      .error (errorsNew ("received error while setting service\x27s owner: " ++ err.msg))
  | .hang => .hang
  | .ok clone => .ok clone

/-- Go `(r *VirtualIPReconciler).patchService`. -/
def patchService (r : VirtualIPReconciler) (service : Service) (ip : String)
    (keepalivedGroup : String) (remove : Bool) : Service :=
  if !remove then
    { service with
      Annotations := mapSet service.Annotations keepalivedGroupAnnotation
        (keepalivedGroupNamespace r ++ "/" ++ keepalivedGroup)
      Spec := { service.Spec with ExternalIPs := [ip] } }
  else
    { service with
      Annotations := mapDelete service.Annotations keepalivedGroupAnnotation
      Spec := { service.Spec with ExternalIPs := [] } }

/-- Go `(r *VirtualIPReconciler).labelIP`. -/
def labelIP (ipObject : IPObject) (virtualIP : VirtualIP) (gsmName : String) : IPObject :=
  { ipObject with
    Labels := [(groupSegmentMappingLabel, gsmName)]
    Annotations := [("virtualips.paas.il/owner", virtualIP.Namespace ++ "/" ++ virtualIP.Name)] }

/-- The inner loop of Go `incrementIP`, on the bytes from the last to the
first: a byte of 255 becomes 0 and the carry goes on, any other byte is
incremented and the loop breaks. -/
def incrementBytes : List Nat → List Nat
  | [] => []
  | b :: bs => if b = 255 then 0 :: incrementBytes bs else (b + 1) :: bs

/-- Go `incrementIP`. -/
def incrementIP (ip : Net.IP) : Net.IP := (incrementBytes ip.reverse).reverse

/-- Go `contains`. -/
def contains : List String → String → Bool
  | [], _ => false
  | item :: arr, str => if item = str then true else contains arr str

/-- The enumeration loop of Go `getAvailableIPs`
(`for ip := start; ipnet.Contains(ip); incrementIP(ip)`), run for at most
`fuel` tests of the loop condition; `ips` is the slice built so far. -/
def enumerateIPs (ipnet : Net.IPNet) (excludedIPs : List String) :
    Nat → Net.IP → List String → Res (List String)
  | 0, _, _ => .hang
  | fuel + 1, ipAddress, ips =>
      if Net.Contains ipnet ipAddress then
        let ip := Net.IPString ipAddress
        enumerateIPs ipnet excludedIPs fuel (incrementIP ipAddress)
          (if !contains excludedIPs ip then ips ++ [ip] else ips)
      else .ok ips

/-- The number of loop tests after which the enumeration of `getAvailableIPs`
has either ended or returned to its start: one more than the number of
4-byte addresses. -/
def enumerationBound : Nat := 2 ^ 32 + 1

/-- Go `net.IP.To4` on the forms of this model: a 4-byte address is itself,
anything else is nil. -/
def To4 (ip : Net.IP) : Net.IP := if ip.length = 4 then ip else []

/-- Go `(r *VirtualIPReconciler).getAvailableIPs`. -/
def getAvailableIPs (r : VirtualIPReconciler) (groupSegmentMapping : GroupSegmentMapping)
    (s : Store) : Res (List String) :=
  match listIP r.Client groupSegmentMappingLabel groupSegmentMapping.Name s with
  | .error err => .error err
  | .hang => .hang
  | .ok IPList =>
    let excludedIPs := IPList.map (fun IP => IP.Name) ++ groupSegmentMapping.Spec.ExcludedIPs
    match Net.ParseCIDR groupSegmentMapping.Spec.Segment with
    | none => .error (errorsNew ("invalid CIDR address: " ++ groupSegmentMapping.Spec.Segment))
    | some (ipAddress, ones) =>
      let ipnet := Net.network ipAddress ones
      enumerateIPs ipnet excludedIPs enumerationBound
        (To4 (Net.Mask ipAddress ipnet.Mask)) []

/-- The loop of Go `reserveIP` over the available addresses. -/
def reserveLoop (r : VirtualIPReconciler) (gsmName : String) (virtualIP : VirtualIP) :
    List String → Store → Store × Res String
  | [], s => (s, .error (errorsNew "there are no available IPs"))
  | ip :: rest, s =>
      let ipObject := labelIP { Name := ip, Labels := [], Annotations := [] } virtualIP gsmName
      match createIP r.Client ipObject s with
      | (s1, none) => (s1, .ok ip)
      | (s1, some err) =>
          if err.kind ≠ .alreadyExists then
            (s1, .error (errorsNew ("an error occurred while allocating IP: " ++ err.msg)))
          else reserveLoop r gsmName virtualIP rest s1

/-- Go `(r *VirtualIPReconciler).reserveIP`. -/
def reserveIP (r : VirtualIPReconciler) (groupSegmentMapping : GroupSegmentMapping)
    (virtualIP : VirtualIP) (s : Store) : Store × Res String :=
  match getAvailableIPs r groupSegmentMapping s with
  | .error err => (s, .error err)
  | .hang => (s, .hang)
  | .ok availableIPs => reserveLoop r groupSegmentMapping.Name virtualIP availableIPs s

/-- Go `(r *VirtualIPReconciler).getGSMs`. -/
def getGSMs (r : VirtualIPReconciler) (s : Store) : Res (List GroupSegmentMapping) :=
  listGroupSegmentMapping r.Client s

/-- Go `(r *VirtualIPReconciler).getGSMBySegment`: the first listed
segment-mapping whose segment field equals the requested one. -/
def getGSMBySegment (r : VirtualIPReconciler) (segment : String) (s : Store) :
    Res GroupSegmentMapping :=
  match getGSMs r s with
  | .error err => .error err
  | .hang => .hang
  | .ok GroupSegmentMappingList =>
    match GroupSegmentMappingList.find? (fun gsm => gsm.Spec.Segment = segment) with
    | some gsm => .ok gsm
    | none => .error (errorsNew "GroupSegmentMapping not found for the requested segment")

/-- The loop of Go `allocateIP` over all segment-mappings; the result is the
value of `ip, keepalivedGroup, gsmName` when the loop is left. -/
def allocateLoop (r : VirtualIPReconciler) (virtualIP : VirtualIP) :
    List GroupSegmentMapping → Store → Store × Res (String × String × String)
  | [], s => (s, .ok ("", "", ""))
  | gsm :: rest, s =>
      match reserveIP r gsm virtualIP s with
      | (s1, .error err) => (s1, .error err)
      | (s1, .hang) => (s1, .hang)
      | (s1, .ok ip) =>
          if ip ≠ "" then (s1, .ok (ip, gsm.Spec.KeepalivedGroup, gsm.Name))
          else allocateLoop r virtualIP rest s1

/-- The end of Go `allocateIP`: an empty address is an error. -/
def checkAllocated (result : String × String × String) : Res (String × String × String) :=
  if result.1 = "" then .error (errorsNew "no IP could be allocated") else .ok result

/-- Go `(r *VirtualIPReconciler).allocateIP`: address, grouping identifier
and segment-mapping name. -/
def allocateIP (r : VirtualIPReconciler) (virtualIP : VirtualIP) (s : Store) :
    Store × Res (String × String × String) :=
  if virtualIP.Spec.Segment ≠ "" then
    match getGSMBySegment r virtualIP.Spec.Segment s with
    | .error err => (s, .error err)
    | .hang => (s, .hang)
    | .ok gsm =>
      match reserveIP r gsm virtualIP s with
      | (s1, .error err) => (s1, .error err)
      | (s1, .hang) => (s1, .hang)
      | (s1, .ok ip) => (s1, checkAllocated (ip, gsm.Spec.KeepalivedGroup, gsm.Name))
  else
    match getGSMs r s with
    | .error err =>
        (s, .error (errorsNew ("failed to list GroupSegmentMappings: " ++ err.msg)))
    | .hang => (s, .hang)
    | .ok gsms =>
      match allocateLoop r virtualIP gsms s with
      | (s1, .error err) => (s1, .error err)
      | (s1, .hang) => (s1, .hang)
      | (s1, .ok result) => (s1, checkAllocated result)

/-- Go `metav1.Time.IsZero` on the deletion timestamp. -/
def IsZero (t : Option Nat) : Bool := t.isNone

/-- The first block of Go `updateStatus` (`if e != nil`): the error text and
the Error state are written on the object in memory. -/
def recordError (virtualIP : VirtualIP) (e : Option Err) : VirtualIP :=
  match e with
  | some e => { virtualIP with
      Status := { virtualIP.Status with Message := e.msg, State := State.Error } }
  | none => virtualIP

/-- Go `(r *VirtualIPReconciler).updateStatus`. -/
def updateStatus (r : VirtualIPReconciler) (virtualIP : VirtualIP) (e : Option Err)
    (s : Store) : Store × Result × Option Err :=
  let virtualIP := recordError virtualIP e
  if IsZero virtualIP.DeletionTimestamp then
    match updateVirtualIPStatus r.Client virtualIP s with
    | (s1, some err) =>
        (s1, {}, some (errorsNew ("failed to update VirtualIP status: " ++ err.msg)))
    | (s1, none) => (s1, {}, none)
  else (s, {}, none)

/-- Go `client.IgnoreNotFound`. -/
def IgnoreNotFound (err : Err) : Option Err :=
  if err.kind = .notFound then none else some err

/-- The finalizer guarding the IP record. -/
def ipFinalizer : String := "ip.finalizers.virtualips.paas.org"

/-- The finalizer guarding the service binding. -/
def serviceFinalizer : String := "service.finalizers.virtualips.paas.org"

/-- The way one invocation of `Reconcile` is left: through
`return r.updateStatus(virtualIP, logger, e)`, through
`return ctrl.Result{}, err`, by the nil-pointer panic of `*virtualIP.Status.Clone`,
or never (the allocation does not return). -/
inductive Exit where
  | updateStatus (virtualIP : VirtualIP) (e : Option Err)
  | result (err : Option Err)
  | panic
  | hang
deriving DecidableEq, Repr

/-- What the caller of `Reconcile` observes. -/
inductive Return where
  | ret (result : Result) (err : Option Err)
  | panic
  | hang
deriving DecidableEq, Repr

/-- Go `Reconcile`, the branch taken when `deleteVIP` holds: releases
the address while the address finalizer is present. `none`: control goes on
to the service part. -/
def reconcileDeletion (r : VirtualIPReconciler) (virtualIP : VirtualIP) (s : Store) :
    Store × Option Exit :=
  if ContainsFinalizer virtualIP ipFinalizer then
    match deleteIP r.Client virtualIP.Status.IP s with
    | (s1, some err) => (s1, some (.updateStatus virtualIP (some err)))
    | (s1, none) =>
      let virtualIP := RemoveFinalizer virtualIP ipFinalizer
      match updateVirtualIP r.Client virtualIP s1 with
      | (s2, some err) => (s2, some (.updateStatus virtualIP (some err)))
      | (s2, none) => (s2, some (.result none))
  else (s, none)

/-- Go `Reconcile`, the `else` branch of `if deleteVIP`: allocates an address
when none is recorded, otherwise ensures the IP record and the address
finalizer. `none`: control goes on to the service part. -/
def reconcileAddress (r : VirtualIPReconciler) (virtualIP : VirtualIP) (s : Store) :
    Store × Option Exit :=
  if virtualIP.Status.IP = "" then
    match allocateIP r virtualIP s with
    | (s1, .hang) => (s1, some .hang)
    | (s1, .error err) =>
        let virtualIP := { virtualIP with
          Status := { virtualIP.Status with IP := "", KeepalivedGroup := "", GSM := "" } }
        (s1, some (.updateStatus virtualIP
          (some (errorsNew ("could not allocate an IP: " ++ err.msg)))))
    | (s1, .ok (ip, keepalivedGroup, gsmName)) =>
        let virtualIP := { virtualIP with
          Status := { virtualIP.Status with
            IP := ip, KeepalivedGroup := keepalivedGroup, GSM := gsmName,
            Message := "creating IP object for the service", State := State.CreatingIP } }
        (s1, some (.updateStatus virtualIP none))
  else
    let ipObject : IPObject := { Name := virtualIP.Status.IP, Labels := [], Annotations := [] }
    match CreateOrUpdateIP r.Client ipObject
        (fun o => labelIP o virtualIP virtualIP.Status.GSM) s with
    | (s1, some err) =>
        (s1, some (.updateStatus virtualIP
          (some (errorsNew ("could not create/update an IP object: " ++ err.msg)))))
    | (s1, none) =>
      if !ContainsFinalizer virtualIP ipFinalizer then
        let virtualIP := AddFinalizer virtualIP ipFinalizer
        match updateVirtualIP r.Client virtualIP s1 with
        | (s2, some err) =>
            (s2, some (.updateStatus virtualIP
              (some (errorsNew ("could not add finalizer for IP object: " ++ err.msg)))))
        | (s2, none) => (s2, some (.result none))
      else (s1, none)

/-- Go `Reconcile` from `// decide on the service status` to the end. -/
def reconcileService (r : VirtualIPReconciler) (deleteVIP : Bool) (virtualIP : VirtualIP)
    (s : Store) : Store × Exit :=
  if virtualIP.Status.Service = "" then
    let virtualIP := { virtualIP with
      Status := { virtualIP.Status with
        Service := virtualIP.Spec.Service, Clone := some virtualIP.Spec.Clone,
        Message := "exposing service with an external IP", State := State.Exposing } }
    (s, .updateStatus virtualIP none)
  else
    match getService r virtualIP s with
    | .hang => (s, .hang)
    | .error err =>
        (s, .updateStatus virtualIP
          (some (errorsNew ("could not get service to be exposed: " ++ err.msg))))
    | .ok service =>
      match virtualIP.Status.Clone with
      | none => (s, .panic)
      | some clone =>
        match (if clone then cloneService r virtualIP service else .ok service) with
        | .hang => (s, .hang)
        | .error err =>
            (s, .updateStatus virtualIP
              (some (errorsNew ("received error while cloning service: " ++ err.msg))))
        | .ok service =>
          match (if !(deleteVIP && clone) then
                  CreateOrUpdateService r.Client service
                    (fun svc => patchService r svc virtualIP.Status.IP
                      virtualIP.Status.KeepalivedGroup deleteVIP) s
                else (s, none)) with
          | (s1, some err) =>
              (s1, .updateStatus virtualIP
                (some (errorsNew ("failed to create/update the service: " ++ err.msg))))
          | (s1, none) =>
            if deleteVIP || !ContainsFinalizer virtualIP serviceFinalizer then
              let virtualIP :=
                if deleteVIP then RemoveFinalizer virtualIP serviceFinalizer
                else AddFinalizer virtualIP serviceFinalizer
              match updateVirtualIP r.Client virtualIP s1 with
              | (s2, some err) =>
                  (s2, .updateStatus virtualIP
                    (some (errorsNew ("could not add finalizer for service: " ++ err.msg))))
              | (s2, none) => (s2, .result none)
            else
              let virtualIP := { virtualIP with
                Status := { virtualIP.Status with
                  Message := "successfully allocated an IP address", State := State.Valid } }
              (s1, .updateStatus virtualIP none)

/-- Go `Reconcile` up to its `return` statement: the store after the steps of
the invocation and the `return` it is left through. -/
def reconcileSteps (r : VirtualIPReconciler) (req : Request) (s : Store) : Store × Exit :=
  match getVirtualIP r.Client req.Namespace req.Name s with
  | .hang => (s, .hang)
  | .error err => (s, .result (IgnoreNotFound err))
  | .ok virtualIP =>
    let deleteVIP := !IsZero virtualIP.DeletionTimestamp
    match (if deleteVIP then reconcileDeletion r virtualIP s
           else reconcileAddress r virtualIP s) with
    | (s1, some exit) => (s1, exit)
    | (s1, none) => reconcileService r deleteVIP virtualIP s1

/-- Go `(r *VirtualIPReconciler).Reconcile`: the steps, then the `return`
statement reached. -/
def Reconcile (r : VirtualIPReconciler) (req : Request) (s : Store) : Store × Return :=
  match reconcileSteps r req s with
  | (s1, .updateStatus virtualIP e) =>
      ((updateStatus r virtualIP e s1).1,
        .ret (updateStatus r virtualIP e s1).2.1 (updateStatus r virtualIP e s1).2.2)
  | (s1, .result err) => (s1, .ret {} err)
  | (s1, .panic) => (s1, .panic)
  | (s1, .hang) => (s1, .hang)

end Keepalived

/-! ## Definitions used to state the properties -/

namespace Net

/-- Reads a decimal number back (left inverse of `ubtoa`). -/
def atoub (cs : List Char) : Nat := cs.foldl (fun n c => n * 10 + (c.toNat - 48)) 0

/-- The network number of a parsed CIDR, as a number: the address with its
host bits cleared. -/
def networkNumber (ip : IP) (ones : Nat) : Nat :=
  Net.toNat ip / 2 ^ (32 - ones) * 2 ^ (32 - ones)

/-- The addresses a CIDR covers, in ascending order, network and broadcast
address included. -/
def segmentAddresses (ip : IP) (ones : Nat) : List IP :=
  (List.range (2 ^ (32 - ones))).map (fun i => ofNat (Net.networkNumber ip ones + i))

end Net

namespace Keepalived

open Kube Controllerutil

/-- The names `getAvailableIPs` never offers: those of the IP records carrying
the label of the segment-mapping, and the excluded entries of the mapping. -/
def unavailable (gsm : GroupSegmentMapping) (s : Store) : List String :=
  (s.IPs.filter (fun x => mapGet x.Labels groupSegmentMappingLabel = some gsm.Name)).map
    (fun x => x.Name) ++ gsm.Spec.ExcludedIPs

/-- The IP record `reserveIP` creates for an address. -/
def claimOf (gsm : GroupSegmentMapping) (virtualIP : VirtualIP) (ip : String) : IPObject :=
  { Name := ip
    Labels := [(groupSegmentMappingLabel, gsm.Name)]
    Annotations := [("virtualips.paas.il/owner", virtualIP.Namespace ++ "/" ++ virtualIP.Name)] }

/-- Successive `reserveIP` calls on one segment-mapping, one per requester,
each on the store the previous one left: the final store and the results in
call order. -/
def reserveAll (r : VirtualIPReconciler) (gsm : GroupSegmentMapping) :
    List VirtualIP → Store → Store × List (Res String)
  | [], s => (s, [])
  | v :: vs, s =>
      ((reserveAll r gsm vs (reserveIP r gsm v s).1).1,
        (reserveIP r gsm v s).2 :: (reserveAll r gsm vs (reserveIP r gsm v s).1).2)

/-! ### Example objects -/

/-- Example reconciler: every request is served, the VirtualIP kind is
registered, the environment is empty. -/
def exampleReconciler : VirtualIPReconciler :=
  { Client := Client.reliable, Scheme := some ("paas.org/v1", "VirtualIP"), Getenv := fun _ => "" }

/-- Example segment-mapping `10.0.0.0/30` that excludes `10.0.0.1`. -/
def exampleGSM : GroupSegmentMapping :=
  { Name := "a", Spec := { Segment := "10.0.0.0/30", ExcludedIPs := ["10.0.0.1"], KeepalivedGroup := "g1" } }

/-- Example segment-mapping whose base address `10.0.0.7` is not aligned to
its prefix length 30. -/
def unalignedGSM : GroupSegmentMapping :=
  { Name := "u", Spec := { Segment := "10.0.0.7/30", ExcludedIPs := [], KeepalivedGroup := "g1" } }

/-- Example segment-mapping `10.0.0.0/30` without exclusions. -/
def exampleOpenGSM : GroupSegmentMapping :=
  { Name := "a", Spec := { Segment := "10.0.0.0/30", ExcludedIPs := [], KeepalivedGroup := "g1" } }

/-- Example requester: a fresh VirtualIP `ns/v` for service `svc`. -/
def exampleVirtualIP : VirtualIP :=
  { Namespace := "ns", Name := "v", UID := "u", DeletionTimestamp := none, Finalizers := [],
    Spec := { Segment := "", Service := "svc", Clone := false },
    Status := { IP := "", GSM := "", KeepalivedGroup := "", Service := "", Clone := none,
                State := State.unset, Message := "" } }

/-- Example store: `10.0.0.0` is claimed under the label of another mapping. -/
def exampleStore : Store :=
  { VirtualIPs := [exampleVirtualIP],
    IPs := [{ Name := "10.0.0.0", Labels := [("gsm", "other")], Annotations := [] }],
    GroupSegmentMappings := [exampleGSM],
    Services := [] }

/-- Example store without any IP record. -/
def exampleEmptyStore : Store :=
  { VirtualIPs := [exampleVirtualIP], IPs := [], GroupSegmentMappings := [exampleOpenGSM],
    Services := [] }

end Keepalived

namespace Keepalived

open Kube Controllerutil

/-! ### Definitions for the properties of `Reconcile` -/

/-- Example segment-mapping A, `10.0.0.0/31`, with `10.0.0.1` excluded. -/
def exhaustedGSM : GroupSegmentMapping :=
  { Name := "a", Spec := { Segment := "10.0.0.0/31", ExcludedIPs := ["10.0.0.1"], KeepalivedGroup := "ga" } }

/-- Example segment-mapping B, `10.0.1.0/30`, nothing excluded. -/
def freeGSM : GroupSegmentMapping :=
  { Name := "b", Spec := { Segment := "10.0.1.0/30", ExcludedIPs := [], KeepalivedGroup := "gb" } }

/-- Example store listing A then B, where the only other address of A,
`10.0.0.0`, is claimed: A is exhausted, every address of B is free. -/
def fallThroughStore : Store :=
  { VirtualIPs := [exampleVirtualIP],
    IPs := [{ Name := "10.0.0.0", Labels := [("gsm", "a")], Annotations := [("virtualips.paas.il/owner", "ns/w")] }],
    GroupSegmentMappings := [exhaustedGSM, freeGSM],
    Services := [] }

/-- Example deleting VirtualIP that still carries both finalizers and records
the address `10.0.0.2`. -/
def releasingVirtualIP : VirtualIP :=
  { Namespace := "ns", Name := "v", UID := "u", DeletionTimestamp := some 1,
    Finalizers := [ipFinalizer, serviceFinalizer],
    Spec := { Segment := "", Service := "svc", Clone := false },
    Status := { IP := "10.0.0.2", GSM := "a", KeepalivedGroup := "g1", Service := "svc",
                Clone := some false, State := State.Valid,
                Message := "successfully allocated an IP address" } }

/-- Example bound service `ns/svc`. -/
def boundService : Service :=
  { Namespace := "ns", Name := "svc", ResourceVersion := "7",
    Annotations := [("keepalived-operator.redhat-cop.io/keepalivedgroup", "keepalived-operator/g1")],
    OwnerReferences := [],
    Spec := { ClusterIP := "172.30.0.9", ExternalIPs := ["10.0.0.2"], Rest := "ports" },
    Rest := "labels" }

/-- Example store after a deletion that removed the IP record `10.0.0.2` but
did not persist the removal of the address finalizer. -/
def redeliveryStore : Store :=
  { VirtualIPs := [releasingVirtualIP], IPs := [], GroupSegmentMappings := [exampleGSM],
    Services := [boundService] }

/-- Repeated invocations of `Reconcile` for one key, each on the store the
previous one left. -/
def reconcileTimes (r : VirtualIPReconciler) (req : Request) : Nat → Store → Store
  | 0, s => s
  | n + 1, s => reconcileTimes r req n (Reconcile r req s).1

/-- The part of the store an allocation leaves alone: everything but the IP
records. -/
def sameButIPs (s1 s : Store) : Prop :=
  s1.VirtualIPs = s.VirtualIPs ∧ s1.GroupSegmentMappings = s.GroupSegmentMappings ∧
    s1.Services = s.Services

/-- The part of the store a service write leaves alone. -/
def sameButServices (s1 s : Store) : Prop :=
  s1.VirtualIPs = s.VirtualIPs ∧ s1.GroupSegmentMappings = s.GroupSegmentMappings ∧
    s1.IPs = s.IPs

/-- The part of the store a write of a VirtualIP leaves alone. -/
def sameButVirtualIPs (s1 s : Store) : Prop :=
  s1.IPs = s.IPs ∧ s1.GroupSegmentMappings = s.GroupSegmentMappings ∧
    s1.Services = s.Services

/-- The finalizer is on the stored VirtualIP of the key, when one is stored. -/
def keepsFinalizer (f ns name : String) (s : Store) : Prop :=
  ∀ v, s.virtualIP ns name = some v → f ∈ v.Finalizers

/-- The clone `cloneService` builds from a service for an owner whose kind is
registered as `gvk`. -/
def cloneOf (gvk : String × String) (virtualIP : VirtualIP) (service : Service) : Service :=
  { service with
    Name := service.Name ++ "-keepalived-clone"
    ResourceVersion := ""
    OwnerReferences := [⟨gvk.1, gvk.2, virtualIP.Name, virtualIP.UID⟩]
    Spec := { service.Spec with ClusterIP := "" } }

/-- Every stored VirtualIP of `s` is stored in `s1` under the same key with
the same status. -/
def statusKept (s s1 : Store) : Prop :=
  ∀ ns name, (s1.virtualIP ns name).map (fun v => v.Status) =
    (s.virtualIP ns name).map (fun v => v.Status)

/-- The object in memory `vip` is the fetched object `v0` up to status and
finalizers. -/
def sameObject (v0 vip : VirtualIP) : Prop :=
  vip.Namespace = v0.Namespace ∧ vip.Name = v0.Name ∧
    vip.DeletionTimestamp = v0.DeletionTimestamp

/-- The service a bind leaves for a clone: the clone of the target, patched
with the address and the group. -/
def boundCloneOf (r : VirtualIPReconciler) (gvk : String × String) (virtualIP : VirtualIP)
    (service : Service) : Service :=
  patchService r (cloneOf gvk virtualIP service) virtualIP.Status.IP
    virtualIP.Status.KeepalivedGroup false

/-- Example IP record `10.0.0.2`, as `reserveIP` creates it for `ns/v`. -/
def exampleClaim : IPObject :=
  { Name := "10.0.0.2", Labels := [("gsm", "a")],
    Annotations := [("virtualips.paas.il/owner", "ns/v")] }

/-- Example store at the start of a teardown: the deleting VirtualIP carries
both finalizers, its IP record and its bound service exist. -/
def teardownStore : Store :=
  { VirtualIPs := [releasingVirtualIP], IPs := [exampleClaim],
    GroupSegmentMappings := [exampleGSM], Services := [boundService] }

/-- Example deleting VirtualIP whose address is released: only the service
finalizer is left. -/
def unbindingVirtualIP : VirtualIP :=
  { releasingVirtualIP with Finalizers := [serviceFinalizer] }

/-- Example store in the second phase of a teardown. -/
def unbindStore : Store :=
  { VirtualIPs := [unbindingVirtualIP], IPs := [], GroupSegmentMappings := [exampleGSM],
    Services := [boundService] }

/-- Example reconciler whose store rejects every update of service `ns/svc`. -/
def serviceUpdateFails : VirtualIPReconciler :=
  { exampleReconciler with
    Client := fun op =>
      if op = Op.updateService "ns" "svc" then some (errorsNew "the server is unavailable")
      else none }

/-- Example store without any segment-mapping. -/
def noPoolStore : Store :=
  { VirtualIPs := [exampleVirtualIP], IPs := [], GroupSegmentMappings := [], Services := [] }

/-- Example VirtualIP in the steady state `Valid`. -/
def validVirtualIP : VirtualIP :=
  { releasingVirtualIP with DeletionTimestamp := none }

/-- Example store in the steady state. -/
def steadyStore : Store :=
  { VirtualIPs := [validVirtualIP], IPs := [exampleClaim], GroupSegmentMappings := [exampleGSM],
    Services := [boundService] }

/-- Example target service `ns/svc` that carries no binding. -/
def plainService : Service :=
  { Namespace := "ns", Name := "svc", ResourceVersion := "7",
    Annotations := [("team", "blue")],
    OwnerReferences := [⟨"apps/v1", "Deployment", "web", "d1"⟩],
    Spec := { ClusterIP := "172.30.0.9", ExternalIPs := [], Rest := "ports" },
    Rest := "labels" }

/-- Example VirtualIP in clone mode, address claimed, service recorded, not
yet exposed. -/
def cloningVirtualIP : VirtualIP :=
  { Namespace := "ns", Name := "v", UID := "u", DeletionTimestamp := none,
    Finalizers := [ipFinalizer],
    Spec := { Segment := "", Service := "svc", Clone := true },
    Status := { IP := "10.0.0.2", GSM := "a", KeepalivedGroup := "g1", Service := "svc",
                Clone := some true, State := State.Exposing,
                Message := "exposing service with an external IP" } }

/-- Example store before the clone exists. -/
def cloneStore : Store :=
  { VirtualIPs := [cloningVirtualIP], IPs := [exampleClaim],
    GroupSegmentMappings := [exampleGSM], Services := [plainService] }

end Keepalived

namespace Keepalived

open Net Kube Controllerutil

/-! ### Definitions for the properties of patching, cloning and convergence -/

/-- The service `cloneService` hands to `SetOwnerReference`: renamed, without
cluster address, resource version and owner references. -/
def detachedCopy (service : Service) : Service :=
  { service with Name := service.Name ++ "-keepalived-clone", ResourceVersion := "",
                 OwnerReferences := [],
                 Spec := { service.Spec with ClusterIP := "" } }

/-- Example segment-mapping whose segment is the whole address space. -/
def wholeSpaceGSM : GroupSegmentMapping :=
  { Name := "all", Spec := { Segment := "0.0.0.0/0", ExcludedIPs := [], KeepalivedGroup := "g0" } }

/-- Example VirtualIP whose spec names no target service: address recorded,
address finalizer present, nothing recorded for the service. -/
def unnamedServiceVirtualIP : VirtualIP :=
  { Namespace := "ns", Name := "v", UID := "u", DeletionTimestamp := none,
    Finalizers := [ipFinalizer],
    Spec := { Segment := "", Service := "", Clone := false },
    Status := { IP := "10.0.0.2", GSM := "a", KeepalivedGroup := "g1", Service := "",
                Clone := none, State := State.CreatingIP,
                Message := "creating IP object for the service" } }

/-- Example store holding `unnamedServiceVirtualIP` and its IP record. -/
def unnamedServiceStore : Store :=
  { VirtualIPs := [unnamedServiceVirtualIP], IPs := [exampleClaim],
    GroupSegmentMappings := [exampleGSM], Services := [boundService] }

/-- An address `reserveIP` may claim for a segment-mapping in a store: a
4-byte address of the network that is not excluded and is not the name of any
IP record. -/
def freeAddress (gsm : GroupSegmentMapping) (s : Store) (ip : IP) (ones : Nat) (a : IP) : Prop :=
  IsIPv4 a ∧ Contains (network ip ones) a = true ∧ IPString a ∉ gsm.Spec.ExcludedIPs ∧
    ∀ x ∈ s.IPs, x.Name ≠ IPString a

/-- The finalizer is not on the stored VirtualIP of the key, when one is
stored. -/
def lacksFinalizer (f ns name : String) (s : Store) : Prop :=
  ∀ v, s.virtualIP ns name = some v → f ∉ v.Finalizers

/-- Example fresh VirtualIP `ns/v` that pins the segment `10.0.0.0/30`. -/
def pinnedVirtualIP : VirtualIP :=
  { exampleVirtualIP with Spec := { Segment := "10.0.0.0/30", Service := "svc", Clone := false } }

/-- Example store for a pinned allocation: the mapping of the pinned segment
is listed second, `10.0.0.0` is claimed, the target service exists. -/
def pinnedStore : Store :=
  { VirtualIPs := [pinnedVirtualIP],
    IPs := [{ Name := "10.0.0.0", Labels := [("gsm", "other")], Annotations := [] }],
    GroupSegmentMappings := [freeGSM, exampleGSM],
    Services := [plainService] }

/-- Example store in which no segment-mapping has the pinned segment. -/
def unmatchedStore : Store :=
  { pinnedStore with GroupSegmentMappings := [freeGSM] }

/-- Example VirtualIP right after the allocation: address recorded, no
finalizer yet. -/
def claimedVirtualIP : VirtualIP :=
  { Namespace := "ns", Name := "v", UID := "u", DeletionTimestamp := none, Finalizers := [],
    Spec := { Segment := "", Service := "svc", Clone := false },
    Status := { IP := "10.0.0.2", GSM := "a", KeepalivedGroup := "g1", Service := "",
                Clone := none, State := State.CreatingIP,
                Message := "creating IP object for the service" } }

/-- Example store right after the allocation. -/
def claimedStore : Store :=
  { VirtualIPs := [claimedVirtualIP], IPs := [exampleClaim],
    GroupSegmentMappings := [exampleGSM], Services := [plainService] }

/-- Example deleting VirtualIP in clone mode whose address is released. -/
def releasingCloneVirtualIP : VirtualIP :=
  { Namespace := "ns", Name := "v", UID := "u", DeletionTimestamp := some 1,
    Finalizers := [serviceFinalizer],
    Spec := { Segment := "", Service := "svc", Clone := true },
    Status := { IP := "10.0.0.2", GSM := "a", KeepalivedGroup := "g1", Service := "svc",
                Clone := some true, State := State.Valid,
                Message := "successfully allocated an IP address" } }

/-- Example store in the second phase of a clone-mode teardown: the target
service and its bound clone. -/
def cloneTeardownStore : Store :=
  { VirtualIPs := [releasingCloneVirtualIP], IPs := [], GroupSegmentMappings := [exampleGSM],
    Services := [plainService,
      boundCloneOf exampleReconciler ("paas.org/v1", "VirtualIP") releasingCloneVirtualIP
        plainService] }

/-- Example segment-mapping of `10.0.0.0/30` that excludes all four
addresses. -/
def fullGSM : GroupSegmentMapping :=
  { Name := "full",
    Spec := { Segment := "10.0.0.0/30",
              ExcludedIPs := ["10.0.0.0", "10.0.0.1", "10.0.0.2", "10.0.0.3"],
              KeepalivedGroup := "g0" } }

/-- Example segment-mapping of `10.0.0.0/30` without exclusions, under a name
and a group of its own. -/
def twinGSM : GroupSegmentMapping :=
  { Name := "twin", Spec := { Segment := "10.0.0.0/30", ExcludedIPs := [], KeepalivedGroup := "g2" } }

/-- Example store with two segment-mappings of the pinned segment
`10.0.0.0/30`: the exhausted one is listed before the one with free
addresses. -/
def shadowedStore : Store :=
  { VirtualIPs := [pinnedVirtualIP], IPs := [], GroupSegmentMappings := [fullGSM, exampleGSM],
    Services := [plainService] }

/-- Example store with two segment-mappings of the pinned segment
`10.0.0.0/30` that both have free addresses. -/
def twinStore : Store :=
  { VirtualIPs := [pinnedVirtualIP], IPs := [], GroupSegmentMappings := [twinGSM, exampleGSM],
    Services := [plainService] }

end Keepalived


/-! # Properties -/

namespace Keepalived

open Net Kube Controllerutil

/-! ## Arithmetic of addresses and networks -/

theorem toNat_four (a b c d : Nat) : Net.toNat [a, b, c, d] = a * 16777216 + b * 65536 + c * 256 + d := by
  simp only [Net.toNat, List.foldl]; omega

theorem ofNat_toNat (a b c d : Nat) (ha : a < 256) (hb : b < 256) (hc : c < 256) (hd : d < 256) :
    ofNat (Net.toNat [a, b, c, d]) = [a, b, c, d] := by
  rw [toNat_four]
  simp only [ofNat, List.cons.injEq, and_true]
  refine ⟨?_, ?_, ?_, ?_⟩ <;> omega

theorem toNat_ofNat (v : Nat) (hv : v < 2 ^ 32) : Net.toNat (ofNat v) = v := by
  simp only [ofNat, toNat_four]
  omega

theorem incrementIP_ofNat (v : Nat) (hv : v < 2 ^ 32) :
    incrementIP (ofNat v) = ofNat ((v + 1) % 2 ^ 32) := by
  simp only [incrementIP, ofNat, List.reverse_cons, List.reverse_nil, List.nil_append,
    List.cons_append, incrementBytes]
  split_ifs <;> simp only [List.reverse_cons, List.reverse_nil, List.nil_append,
    List.cons_append, incrementBytes, List.cons.injEq, and_true] <;> refine ⟨?_, ?_, ?_, ?_⟩ <;> omega

set_option maxRecDepth 100000 in
theorem and_masks : ∀ b < 256, b &&& 255 = b ∧ b &&& 254 = b / 2 * 2 ∧ b &&& 252 = b / 4 * 4 ∧
    b &&& 248 = b / 8 * 8 ∧ b &&& 240 = b / 16 * 16 ∧ b &&& 224 = b / 32 * 32 ∧
    b &&& 192 = b / 64 * 64 ∧ b &&& 128 = b / 128 * 128 := by
  decide

theorem and255 (b : Nat) (h : b < 256) : b &&& 255 = b := (and_masks b h).1
theorem and254 (b : Nat) (h : b < 256) : b &&& 254 = b / 2 * 2 := (and_masks b h).2.1
theorem and252 (b : Nat) (h : b < 256) : b &&& 252 = b / 4 * 4 := (and_masks b h).2.2.1
theorem and248 (b : Nat) (h : b < 256) : b &&& 248 = b / 8 * 8 := (and_masks b h).2.2.2.1
theorem and240 (b : Nat) (h : b < 256) : b &&& 240 = b / 16 * 16 := (and_masks b h).2.2.2.2.1
theorem and224 (b : Nat) (h : b < 256) : b &&& 224 = b / 32 * 32 := (and_masks b h).2.2.2.2.2.1
theorem and192 (b : Nat) (h : b < 256) : b &&& 192 = b / 64 * 64 := (and_masks b h).2.2.2.2.2.2.1
theorem and128 (b : Nat) (h : b < 256) : b &&& 128 = b / 128 * 128 := (and_masks b h).2.2.2.2.2.2.2

theorem and_and_self (a m : Nat) : a &&& m &&& m = a &&& m := by
  rw [Nat.and_assoc, Nat.and_self]

theorem mask_network (a b c d p : Nat) (ha : a < 256) (hb : b < 256) (hc : c < 256)
    (hd : d < 256) (hp : p ≤ 32) :
    Mask [a, b, c, d] (CIDRMask p 32) =
      ofNat (Net.toNat [a, b, c, d] / 2 ^ (32 - p) * 2 ^ (32 - p)) := by
  rw [toNat_four]
  interval_cases p <;>
    simp (disch := assumption) only [CIDRMask, CIDRMaskBytes, Mask, List.length_cons, List.length_nil,
     if_true, List.zipWith, and255, and254, and252, and248, and240, and224, and192, and128,
     Nat.and_zero, ofNat, Nat.reduceDiv, Nat.reducePow, Nat.reduceSub, Nat.reduceLeDiff,
     List.cons.injEq, and_true, if_false, Nat.reduceAdd, ite_true, ite_false] <;>
    refine ⟨?_, ?_, ?_, ?_⟩ <;> omega

theorem contains_network (a b c d x y z w p : Nat) (ha : a < 256) (hb : b < 256) (hc : c < 256)
    (hd : d < 256) (hx : x < 256) (hy : y < 256) (hz : z < 256) (hw : w < 256) (hp : p ≤ 32) :
    Contains (network [a, b, c, d] p) [x, y, z, w] = true ↔
      Net.toNat [x, y, z, w] / 2 ^ (32 - p) = Net.toNat [a, b, c, d] / 2 ^ (32 - p) := by
  rw [toNat_four, toNat_four]
  interval_cases p <;>
    simp only [Contains, network, sameNetwork, CIDRMask, CIDRMaskBytes, Mask,
     List.length_cons, List.length_nil, and_and_self, decide_True, Bool.true_and,
     if_true, List.zipWith, true_iff,
     Nat.and_zero, Nat.reduceDiv, Nat.reducePow, Nat.reduceSub, Nat.reduceLeDiff,
     Bool.and_true, Bool.and_eq_true, decide_eq_true_eq,
     and_true, if_false, Nat.reduceAdd, ite_true, ite_false, true_and, Nat.div_one] <;>
    (try simp (disch := assumption) only [and255, and254, and252, and248, and240, and224, and192, and128]) <;>
    omega



set_option maxRecDepth 100000 in
theorem atoub_ubtoa : ∀ v < 256, Net.atoub (ubtoa v) = v ∧ '.' ∉ ubtoa v := by decide

theorem append_sep_inj {α : Type} (x : α) : ∀ (l1 l2 r1 r2 : List α), x ∉ l1 → x ∉ l2 →
    l1 ++ x :: r1 = l2 ++ x :: r2 → l1 = l2 ∧ r1 = r2 := by
  intro l1
  induction l1 with
  | nil =>
    intro l2 r1 r2 _ h2 h
    cases l2 with
    | nil => simpa using h
    | cons y ys =>
      simp only [List.nil_append, List.cons_append, List.cons.injEq] at h
      exact absurd (h.1 ▸ List.mem_cons_self _ _) h2
  | cons y ys ih =>
    intro l2 r1 r2 h1 h2 h
    cases l2 with
    | nil =>
      simp only [List.nil_append, List.cons_append, List.cons.injEq] at h
      exact absurd (h.1 ▸ List.mem_cons_self _ _) h1
    | cons z zs =>
      simp only [List.cons_append, List.cons.injEq] at h
      have := ih zs r1 r2 (fun hm => h1 (List.mem_cons_of_mem _ hm))
        (fun hm => h2 (List.mem_cons_of_mem _ hm)) h.2
      exact ⟨by rw [h.1, this.1], this.2⟩

theorem ubtoa_inj (a b : Nat) (ha : a < 256) (hb : b < 256) (h : ubtoa a = ubtoa b) : a = b := by
  have h1 := (atoub_ubtoa a ha).1
  have h2 := (atoub_ubtoa b hb).1
  rw [h] at h1
  omega

theorem IPString_four_inj (a b c d x y z w : Nat) (ha : a < 256) (hb : b < 256) (hc : c < 256)
    (hd : d < 256) (hx : x < 256) (hy : y < 256) (hz : z < 256) (hw : w < 256)
    (h : IPString [a, b, c, d] = IPString [x, y, z, w]) : [a, b, c, d] = [x, y, z, w] := by
  simp only [IPString] at h
  replace h := congrArg String.data h
  simp only at h
  obtain ⟨h1, h⟩ := append_sep_inj '.' _ _ _ _ (atoub_ubtoa a ha).2 (atoub_ubtoa x hx).2 h
  obtain ⟨h2, h⟩ := append_sep_inj '.' _ _ _ _ (atoub_ubtoa b hb).2 (atoub_ubtoa y hy).2 h
  obtain ⟨h3, h4⟩ := append_sep_inj '.' _ _ _ _ (atoub_ubtoa c hc).2 (atoub_ubtoa z hz).2 h
  rw [ubtoa_inj a x ha hx h1, ubtoa_inj b y hb hy h2, ubtoa_inj c z hc hz h3, ubtoa_inj d w hd hw h4]

theorem IPString_ofNat_inj (u v : Nat) (hu : u < 2 ^ 32) (hv : v < 2 ^ 32)
    (h : IPString (ofNat u) = IPString (ofNat v)) : u = v := by
  have := IPString_four_inj _ _ _ _ _ _ _ _ (by omega) (by omega) (by omega) (by omega)
    (by omega) (by omega) (by omega) (by omega) h
  simp only [List.cons.injEq, and_true] at this
  omega

theorem segment_arith_in (T p j : Nat) (hT : T < 2 ^ 32) (hp : p ≤ 32) (hj : j < 2 ^ (32 - p)) :
    (T / 2 ^ (32 - p) * 2 ^ (32 - p) + j) / 2 ^ (32 - p) = T / 2 ^ (32 - p) ∧
      T / 2 ^ (32 - p) * 2 ^ (32 - p) + j < 2 ^ 32 := by
  interval_cases p <;> simp only [Nat.reduceSub, Nat.reducePow] at hj ⊢ <;> omega

theorem segment_arith_out (T p : Nat) (_hT : T < 2 ^ 32) (hp : p ≤ 32) (hp1 : 1 ≤ p) :
    ((T / 2 ^ (32 - p) * 2 ^ (32 - p) + 2 ^ (32 - p)) % 2 ^ 32) / 2 ^ (32 - p) ≠
      T / 2 ^ (32 - p) := by
  interval_cases p <;> simp only [Nat.reduceSub, Nat.reducePow] <;> omega

theorem isIPv4_ofNat (v : Nat) : IsIPv4 (ofNat v) := by
  refine ⟨rfl, ?_⟩
  intro b hb
  simp only [ofNat, List.mem_cons, List.mem_singleton, List.mem_nil_iff, or_false] at hb
  omega

theorem isIPv4_eq (ip : IP) (h : IsIPv4 ip) : ip = ofNat (Net.toNat ip) ∧ Net.toNat ip < 2 ^ 32 := by
  obtain ⟨hl, hb⟩ := h
  match ip, hl with
  | [a, b, c, d], _ =>
    have ha := hb a (by simp)
    have hb1 := hb b (by simp)
    have hc := hb c (by simp)
    have hd := hb d (by simp)
    refine ⟨(ofNat_toNat a b c d ha hb1 hc hd).symm, ?_⟩
    rw [toNat_four]; omega

theorem contains_ofNat (ip : IP) (p v : Nat) (hip : IsIPv4 ip) (hp : p ≤ 32) (hv : v < 2 ^ 32) :
    Contains (network ip p) (ofNat v) = true ↔ v / 2 ^ (32 - p) = Net.toNat ip / 2 ^ (32 - p) := by
  obtain ⟨hl, hb⟩ := hip
  match ip, hl with
  | [a, b, c, d], _ =>
    have h := contains_network a b c d (v / 16777216 % 256) (v / 65536 % 256) (v / 256 % 256)
      (v % 256) p (hb a (by simp)) (hb b (by simp)) (hb c (by simp)) (hb d (by simp))
      (by omega) (by omega) (by omega) (by omega) hp
    have h2 := toNat_ofNat v hv
    unfold ofNat at h2 ⊢
    rw [h2] at h
    exact h

theorem enumerateIPs_segment (ip : IP) (p : Nat) (excl : List String) (hip : IsIPv4 ip)
    (hp : p ≤ 32) (hp1 : 1 ≤ p) :
    ∀ (n j fuel : Nat) (acc : List String), j + n = 2 ^ (32 - p) → n + 1 ≤ fuel →
      enumerateIPs (network ip p) excl fuel (ofNat ((Net.networkNumber ip p + j) % 2 ^ 32)) acc =
        .ok (acc ++ ((List.range' j n).map
          (fun i => IPString (ofNat (Net.networkNumber ip p + i)))).filter
            (fun str => !contains excl str)) := by
  have hT := (isIPv4_eq ip hip).2
  intro n
  induction n with
  | zero =>
    intro j fuel acc hj hf
    obtain ⟨f, rfl⟩ : ∃ f, fuel = f + 1 := ⟨fuel - 1, by omega⟩
    have hout := segment_arith_out (Net.toNat ip) p hT hp hp1
    have hc : Contains (network ip p) (ofNat ((Net.networkNumber ip p + j) % 2 ^ 32)) = false := by
      rw [Bool.eq_false_iff, Ne, contains_ofNat ip p _ hip hp (Nat.mod_lt _ (by norm_num))]
      simp only [Nat.add_zero] at hj
      rw [hj]
      exact hout
    simp only [enumerateIPs, hc, Bool.false_eq_true, if_false, List.range', List.map_nil,
      List.filter_nil, List.append_nil]
  | succ n ih =>
    intro j fuel acc hj hf
    obtain ⟨f, rfl⟩ : ∃ f, fuel = f + 1 := ⟨fuel - 1, by omega⟩
    have hin := segment_arith_in (Net.toNat ip) p j hT hp (by omega)
    have hlt : Net.networkNumber ip p + j < 2 ^ 32 := hin.2
    have hc : Contains (network ip p) (ofNat (Net.networkNumber ip p + j)) = true := by
      rw [contains_ofNat ip p _ hip hp hlt]
      exact hin.1
    rw [Nat.mod_eq_of_lt hlt]
    simp only [enumerateIPs, hc, if_true]
    rw [incrementIP_ofNat _ hlt, Nat.add_assoc, ih (j + 1) f _ (by omega) (by omega)]
    simp only [List.range', List.map_cons, List.filter_cons]
    by_cases hx : contains excl (IPString (ofNat (Net.networkNumber ip p + j))) = true
    · simp [hx]
    · simp [hx]

theorem parseField_le (s : List Char) (n : Nat) (rest : List Char)
    (h : parseField s = some (n, rest)) : n < 256 := by
  unfold parseField at h
  split at h
  · split_ifs at h
    simp only [Option.some.injEq, Prod.mk.injEq] at h
    omega
  · exact absurd h (by simp)

theorem parseIPv4_wf (s : List Char) (ip : IP) (h : parseIPv4 s = some ip) : IsIPv4 ip := by
  unfold parseIPv4 at h
  split at h
  · exact absurd h (by simp)
  · rename_i a s1 h1
    split at h
    · exact absurd h (by simp)
    · split at h
      · exact absurd h (by simp)
      · rename_i b s3 h2
        split at h
        · exact absurd h (by simp)
        · split at h
          · exact absurd h (by simp)
          · rename_i c s5 h3
            split at h
            · exact absurd h (by simp)
            · split at h
              · rename_i d h4
                simp only [Option.some.injEq] at h
                subst h
                refine ⟨rfl, ?_⟩
                intro x hx
                simp only [List.mem_cons, List.mem_singleton, List.mem_nil_iff, or_false] at hx
                have := parseField_le _ _ _ h1
                have := parseField_le _ _ _ h2
                have := parseField_le _ _ _ h3
                have := parseField_le _ _ _ h4
                omega
              · exact absurd h (by simp)

theorem ParseCIDR_wf (s : String) (ip : IP) (n : Nat) (h : ParseCIDR s = some (ip, n)) :
    IsIPv4 ip ∧ n ≤ 32 := by
  unfold ParseCIDR at h
  split at h
  · exact absurd h (by simp)
  · split at h
    · rename_i hip _
      split_ifs at h with hn
      simp only [Option.some.injEq, Prod.mk.injEq] at h
      exact ⟨h.1 ▸ parseIPv4_wf _ _ hip, h.2 ▸ hn⟩
    · exact absurd h (by simp)


theorem getAvailableIPs_eq (r : VirtualIPReconciler) (gsm : GroupSegmentMapping) (s : Store)
    (ip : IP) (ones : Nat) (hlist : r.Client .listIP = none)
    (hparse : ParseCIDR gsm.Spec.Segment = some (ip, ones)) (hones : 1 ≤ ones) :
    getAvailableIPs r gsm s =
      .ok (((segmentAddresses ip ones).map IPString).filter
        (fun str => !contains (unavailable gsm s) str)) := by
  obtain ⟨hip, hle⟩ := ParseCIDR_wf _ _ _ hparse
  have hstart : To4 (Mask ip (network ip ones).Mask) =
      ofNat ((networkNumber ip ones + 0) % 2 ^ 32) := by
    obtain ⟨hl, hb⟩ := hip
    match ip, hl with
    | [a, b, c, d], _ =>
      have hm := mask_network a b c d ones (hb a (by simp)) (hb b (by simp)) (hb c (by simp))
        (hb d (by simp)) hle
      have hlt : Net.toNat [a, b, c, d] < 2 ^ 32 := by rw [toNat_four]; have := hb a (by simp); have := hb b (by simp); have := hb c (by simp); have := hb d (by simp); omega
      have hin := segment_arith_in (Net.toNat [a, b, c, d]) ones 0 hlt hle (by positivity)
      simp only [network, hm, networkNumber]
      rw [Nat.mod_eq_of_lt hin.2]
      simp [To4, ofNat]
  have hfuel : 2 ^ (32 - ones) + 1 ≤ enumerationBound := by
    have : 2 ^ (32 - ones) ≤ 2 ^ 32 := Nat.pow_le_pow_right (by norm_num) (by omega)
    unfold enumerationBound; omega
  simp only [getAvailableIPs, listIP, hlist, hparse]
  rw [hstart, enumerateIPs_segment ip ones _ hip hle hones (2 ^ (32 - ones)) 0 _ [] (by omega) hfuel]
  simp only [List.nil_append, segmentAddresses, unavailable, List.range_eq_range', List.map_map]
  rfl

theorem segment_arith_range (T p v : Nat) (hp : p ≤ 32) :
    v / 2 ^ (32 - p) = T / 2 ^ (32 - p) ↔
      (T / 2 ^ (32 - p) * 2 ^ (32 - p) ≤ v ∧ v < T / 2 ^ (32 - p) * 2 ^ (32 - p) + 2 ^ (32 - p)) := by
  interval_cases p <;> simp only [Nat.reduceSub, Nat.reducePow] <;> omega

theorem contains_iff_range (ip a : IP) (p : Nat) (hip : IsIPv4 ip) (ha : IsIPv4 a) (hp : p ≤ 32) :
    Contains (network ip p) a = true ↔
      (networkNumber ip p ≤ Net.toNat a ∧ Net.toNat a < networkNumber ip p + 2 ^ (32 - p)) := by
  obtain ⟨he, hlt⟩ := isIPv4_eq a ha
  rw [he, contains_ofNat ip p _ hip hp hlt, toNat_ofNat _ hlt]
  exact segment_arith_range _ _ _ hp

theorem mem_segmentAddresses (ip a : IP) (p : Nat) (hip : IsIPv4 ip) (hp : p ≤ 32) :
    a ∈ segmentAddresses ip p ↔ (IsIPv4 a ∧ Contains (network ip p) a = true) := by
  have hT := (isIPv4_eq ip hip).2
  simp only [segmentAddresses, List.mem_map, List.mem_range]
  constructor
  · rintro ⟨i, hi, rfl⟩
    have hin := segment_arith_in (Net.toNat ip) p i hT hp hi
    refine ⟨isIPv4_ofNat _, ?_⟩
    unfold networkNumber
    rw [contains_ofNat ip p _ hip hp hin.2]
    exact hin.1
  · rintro ⟨ha, hc⟩
    rw [contains_iff_range ip a p hip ha hp] at hc
    refine ⟨Net.toNat a - networkNumber ip p, by omega, ?_⟩
    rw [show networkNumber ip p + (Net.toNat a - networkNumber ip p) = Net.toNat a by omega]
    exact (isIPv4_eq a ha).1.symm

theorem segmentAddresses_sorted (ip : IP) (p : Nat) (hip : IsIPv4 ip) (hp : p ≤ 32) :
    (segmentAddresses ip p).Pairwise (fun a b => Net.toNat a < Net.toNat b) := by
  have hT := (isIPv4_eq ip hip).2
  unfold segmentAddresses
  rw [List.pairwise_map]
  refine List.Pairwise.imp_of_mem ?_ (List.pairwise_lt_range _)
  intro i j hi hj hij
  rw [List.mem_range] at hi hj
  unfold networkNumber
  rw [toNat_ofNat _ (segment_arith_in _ p i hT hp hi).2,
    toNat_ofNat _ (segment_arith_in _ p j hT hp hj).2]
  omega

theorem IPString_inj (a b : IP) (ha : IsIPv4 a) (hb : IsIPv4 b) (h : IPString a = IPString b) :
    a = b := by
  rw [(isIPv4_eq a ha).1, (isIPv4_eq b hb).1] at h ⊢
  rw [IPString_ofNat_inj _ _ (isIPv4_eq a ha).2 (isIPv4_eq b hb).2 h]

theorem contains_iff (arr : List String) (str : String) : contains arr str = true ↔ str ∈ arr := by
  induction arr with
  | nil => simp [contains]
  | cons x xs ih =>
    simp only [contains, List.mem_cons]
    by_cases h : x = str
    · simp [h]
    · simp only [h, if_false, ih]
      constructor
      · exact Or.inr
      · rintro (h1 | h1)
        · exact absurd h1.symm h
        · exact h1

/-- C3 (resolver correctness): for a segment-mapping whose segment parses as an
IPv4 CIDR with prefix length at least 1, and a store that serves the listing,
`getAvailableIPs` returns the dotted-decimal strings of a list `addrs` of
addresses that is strictly ascending in numeric order, has pairwise distinct
strings, and holds exactly the 4-byte addresses the network contains whose
string is neither the name of an IP record carrying the label of the mapping
nor an excluded entry. The addresses the network contains are those from the
network number (the masked base address) up to the last address of the
block, both ends included. -/
theorem getAvailableIPs_resolves (r : VirtualIPReconciler) (gsm : GroupSegmentMapping)
    (s : Store) (ip : IP) (ones : Nat) (hlist : r.Client .listIP = none)
    (hparse : ParseCIDR gsm.Spec.Segment = some (ip, ones)) (hones : 1 ≤ ones) :
    ∃ addrs : List IP,
      getAvailableIPs r gsm s = .ok (addrs.map IPString) ∧
      addrs.Pairwise (fun a b => Net.toNat a < Net.toNat b) ∧
      (addrs.map IPString).Nodup ∧
      (∀ a : IP, a ∈ addrs ↔
        (IsIPv4 a ∧ Contains (network ip ones) a = true ∧
          (∀ x ∈ s.IPs, mapGet x.Labels groupSegmentMappingLabel = some gsm.Name →
            x.Name ≠ IPString a) ∧
          IPString a ∉ gsm.Spec.ExcludedIPs)) ∧
      (∀ a : IP, IsIPv4 a → (Contains (network ip ones) a = true ↔
        (networkNumber ip ones ≤ Net.toNat a ∧
          Net.toNat a < networkNumber ip ones + 2 ^ (32 - ones)))) := by
  obtain ⟨hip, hle⟩ := ParseCIDR_wf _ _ _ hparse
  have hsorted : ((segmentAddresses ip ones).filter
      (fun a => !contains (unavailable gsm s) (IPString a))).Pairwise
        (fun a b => Net.toNat a < Net.toNat b) :=
    (segmentAddresses_sorted ip ones hip hle).sublist (List.filter_sublist _)
  refine ⟨(segmentAddresses ip ones).filter
    (fun a => !contains (unavailable gsm s) (IPString a)), ?_, hsorted, ?_, ?_, ?_⟩
  · rw [getAvailableIPs_eq r gsm s ip ones hlist hparse hones, List.filter_map]
    rfl
  · rw [List.Nodup, List.pairwise_map]
    refine List.Pairwise.imp_of_mem ?_ hsorted
    intro a b ha hb hab heq
    have ha1 := ((mem_segmentAddresses ip a ones hip hle).1 (List.mem_of_mem_filter ha)).1
    have hb1 := ((mem_segmentAddresses ip b ones hip hle).1 (List.mem_of_mem_filter hb)).1
    rw [IPString_inj a b ha1 hb1 heq] at hab
    exact Nat.lt_irrefl _ hab
  · intro a
    rw [List.mem_filter, mem_segmentAddresses ip a ones hip hle]
    simp only [Bool.not_eq_true', ← Bool.not_eq_true, contains_iff, unavailable, List.mem_append,
      List.mem_map, List.mem_filter, decide_eq_true_eq, not_or, not_exists, not_and]
    constructor
    · rintro ⟨⟨h1, h2⟩, h3, h4⟩
      exact ⟨h1, h2, fun x hx hl => h3 x ⟨hx, hl⟩, h4⟩
    · rintro ⟨h1, h2, h3, h4⟩
      exact ⟨⟨h1, h2⟩, fun x hx => h3 x hx.1 hx.2, h4⟩
  · intro a ha
    exact contains_iff_range ip a ones hip ha hle

/-! ## Allocation -/

theorem reserveLoop_find (r : VirtualIPReconciler) (gsm : GroupSegmentMapping) (vip : VirtualIP)
    (hcreate : ∀ name, r.Client (.createIP name) = none) (s : Store) :
    ∀ cands : List String, reserveLoop r gsm.Name vip cands s =
      match cands.find? (fun c => (s.ip c).isNone) with
      | some c => ({ s with IPs := s.IPs ++ [claimOf gsm vip c] }, .ok c)
      | none => (s, .error (errorsNew "there are no available IPs")) := by
  intro cands
  induction cands with
  | nil => rfl
  | cons c cs ih =>
    cases h : s.ip c with
    | some x =>
      simp only [reserveLoop, createIP, hcreate, labelIP, h, alreadyExists, ne_eq,
        not_true_eq_false, if_false, ih, List.find?_cons, Option.isNone_some]
    | none =>
      simp only [reserveLoop, createIP, hcreate, labelIP, h, List.find?_cons,
        Option.isNone_none, claimOf]

theorem find_lowest {p : String → Bool} (a : IP) :
    ∀ l : List IP, l.Pairwise (fun x y => Net.toNat x < Net.toNat y) → a ∈ l →
      p (IPString a) = true → (∀ b ∈ l, p (IPString b) = true → Net.toNat a ≤ Net.toNat b) →
      (l.map IPString).find? p = some (IPString a) := by
  intro l
  induction l with
  | nil => intro _ h; exact absurd h (List.not_mem_nil _)
  | cons x xs ih =>
    intro hs hmem hp hmin
    rw [List.pairwise_cons] at hs
    rw [List.map_cons, List.find?_cons]
    by_cases hx : p (IPString x) = true
    · rw [hx]
      rcases List.mem_cons.1 hmem with h | h
      · rw [h]
      · have h1 := hmin x (List.mem_cons_self _ _) hx
        have h2 := hs.1 a h
        omega
    · simp only [Bool.not_eq_true] at hx
      rw [hx]
      rcases List.mem_cons.1 hmem with h | h
      · rw [h, hx] at hp; exact absurd hp (by simp)
      · exact ih hs.2 h hp (fun b hb => hmin b (List.mem_cons_of_mem _ hb))


theorem reserveIP_lowest (r : VirtualIPReconciler) (gsm : GroupSegmentMapping)
    (virtualIP : VirtualIP) (s : Store) (ip : IP) (ones : Nat)
    (hlist : r.Client .listIP = none) (hcreate : ∀ name, r.Client (.createIP name) = none)
    (hparse : ParseCIDR gsm.Spec.Segment = some (ip, ones)) (hones : 1 ≤ ones) :
    (∀ a : IP,
      (IsIPv4 a ∧ Contains (network ip ones) a = true ∧ IPString a ∉ gsm.Spec.ExcludedIPs ∧
        ∀ x ∈ s.IPs, x.Name ≠ IPString a) →
      (∀ b : IP,
        (IsIPv4 b ∧ Contains (network ip ones) b = true ∧ IPString b ∉ gsm.Spec.ExcludedIPs ∧
          ∀ x ∈ s.IPs, x.Name ≠ IPString b) → Net.toNat a ≤ Net.toNat b) →
      reserveIP r gsm virtualIP s =
        ({ s with IPs := s.IPs ++ [claimOf gsm virtualIP (IPString a)] }, .ok (IPString a))) ∧
    ((∀ a : IP, ¬ (IsIPv4 a ∧ Contains (network ip ones) a = true ∧
        IPString a ∉ gsm.Spec.ExcludedIPs ∧ ∀ x ∈ s.IPs, x.Name ≠ IPString a)) →
      reserveIP r gsm virtualIP s = (s, .error (errorsNew "there are no available IPs"))) := by
  obtain ⟨addrs, heq, hsorted, _, hmem, _⟩ :=
    getAvailableIPs_resolves r gsm s ip ones hlist hparse hones
  have hpred : ∀ c : String, (s.ip c).isNone = true ↔ ∀ x ∈ s.IPs, x.Name ≠ c := by
    intro c
    simp [Store.ip, Option.isNone_iff_eq_none, List.find?_eq_none]
  constructor
  · intro a ha hmin
    have hin : a ∈ addrs := (hmem a).2 ⟨ha.1, ha.2.1, fun x hx _ => ha.2.2.2 x hx, ha.2.2.1⟩
    simp only [reserveIP, heq]
    rw [reserveLoop_find r gsm virtualIP hcreate s,
      find_lowest a addrs hsorted hin ((hpred _).2 ha.2.2.2)]
    intro b hb hpb
    have hb1 := (hmem b).1 hb
    exact hmin b ⟨hb1.1, hb1.2.1, hb1.2.2.2, (hpred _).1 hpb⟩
  · intro hnone
    simp only [reserveIP, heq]
    rw [reserveLoop_find r gsm virtualIP hcreate s]
    have : (addrs.map IPString).find? (fun c => (s.ip c).isNone) = none := by
      rw [List.find?_eq_none]
      intro c hc
      obtain ⟨a, ha, rfl⟩ := List.mem_map.1 hc
      have ha1 := (hmem a).1 ha
      intro hp
      exact hnone a ⟨ha1.1, ha1.2.1, ha1.2.2.2, (hpred _).1 hp⟩
    rw [this]

theorem networkNumber_add_lt (ip : IP) (p j : Nat) (hip : IsIPv4 ip) (hp : p ≤ 32)
    (hj : j < 2 ^ (32 - p)) : networkNumber ip p + j < 2 ^ 32 :=
  (segment_arith_in (Net.toNat ip) p j (isIPv4_eq ip hip).2 hp hj).2

theorem reserveIP_after (r : VirtualIPReconciler) (gsm : GroupSegmentMapping)
    (v : VirtualIP) (s : Store) (ip : IP) (ones k : Nat)
    (hlist : r.Client .listIP = none) (hcreate : ∀ name, r.Client (.createIP name) = none)
    (hparse : ParseCIDR gsm.Spec.Segment = some (ip, ones)) (hones : 1 ≤ ones)
    (hexcl : gsm.Spec.ExcludedIPs = [])
    (hnames : s.IPs.map (fun x => x.Name) =
      (List.range' 0 k).map (fun i => IPString (ofNat (networkNumber ip ones + i))))
    (hk : k ≤ 2 ^ (32 - ones)) :
    reserveIP r gsm v s =
      if k < 2 ^ (32 - ones) then
        ({ s with IPs := s.IPs ++ [claimOf gsm v (IPString (ofNat (networkNumber ip ones + k)))] },
          .ok (IPString (ofNat (networkNumber ip ones + k))))
      else (s, .error (errorsNew "there are no available IPs")) := by
  obtain ⟨hip, hle⟩ := ParseCIDR_wf _ _ _ hparse
  have hT := (isIPv4_eq ip hip).2
  have hnamed : ∀ c : String, (∀ x ∈ s.IPs, x.Name ≠ c) ↔
      ∀ i < k, IPString (ofNat (networkNumber ip ones + i)) ≠ c := by
    intro c
    have h1 : (∀ x ∈ s.IPs, x.Name ≠ c) ↔ c ∉ s.IPs.map (fun x => x.Name) := by
      simp only [List.mem_map, not_exists, not_and]
    rw [h1, hnames]
    simp only [List.mem_map, List.mem_range'_1, not_exists, not_and]
    exact ⟨fun h i hi => h i ⟨Nat.zero_le _, by omega⟩, fun h i hi => h i (by omega)⟩
  have hfree : ∀ b : IP, (IsIPv4 b ∧ Contains (network ip ones) b = true ∧
      IPString b ∉ gsm.Spec.ExcludedIPs ∧ ∀ x ∈ s.IPs, x.Name ≠ IPString b) →
      ∃ i, k ≤ i ∧ i < 2 ^ (32 - ones) ∧ b = ofNat (networkNumber ip ones + i) := by
    rintro b ⟨hb1, hb2, _, hb4⟩
    have hm := (mem_segmentAddresses ip b ones hip hle).2 ⟨hb1, hb2⟩
    simp only [segmentAddresses, List.mem_map, List.mem_range] at hm
    obtain ⟨i, hi, rfl⟩ := hm
    refine ⟨i, ?_, hi, rfl⟩
    by_contra hlt
    exact (hnamed _).1 hb4 i (by omega) rfl
  have hspec := reserveIP_lowest r gsm v s ip ones hlist hcreate hparse hones
  split_ifs with hlt
  · have hin := networkNumber_add_lt ip ones k hip hle hlt
    refine hspec.1 (ofNat (networkNumber ip ones + k)) ⟨isIPv4_ofNat _, ?_, ?_, ?_⟩ ?_
    · exact ((mem_segmentAddresses ip _ ones hip hle).1
        (by simp only [segmentAddresses, List.mem_map, List.mem_range]; exact ⟨k, hlt, rfl⟩)).2
    · rw [hexcl]; exact List.not_mem_nil _
    · rw [hnamed]
      intro i hi heq
      have hi2 := networkNumber_add_lt ip ones i hip hle (by omega)
      have := IPString_ofNat_inj _ _ hi2 hin heq
      omega
    · intro b hb
      obtain ⟨i, hki, hi, rfl⟩ := hfree b hb
      have hi2 := networkNumber_add_lt ip ones i hip hle hi
      rw [toNat_ofNat _ hin, toNat_ofNat _ hi2]
      omega
  · refine hspec.2 ?_
    intro b hb
    obtain ⟨i, hki, hi, _⟩ := hfree b hb
    omega

theorem reserveAll_sequence (r : VirtualIPReconciler) (gsm : GroupSegmentMapping)
    (ip : IP) (ones : Nat)
    (hlist : r.Client .listIP = none) (hcreate : ∀ name, r.Client (.createIP name) = none)
    (hparse : ParseCIDR gsm.Spec.Segment = some (ip, ones)) (hones : 1 ≤ ones)
    (hexcl : gsm.Spec.ExcludedIPs = []) :
    ∀ (vs : List VirtualIP) (k : Nat) (s : Store),
      s.IPs.map (fun x => x.Name) =
        (List.range' 0 k).map (fun i => IPString (ofNat (networkNumber ip ones + i))) →
      k + vs.length ≤ 2 ^ (32 - ones) →
      (reserveAll r gsm vs s).2 = (List.range' k vs.length).map
        (fun i => Res.ok (IPString (ofNat (networkNumber ip ones + i)))) ∧
      (reserveAll r gsm vs s).1.IPs.map (fun x => x.Name) =
        (List.range' 0 (k + vs.length)).map
          (fun i => IPString (ofNat (networkNumber ip ones + i))) := by
  intro vs
  induction vs with
  | nil => intro k s hn _; exact ⟨rfl, hn⟩
  | cons v vs ih =>
    intro k s hn hk
    simp only [List.length_cons] at hk ⊢
    have hstep := reserveIP_after r gsm v s ip ones k hlist hcreate hparse hones hexcl hn
      (by omega)
    rw [if_pos (by omega)] at hstep
    have hn1 : (reserveIP r gsm v s).1.IPs.map (fun x => x.Name) =
        (List.range' 0 (k + 1)).map (fun i => IPString (ofNat (networkNumber ip ones + i))) := by
      rw [hstep]
      simp only [List.map_append, hn, List.map_cons, List.map_nil, claimOf]
      rw [List.range'_concat, List.map_append]
      simp
    obtain ⟨h1, h2⟩ := ih (k + 1) _ hn1 (by omega)
    refine ⟨?_, ?_⟩
    · simp only [reserveAll, h1, List.range'_succ, List.map_cons]
      rw [hstep]
    · simp only [reserveAll, h2]
      rw [show k + 1 + vs.length = k + (vs.length + 1) by omega]

/-- C1 (first free address): with a segment that parses as an IPv4 CIDR of
prefix length at least 1 and a store that serves the listing and lets a create
fail only because the record exists, `reserveIP` returns the string of the
numerically lowest address `a` the network contains that is neither excluded
nor the name of any IP record (whatever its labels), and the store becomes the
old store with one more IP record, `claimOf`: named after the address,
labelled `gsm=<mapping name>`, annotated with `<namespace>/<name>` of the
requester. When no such address exists the result is the error
`there are no available IPs` and the store is unchanged. -/
theorem reserveIP_first_free (r : VirtualIPReconciler) (gsm : GroupSegmentMapping)
    (virtualIP : VirtualIP) (s : Store) (ip : IP) (ones : Nat)
    (hlist : r.Client .listIP = none) (hcreate : ∀ name, r.Client (.createIP name) = none)
    (hparse : ParseCIDR gsm.Spec.Segment = some (ip, ones)) (hones : 1 ≤ ones) :
    (∀ a : IP,
      (IsIPv4 a ∧ Contains (network ip ones) a = true ∧ IPString a ∉ gsm.Spec.ExcludedIPs ∧
        ∀ x ∈ s.IPs, x.Name ≠ IPString a) →
      (∀ b : IP,
        (IsIPv4 b ∧ Contains (network ip ones) b = true ∧ IPString b ∉ gsm.Spec.ExcludedIPs ∧
          ∀ x ∈ s.IPs, x.Name ≠ IPString b) → Net.toNat a ≤ Net.toNat b) →
      reserveIP r gsm virtualIP s =
        ({ s with IPs := s.IPs ++ [claimOf gsm virtualIP (IPString a)] }, .ok (IPString a))) ∧
    ((∀ a : IP, ¬ (IsIPv4 a ∧ Contains (network ip ones) a = true ∧
        IPString a ∉ gsm.Spec.ExcludedIPs ∧ ∀ x ∈ s.IPs, x.Name ≠ IPString a)) →
      reserveIP r gsm virtualIP s = (s, .error (errorsNew "there are no available IPs"))) :=
  reserveIP_lowest r gsm virtualIP s ip ones hlist hcreate hparse hones

/-- C2 (no double allocation under sequential contention): on a store without
IP records and a segment-mapping without exclusions whose CIDR (prefix length
at least 1) covers `M = 2 ^ (32 - ones)` addresses, `M` successive `reserveIP`
calls, by any requesters, return in call order the strings of the addresses
of the segment in ascending order: `M` pairwise distinct strings; one more
call, by any requester, fails with `there are no available IPs` and leaves
the store as it is. -/
theorem reserveAll_no_double_allocation (r : VirtualIPReconciler) (gsm : GroupSegmentMapping)
    (s : Store) (requesters : List VirtualIP) (late : VirtualIP) (ip : IP) (ones : Nat)
    (hlist : r.Client .listIP = none) (hcreate : ∀ name, r.Client (.createIP name) = none)
    (hparse : ParseCIDR gsm.Spec.Segment = some (ip, ones)) (hones : 1 ≤ ones)
    (hexcl : gsm.Spec.ExcludedIPs = []) (hempty : s.IPs = [])
    (hlen : requesters.length = 2 ^ (32 - ones)) :
    (reserveAll r gsm requesters s).2 =
        (segmentAddresses ip ones).map (fun a => Res.ok (IPString a)) ∧
      (segmentAddresses ip ones).length = 2 ^ (32 - ones) ∧
      (∀ a : IP, a ∈ segmentAddresses ip ones ↔
        (IsIPv4 a ∧ Contains (network ip ones) a = true)) ∧
      (segmentAddresses ip ones).Pairwise (fun a b => Net.toNat a < Net.toNat b) ∧
      ((segmentAddresses ip ones).map IPString).Nodup ∧
      reserveIP r gsm late (reserveAll r gsm requesters s).1 =
        ((reserveAll r gsm requesters s).1,
          .error (errorsNew "there are no available IPs")) := by
  obtain ⟨hip, hle⟩ := ParseCIDR_wf _ _ _ hparse
  have hseq := reserveAll_sequence r gsm ip ones hlist hcreate hparse hones hexcl requesters 0 s
    (by rw [hempty]; rfl) (by omega)
  have hsorted := segmentAddresses_sorted ip ones hip hle
  refine ⟨?_, ?_, fun a => mem_segmentAddresses ip a ones hip hle, hsorted, ?_, ?_⟩
  · rw [hseq.1, hlen]
    simp only [segmentAddresses, List.range_eq_range', List.map_map]
    rfl
  · simp [segmentAddresses]
  · rw [List.Nodup, List.pairwise_map]
    refine List.Pairwise.imp_of_mem ?_ hsorted
    intro a b ha hb hab heq
    have ha1 := ((mem_segmentAddresses ip a ones hip hle).1 ha).1
    have hb1 := ((mem_segmentAddresses ip b ones hip hle).1 hb).1
    rw [IPString_inj a b ha1 hb1 heq] at hab
    exact Nat.lt_irrefl _ hab
  · have h := reserveIP_after r gsm late (reserveAll r gsm requesters s).1 ip ones
      (2 ^ (32 - ones)) hlist hcreate hparse hones hexcl
      (by rw [hseq.2, hlen, Nat.zero_add]) (Nat.le_refl _)
    rw [if_neg (Nat.lt_irrefl _)] at h
    exact h

/-- Witness of C2: segment `10.0.0.0/30` yields `10.0.0.0`, `10.0.0.1`,
`10.0.0.2`, `10.0.0.3`, and the fifth request fails. -/
theorem reserveAll_no_double_allocation_witness :
    (reserveAll exampleReconciler exampleOpenGSM
        [exampleVirtualIP, exampleVirtualIP, exampleVirtualIP, exampleVirtualIP]
        exampleEmptyStore).2 =
      [.ok "10.0.0.0", .ok "10.0.0.1", .ok "10.0.0.2", .ok "10.0.0.3"] ∧
    (reserveIP exampleReconciler exampleOpenGSM exampleVirtualIP
        (reserveAll exampleReconciler exampleOpenGSM
          [exampleVirtualIP, exampleVirtualIP, exampleVirtualIP, exampleVirtualIP]
          exampleEmptyStore).1).2 = .error (errorsNew "there are no available IPs") := by
  have h := reserveAll_no_double_allocation exampleReconciler exampleOpenGSM exampleEmptyStore
    [exampleVirtualIP, exampleVirtualIP, exampleVirtualIP, exampleVirtualIP] exampleVirtualIP
    [10, 0, 0, 0] 30 rfl (fun _ => rfl) (by decide) (by decide) rfl rfl (by decide)
  refine ⟨h.1.trans (by decide), ?_⟩
  rw [h.2.2.2.2.2]

/-- Witness of C3: `10.0.0.0/30` with `10.0.0.1` excluded and `10.0.0.0`
claimed under the label of another mapping; and the unaligned `10.0.0.7/30`,
enumerated from its network address `10.0.0.4`. -/
theorem getAvailableIPs_resolves_witness :
    getAvailableIPs exampleReconciler exampleGSM exampleStore =
        .ok ["10.0.0.0", "10.0.0.2", "10.0.0.3"] ∧
    getAvailableIPs exampleReconciler unalignedGSM exampleStore =
        .ok ["10.0.0.4", "10.0.0.5", "10.0.0.6", "10.0.0.7"] ∧
    ∃ addrs : List IP,
      getAvailableIPs exampleReconciler unalignedGSM exampleStore = .ok (addrs.map IPString) ∧
      addrs.Pairwise (fun a b => Net.toNat a < Net.toNat b) ∧
      (addrs.map IPString).Nodup :=
  ⟨by decide, by decide,
    (getAvailableIPs_resolves exampleReconciler unalignedGSM exampleStore [10, 0, 0, 7] 30 rfl
      (by decide) (by decide)).imp (fun _ h => ⟨h.1, h.2.1, h.2.2.1⟩)⟩

/-- Witness of C1: in `10.0.0.0/30` with `10.0.0.0` claimed under another
label and `10.0.0.1` excluded, the address reserved is `10.0.0.2`; in
`10.0.0.0/31` with `10.0.0.0` claimed and `10.0.0.1` excluded, nothing is. -/
theorem reserveIP_first_free_witness :
    reserveIP exampleReconciler exampleGSM exampleVirtualIP exampleStore =
      ({ exampleStore with IPs := exampleStore.IPs ++
          [claimOf exampleGSM exampleVirtualIP "10.0.0.2"] }, .ok "10.0.0.2") ∧
    reserveIP exampleReconciler exhaustedGSM exampleVirtualIP fallThroughStore =
      (fallThroughStore, .error (errorsNew "there are no available IPs")) := by
  constructor
  · exact (reserveIP_first_free exampleReconciler exampleGSM exampleVirtualIP exampleStore
      [10, 0, 0, 0] 30 rfl (fun _ => rfl) (by decide) (by decide)).1 [10, 0, 0, 2]
      (by decide) (by
        rintro b ⟨hb1, hb2, hb3, hb4⟩
        rw [contains_iff_range [10, 0, 0, 0] b 30 (by decide) hb1 (by decide)] at hb2
        have hb := (isIPv4_eq b hb1).1
        have h2 : Net.toNat [10, 0, 0, 2] = 167772162 := by decide
        have h3 : networkNumber [10, 0, 0, 0] 30 = 167772160 := by decide
        rw [h2]
        rw [h3] at hb2
        by_contra hlt
        have hcases : Net.toNat b = 167772160 ∨ Net.toNat b = 167772161 := by omega
        rcases hcases with h | h
        · rw [h] at hb
          rw [hb] at hb4
          exact hb4 _ (List.mem_cons_self _ _) (by decide)
        · rw [h] at hb
          rw [hb] at hb3
          exact hb3 (by decide))
  · refine (reserveIP_first_free exampleReconciler exhaustedGSM exampleVirtualIP fallThroughStore
      [10, 0, 0, 0] 31 rfl (fun _ => rfl) (by decide) (by decide)).2 ?_
    rintro b ⟨hb1, hb2, hb3, hb4⟩
    rw [contains_iff_range [10, 0, 0, 0] b 31 (by decide) hb1 (by decide)] at hb2
    have hb := (isIPv4_eq b hb1).1
    have h3 : networkNumber [10, 0, 0, 0] 31 = 167772160 := by decide
    rw [h3] at hb2
    have hcases : Net.toNat b = 167772160 ∨ Net.toNat b = 167772161 := by omega
    rcases hcases with h | h
    · rw [h] at hb
      rw [hb] at hb4
      exact hb4 _ (List.mem_cons_self _ _) (by decide)
    · rw [h] at hb
      rw [hb] at hb3
      exact hb3 (by decide)

/-! ## Reconciliation -/

/-- C4 (fall-through across segment-mappings), evaluated on the code: with an
empty `spec.segment` and a store listing A then B, A exhausted and every
address of B free, `allocateIP` returns the error `there are no available IPs`
of `reserveIP` on A and creates nothing, although `reserveIP` on B alone
would return `10.0.1.0`. -/
theorem allocateIP_stops_at_exhausted_mapping :
    allocateIP exampleReconciler exampleVirtualIP fallThroughStore =
        (fallThroughStore, .error (errorsNew "there are no available IPs")) ∧
      (reserveIP exampleReconciler freeGSM exampleVirtualIP fallThroughStore).2 =
        .ok "10.0.1.0" := by
  decide

/-- C6 (address release under re-delivery), evaluated on the code: for a
deleting VirtualIP that still carries the address finalizer while its IP
record is already gone, `Reconcile` changes nothing and reports no error,
and so does every further invocation: the address finalizer stays. -/
theorem reconcile_release_blocked_after_redelivery :
    Reconcile exampleReconciler ⟨"ns", "v"⟩ redeliveryStore =
        (redeliveryStore, .ret {} none) ∧
      ∀ n : Nat, reconcileTimes exampleReconciler ⟨"ns", "v"⟩ n redeliveryStore =
        redeliveryStore := by
  have h : Reconcile exampleReconciler ⟨"ns", "v"⟩ redeliveryStore =
      (redeliveryStore, .ret {} none) := by decide
  refine ⟨h, ?_⟩
  intro n
  induction n with
  | zero => rfl
  | succ n ih => rw [reconcileTimes, h]; exact ih

theorem createIP_frame (c : Client) (ip : IPObject) (s : Store) :
    sameButIPs (createIP c ip s).1 s := by
  unfold createIP sameButIPs
  split
  · exact ⟨rfl, rfl, rfl⟩
  · split <;> exact ⟨rfl, rfl, rfl⟩

theorem updateIP_frame (c : Client) (ip : IPObject) (s : Store) :
    sameButIPs (updateIP c ip s).1 s := by
  unfold updateIP sameButIPs
  split
  · exact ⟨rfl, rfl, rfl⟩
  · split <;> exact ⟨rfl, rfl, rfl⟩

theorem deleteIP_frame (c : Client) (name : String) (s : Store) :
    sameButIPs (deleteIP c name s).1 s := by
  unfold deleteIP sameButIPs
  split
  · exact ⟨rfl, rfl, rfl⟩
  · split <;> exact ⟨rfl, rfl, rfl⟩

theorem createService_frame (c : Client) (svc : Service) (s : Store) :
    sameButServices (createService c svc s).1 s := by
  unfold createService sameButServices
  split
  · exact ⟨rfl, rfl, rfl⟩
  · split <;> exact ⟨rfl, rfl, rfl⟩

theorem updateService_frame (c : Client) (svc : Service) (s : Store) :
    sameButServices (updateService c svc s).1 s := by
  unfold updateService sameButServices
  split
  · exact ⟨rfl, rfl, rfl⟩
  · split <;> exact ⟨rfl, rfl, rfl⟩

theorem updateVirtualIP_frame (c : Client) (v : VirtualIP) (s : Store) :
    sameButVirtualIPs (updateVirtualIP c v s).1 s := by
  unfold updateVirtualIP sameButVirtualIPs
  split
  · exact ⟨rfl, rfl, rfl⟩
  · split <;> exact ⟨rfl, rfl, rfl⟩

theorem updateVirtualIPStatus_frame (c : Client) (v : VirtualIP) (s : Store) :
    sameButVirtualIPs (updateVirtualIPStatus c v s).1 s := by
  unfold updateVirtualIPStatus sameButVirtualIPs
  split
  · exact ⟨rfl, rfl, rfl⟩
  · split <;> exact ⟨rfl, rfl, rfl⟩

theorem CreateOrUpdateIP_frame (c : Client) (obj : IPObject) (f : IPObject → IPObject)
    (s : Store) : sameButIPs (CreateOrUpdateIP c obj f s).1 s := by
  unfold CreateOrUpdateIP
  split
  · split
    · split
      · exact ⟨rfl, rfl, rfl⟩
      · exact createIP_frame _ _ _
    · exact ⟨rfl, rfl, rfl⟩
  · exact ⟨rfl, rfl, rfl⟩
  · split
    · exact ⟨rfl, rfl, rfl⟩
    · split
      · exact ⟨rfl, rfl, rfl⟩
      · exact updateIP_frame _ _ _

theorem CreateOrUpdateService_frame (c : Client) (obj : Service) (f : Service → Service)
    (s : Store) : sameButServices (CreateOrUpdateService c obj f s).1 s := by
  unfold CreateOrUpdateService
  split
  · split
    · split
      · exact ⟨rfl, rfl, rfl⟩
      · exact createService_frame _ _ _
    · exact ⟨rfl, rfl, rfl⟩
  · exact ⟨rfl, rfl, rfl⟩
  · split
    · exact ⟨rfl, rfl, rfl⟩
    · split
      · exact ⟨rfl, rfl, rfl⟩
      · exact updateService_frame _ _ _

theorem sameButIPs_trans {a b c : Store} (h1 : sameButIPs a b) (h2 : sameButIPs b c) :
    sameButIPs a c :=
  ⟨h1.1.trans h2.1, h1.2.1.trans h2.2.1, h1.2.2.trans h2.2.2⟩

theorem reserveLoop_frame (r : VirtualIPReconciler) (gsmName : String) (v : VirtualIP) :
    ∀ (cands : List String) (s : Store), sameButIPs (reserveLoop r gsmName v cands s).1 s := by
  intro cands
  induction cands with
  | nil => intro s; exact ⟨rfl, rfl, rfl⟩
  | cons c cs ih =>
    intro s
    simp only [reserveLoop]
    have hf := createIP_frame r.Client (labelIP { Name := c, Labels := [], Annotations := [] } v gsmName) s
    revert hf
    generalize createIP r.Client (labelIP { Name := c, Labels := [], Annotations := [] } v gsmName) s = res
    obtain ⟨s1, e⟩ := res
    intro hf
    cases e with
    | none => exact hf
    | some err =>
      simp only
      split
      · exact hf
      · exact sameButIPs_trans (ih s1) hf

theorem reserveIP_frame (r : VirtualIPReconciler) (gsm : GroupSegmentMapping) (v : VirtualIP)
    (s : Store) : sameButIPs (reserveIP r gsm v s).1 s := by
  unfold reserveIP
  split
  · exact ⟨rfl, rfl, rfl⟩
  · exact ⟨rfl, rfl, rfl⟩
  · exact reserveLoop_frame _ _ _ _ _

theorem allocateLoop_frame (r : VirtualIPReconciler) (v : VirtualIP) :
    ∀ (gsms : List GroupSegmentMapping) (s : Store),
      sameButIPs (allocateLoop r v gsms s).1 s := by
  intro gsms
  induction gsms with
  | nil => intro s; exact ⟨rfl, rfl, rfl⟩
  | cons g gs ih =>
    intro s
    unfold allocateLoop
    have hf := reserveIP_frame r g v s
    revert hf
    generalize reserveIP r g v s = res
    obtain ⟨s1, e⟩ := res
    intro hf
    cases e with
    | error err => exact hf
    | hang => exact hf
    | ok ip =>
      simp only
      split
      · exact hf
      · exact sameButIPs_trans (ih s1) hf

theorem allocateIP_frame (r : VirtualIPReconciler) (v : VirtualIP) (s : Store) :
    sameButIPs (allocateIP r v s).1 s := by
  unfold allocateIP
  split
  · split
    · exact ⟨rfl, rfl, rfl⟩
    · exact ⟨rfl, rfl, rfl⟩
    · rename_i gsm _
      have hf := reserveIP_frame r gsm v s
      revert hf
      generalize reserveIP r gsm v s = res
      obtain ⟨s1, e⟩ := res
      intro hf
      cases e <;> exact hf
  · split
    · exact ⟨rfl, rfl, rfl⟩
    · exact ⟨rfl, rfl, rfl⟩
    · rename_i gsms _
      have hf := allocateLoop_frame r v gsms s
      revert hf
      generalize allocateLoop r v gsms s = res
      obtain ⟨s1, e⟩ := res
      intro hf
      cases e <;> exact hf

theorem find_map_replace {α : Type} (p q : α → Bool) (f : α → α)
    (hp : ∀ x, q x = true → p (f x) = p x) (l : List α) :
    (l.map (fun x => if q x = true then f x else x)).find? p =
      (l.find? p).map (fun x => if q x = true then f x else x) := by
  induction l with
  | nil => rfl
  | cons a as ih =>
    simp only [List.map_cons, List.find?_cons]
    by_cases hq : q a = true
    · simp only [hq, if_true, hp a hq]
      cases hpa : p a <;> simp [ih, hq]
    · simp only [hq, if_false, Bool.false_eq_true]
      cases hpa : p a <;> simp [ih, hq]

theorem virtualIP_key (s : Store) (ns name : String) (v : VirtualIP)
    (h : s.virtualIP ns name = some v) : v.Namespace = ns ∧ v.Name = name := by
  have := List.find?_some h
  simpa using this

theorem virtualIP_map_replace (l : List VirtualIP) (ns name ns1 name1 : String)
    (f : VirtualIP → VirtualIP)
    (hf : ∀ x, x.Namespace = ns1 ∧ x.Name = name1 →
      (f x).Namespace = x.Namespace ∧ (f x).Name = x.Name) :
    (l.map (fun x => if x.Namespace = ns1 ∧ x.Name = name1 then f x else x)).find?
        (fun v => decide (v.Namespace = ns ∧ v.Name = name)) =
      (l.find? (fun v => decide (v.Namespace = ns ∧ v.Name = name))).map
        (fun x => if x.Namespace = ns1 ∧ x.Name = name1 then f x else x) := by
  have h := find_map_replace (fun v : VirtualIP => decide (v.Namespace = ns ∧ v.Name = name))
    (fun x : VirtualIP => decide (x.Namespace = ns1 ∧ x.Name = name1)) f
    (by intro x hx; simp only [decide_eq_true_eq] at hx; simp [hf x hx]) l
  simp only [decide_eq_true_eq] at h
  exact h

theorem isZero_false (t : Option Nat) (h : t ≠ none) : IsZero t = false := by
  cases t with
  | none => exact absurd rfl h
  | some t => rfl

theorem keeps_of_same (f ns name : String) (s1 s : Store) (h : s1.VirtualIPs = s.VirtualIPs)
    (hk : keepsFinalizer f ns name s) : keepsFinalizer f ns name s1 := by
  intro v hv
  apply hk v
  simpa only [Store.virtualIP, h] using hv

theorem keeps_updateVirtualIPStatus (f ns name : String) (c : Client) (v : VirtualIP) (s : Store)
    (hk : keepsFinalizer f ns name s) :
    keepsFinalizer f ns name (updateVirtualIPStatus c v s).1 := by
  unfold updateVirtualIPStatus
  split
  · exact hk
  · split
    · intro x hx
      simp only [Store.virtualIP] at hx
      rw [virtualIP_map_replace _ _ _ _ _ (fun x => { x with Status := v.Status })
        (fun x _ => ⟨rfl, rfl⟩)] at hx
      cases hl : s.VirtualIPs.find? (fun v => decide (v.Namespace = ns ∧ v.Name = name)) with
      | none => rw [hl] at hx; exact absurd hx (by simp)
      | some y =>
        rw [hl] at hx
        simp only [Option.map_some', Option.some.injEq] at hx
        have hy := hk y hl
        rw [← hx]
        split <;> exact hy
    · exact hk

theorem recordError_meta (v : VirtualIP) (e : Option Err) :
    (recordError v e).Namespace = v.Namespace ∧ (recordError v e).Name = v.Name ∧
      (recordError v e).DeletionTimestamp = v.DeletionTimestamp ∧
      (recordError v e).Finalizers = v.Finalizers := by
  cases e <;> exact ⟨rfl, rfl, rfl, rfl⟩

theorem updateStatus_fst (r : VirtualIPReconciler) (v : VirtualIP) (e : Option Err) (s : Store) :
    (updateStatus r v e s).1 =
      if IsZero v.DeletionTimestamp then (updateVirtualIPStatus r.Client (recordError v e) s).1
      else s := by
  simp only [updateStatus, (recordError_meta v e).2.2.1]
  split
  · generalize updateVirtualIPStatus r.Client (recordError v e) s = res
    obtain ⟨s1, e1⟩ := res
    cases e1 <;> rfl
  · rfl

theorem keeps_updateStatus (f ns name : String) (r : VirtualIPReconciler) (v : VirtualIP)
    (e : Option Err) (s : Store) (hk : keepsFinalizer f ns name s) :
    keepsFinalizer f ns name (updateStatus r v e s).1 := by
  rw [updateStatus_fst]
  split
  · exact keeps_updateVirtualIPStatus f ns name r.Client _ s hk
  · exact hk

theorem keeps_updateVirtualIP (f ns name : String) (c : Client) (v : VirtualIP) (s : Store)
    (hk : keepsFinalizer f ns name s) (hv : f ∈ v.Finalizers) :
    keepsFinalizer f ns name (updateVirtualIP c v s).1 := by
  unfold updateVirtualIP
  split
  · exact hk
  · split
    · intro x hx
      simp only [Store.virtualIP] at hx
      rw [virtualIP_map_replace _ _ _ _ _ (fun x => { v with Status := x.Status })
        (fun x hx => ⟨hx.1.symm, hx.2.symm⟩)] at hx
      cases hl : s.VirtualIPs.find? (fun v => decide (v.Namespace = ns ∧ v.Name = name)) with
      | none => rw [hl] at hx; exact absurd hx (by simp)
      | some y =>
        rw [hl] at hx
        simp only [Option.map_some', Option.some.injEq] at hx
        have hy := hk y hl
        rw [← hx]
        split
        · exact hv
        · exact hy
    · exact hk

theorem serviceFinalizer_ne_ipFinalizer : serviceFinalizer ≠ ipFinalizer := by decide

theorem keeps_reconcileDeletion (ns name : String) (r : VirtualIPReconciler) (vip : VirtualIP)
    (s : Store) (hk : keepsFinalizer serviceFinalizer ns name s)
    (hv : serviceFinalizer ∈ vip.Finalizers) :
    keepsFinalizer serviceFinalizer ns name (reconcileDeletion r vip s).1 := by
  unfold reconcileDeletion
  have h1 : keepsFinalizer serviceFinalizer ns name (deleteIP r.Client vip.Status.IP s).1 :=
    keeps_of_same _ _ _ _ _ (deleteIP_frame _ _ _).1 hk
  split
  · revert h1
    generalize deleteIP r.Client vip.Status.IP s = res
    obtain ⟨s1, e1⟩ := res
    intro h1
    cases e1 with
    | some err => exact h1
    | none =>
      simp only
      have h2 := keeps_updateVirtualIP serviceFinalizer ns name r.Client
        (RemoveFinalizer vip ipFinalizer) s1 h1
        (by simp only [RemoveFinalizer, List.mem_filter]
            exact ⟨hv, by simpa using serviceFinalizer_ne_ipFinalizer⟩)
      revert h2
      generalize updateVirtualIP r.Client (RemoveFinalizer vip ipFinalizer) s1 = res
      obtain ⟨s2, e2⟩ := res
      intro h2
      cases e2 <;> exact h2
  · exact hk

theorem reconcileDeletion_exit (r : VirtualIPReconciler) (vip : VirtualIP) (s : Store) :
    (ContainsFinalizer vip ipFinalizer = true → (reconcileDeletion r vip s).2 ≠ none) ∧
    (ContainsFinalizer vip ipFinalizer = false → reconcileDeletion r vip s = (s, none)) := by
  unfold reconcileDeletion
  constructor
  · intro h
    rw [if_pos h]
    generalize deleteIP r.Client vip.Status.IP s = res
    obtain ⟨s1, e1⟩ := res
    cases e1 with
    | some err => simp
    | none =>
      simp only
      generalize updateVirtualIP r.Client (RemoveFinalizer vip ipFinalizer) s1 = res
      obtain ⟨s2, e2⟩ := res
      cases e2 <;> simp
  · intro h
    rw [if_neg (by simp [h])]

theorem mem_addFinalizer (v : VirtualIP) (f g : String) (h : f ∈ v.Finalizers) :
    f ∈ (AddFinalizer v g).Finalizers := by
  unfold AddFinalizer
  split
  · exact h
  · exact List.mem_append_left _ h

theorem keeps_reconcileAddress (ns name : String) (r : VirtualIPReconciler) (vip : VirtualIP)
    (s : Store) (hk : keepsFinalizer serviceFinalizer ns name s)
    (hv : serviceFinalizer ∈ vip.Finalizers) :
    keepsFinalizer serviceFinalizer ns name (reconcileAddress r vip s).1 := by
  unfold reconcileAddress
  split
  · have h1 : keepsFinalizer serviceFinalizer ns name (allocateIP r vip s).1 :=
      keeps_of_same _ _ _ _ _ (allocateIP_frame _ _ _).1 hk
    revert h1
    generalize allocateIP r vip s = res
    obtain ⟨s1, e1⟩ := res
    intro h1
    cases e1 with
    | hang => exact h1
    | error err => exact h1
    | ok a => obtain ⟨ip, kg, gn⟩ := a; exact h1
  · simp only
    have h1 : keepsFinalizer serviceFinalizer ns name
        (CreateOrUpdateIP r.Client { Name := vip.Status.IP, Labels := [], Annotations := [] }
          (fun o => labelIP o vip vip.Status.GSM) s).1 :=
      keeps_of_same _ _ _ _ _ (CreateOrUpdateIP_frame _ _ _ _).1 hk
    revert h1
    generalize CreateOrUpdateIP r.Client { Name := vip.Status.IP, Labels := [], Annotations := [] }
          (fun o => labelIP o vip vip.Status.GSM) s = res
    obtain ⟨s1, e1⟩ := res
    intro h1
    cases e1 with
    | some err => exact h1
    | none =>
      simp only
      split
      · have h2 := keeps_updateVirtualIP serviceFinalizer ns name r.Client
          (AddFinalizer vip ipFinalizer) s1 h1 (mem_addFinalizer _ _ _ hv)
        revert h2
        generalize updateVirtualIP r.Client (AddFinalizer vip ipFinalizer) s1 = res
        obtain ⟨s2, e2⟩ := res
        intro h2
        cases e2 <;> exact h2
      · exact h1

theorem keeps_reconcileService (ns name : String) (r : VirtualIPReconciler) (vip : VirtualIP)
    (s : Store) (hk : keepsFinalizer serviceFinalizer ns name s)
    (hv : serviceFinalizer ∈ vip.Finalizers) :
    keepsFinalizer serviceFinalizer ns name (reconcileService r false vip s).1 := by
  unfold reconcileService
  split
  · exact hk
  · split
    · exact hk
    · exact hk
    · split
      · exact hk
      · split
        · exact hk
        · exact hk
        · rename_i service _
          simp only [Bool.false_and, Bool.not_false, if_true]
          have h1 : keepsFinalizer serviceFinalizer ns name
              (CreateOrUpdateService r.Client service
                (fun svc => patchService r svc vip.Status.IP vip.Status.KeepalivedGroup false) s).1 :=
            keeps_of_same _ _ _ _ _ (CreateOrUpdateService_frame _ _ _ _).1 hk
          revert h1
          generalize CreateOrUpdateService r.Client service
                (fun svc => patchService r svc vip.Status.IP vip.Status.KeepalivedGroup false) s = res
          obtain ⟨s1, e1⟩ := res
          intro h1
          cases e1 with
          | some err => exact h1
          | none =>
            simp only [Bool.false_or, Bool.false_eq_true, if_false]
            split
            · have h2 := keeps_updateVirtualIP serviceFinalizer ns name r.Client
                (AddFinalizer vip serviceFinalizer) s1 h1 (mem_addFinalizer _ _ _ hv)
              revert h2
              generalize updateVirtualIP r.Client (AddFinalizer vip serviceFinalizer) s1 = res
              obtain ⟨s2, e2⟩ := res
              intro h2
              cases e2 <;> exact h2
            · exact h1

theorem getVirtualIP_cases (c : Client) (ns name : String) (s : Store) :
    (∃ e, getVirtualIP c ns name s = .error e) ∨
      (∃ v, getVirtualIP c ns name s = .ok v ∧ s.virtualIP ns name = some v ∧
        c (.getVirtualIP ns name) = none) := by
  unfold getVirtualIP
  cases hc : c (.getVirtualIP ns name) with
  | some e => exact Or.inl ⟨e, rfl⟩
  | none =>
    cases hv : s.virtualIP ns name with
    | none => exact Or.inl ⟨_, rfl⟩
    | some v => exact Or.inr ⟨v, rfl, rfl, rfl⟩

theorem keeps_reconcile (r : VirtualIPReconciler) (req : Request) (s : Store) (vip : VirtualIP)
    (hstored : s.virtualIP req.Namespace req.Name = some vip)
    (hv : serviceFinalizer ∈ vip.Finalizers)
    (hcase : vip.DeletionTimestamp = none ∨ ipFinalizer ∈ vip.Finalizers) :
    keepsFinalizer serviceFinalizer req.Namespace req.Name (Reconcile r req s).1 := by
  have hk : keepsFinalizer serviceFinalizer req.Namespace req.Name s := by
    intro v h
    rw [hstored] at h
    cases h
    exact hv
  have hsteps : keepsFinalizer serviceFinalizer req.Namespace req.Name
      (reconcileSteps r req s).1 := by
    unfold reconcileSteps
    rcases getVirtualIP_cases r.Client req.Namespace req.Name s with ⟨e, he⟩ | ⟨v, hv1, hv2, _⟩
    · rw [he]; exact hk
    · rw [hv1]
      rw [hstored] at hv2
      cases hv2
      simp only
      cases hd : vip.DeletionTimestamp with
      | none =>
        simp only [IsZero, Option.isNone_none, Bool.not_true, Bool.false_eq_true, if_false]
        have h1 := keeps_reconcileAddress req.Namespace req.Name r vip s hk hv
        revert h1
        generalize reconcileAddress r vip s = res
        obtain ⟨s1, e1⟩ := res
        intro h1
        cases e1 with
        | some exit => exact h1
        | none => exact keeps_reconcileService _ _ r vip s1 h1 hv
      | some t =>
        simp only [IsZero, Option.isNone_some, Bool.not_false, if_true]
        have hin : ipFinalizer ∈ vip.Finalizers := by
          rcases hcase with h | h
          · rw [hd] at h; cases h
          · exact h
        have h1 := keeps_reconcileDeletion req.Namespace req.Name r vip s hk hv
        have h2 := (reconcileDeletion_exit r vip s).1 (by simp [ContainsFinalizer, hin])
        revert h1 h2
        generalize reconcileDeletion r vip s = res
        obtain ⟨s1, e1⟩ := res
        intro h1 h2
        cases e1 with
        | some exit => exact h1
        | none => exact absurd rfl h2
  unfold Reconcile
  revert hsteps
  generalize reconcileSteps r req s = res
  obtain ⟨s1, e1⟩ := res
  intro hsteps
  cases e1 with
  | updateStatus v e => exact keeps_updateStatus _ _ _ r v e s1 hsteps
  | result err => exact hsteps
  | panic => exact hsteps
  | hang => exact hsteps

theorem service_finalizer_removed_late (r : VirtualIPReconciler) (req : Request) (s : Store)
    (vip vip1 : VirtualIP)
    (hstored : s.virtualIP req.Namespace req.Name = some vip)
    (hafter : (Reconcile r req s).1.virtualIP req.Namespace req.Name = some vip1)
    (hv : serviceFinalizer ∈ vip.Finalizers) (hv1 : serviceFinalizer ∉ vip1.Finalizers) :
    vip.DeletionTimestamp ≠ none ∧ ipFinalizer ∉ vip.Finalizers := by
  by_contra hcon
  have hcase : vip.DeletionTimestamp = none ∨ ipFinalizer ∈ vip.Finalizers := by
    by_cases h1 : vip.DeletionTimestamp = none
    · exact Or.inl h1
    · by_cases h2 : ipFinalizer ∈ vip.Finalizers
      · exact Or.inr h2
      · exact absurd ⟨h1, h2⟩ hcon
  exact hv1 (keeps_reconcile r req s vip hstored hv hcase vip1 hafter)

theorem service_key (s : Store) (ns name : String) (v : Service)
    (h : s.service ns name = some v) : v.Namespace = ns ∧ v.Name = name := by
  have := List.find?_some h
  simpa using this

theorem ip_key (s : Store) (name : String) (v : IPObject)
    (h : s.ip name = some v) : v.Name = name := by
  have := List.find?_some h
  simpa using this

theorem service_map_replace (l : List Service) (ns name ns1 name1 : String) (svc : Service)
    (hf : svc.Namespace = ns1 ∧ svc.Name = name1) :
    (l.map (fun x => if x.Namespace = ns1 ∧ x.Name = name1 then svc else x)).find?
        (fun v => decide (v.Namespace = ns ∧ v.Name = name)) =
      (l.find? (fun v => decide (v.Namespace = ns ∧ v.Name = name))).map
        (fun x => if x.Namespace = ns1 ∧ x.Name = name1 then svc else x) := by
  have h := find_map_replace (fun v : Service => decide (v.Namespace = ns ∧ v.Name = name))
    (fun x : Service => decide (x.Namespace = ns1 ∧ x.Name = name1)) (fun _ => svc)
    (by intro x hx; simp only [decide_eq_true_eq] at hx; simp [hf, hx]) l
  simp only [decide_eq_true_eq] at h
  exact h

theorem patchService_key (r : VirtualIPReconciler) (svc : Service) (ip kg : String)
    (remove : Bool) :
    (patchService r svc ip kg remove).Namespace = svc.Namespace ∧
      (patchService r svc ip kg remove).Name = svc.Name := by
  unfold patchService
  split <;> exact ⟨rfl, rfl⟩

theorem CreateOrUpdateService_existing (c : Client) (obj existing : Service)
    (f : Service → Service) (s : Store)
    (hc : c (.getService obj.Namespace obj.Name) = none)
    (hex : s.service obj.Namespace obj.Name = some existing)
    (hkey : (f existing).Namespace = existing.Namespace ∧ (f existing).Name = existing.Name) :
    CreateOrUpdateService c obj f s =
      if f existing = existing then (s, none) else updateService c (f existing) s := by
  obtain ⟨h1, h2⟩ := service_key _ _ _ _ hex
  simp only [CreateOrUpdateService, Kube.getService, hc, hex, hkey.1, hkey.2, h1, h2, ne_eq,
    not_true_eq_false, or_self, if_false]

theorem CreateOrUpdateService_absent (c : Client) (obj : Service)
    (f : Service → Service) (s : Store)
    (hc : c (.getService obj.Namespace obj.Name) = none)
    (hex : s.service obj.Namespace obj.Name = none)
    (hkey : (f obj).Namespace = obj.Namespace ∧ (f obj).Name = obj.Name) :
    CreateOrUpdateService c obj f s = createService c (f obj) s := by
  simp only [CreateOrUpdateService, Kube.getService, hc, hex, notFound, hkey.1, hkey.2, ne_eq,
    not_true_eq_false, or_self, if_false, if_true]

theorem reconcileService_teardown (r : VirtualIPReconciler) (vip : VirtualIP) (svc : Service)
    (s : Store) (hname : vip.Status.Service ≠ "") (hclone : vip.Status.Clone = some false)
    (hsvc : s.service vip.Namespace vip.Status.Service = some svc) :
    reconcileService r true vip s =
      match r.Client (.getService vip.Namespace vip.Status.Service) with
      | some e => (s, .updateStatus vip
          (some (errorsNew ("could not get service to be exposed: " ++ e.msg))))
      | none =>
        match (if patchService r svc vip.Status.IP vip.Status.KeepalivedGroup true = svc then
                (s, none)
               else updateService r.Client
                (patchService r svc vip.Status.IP vip.Status.KeepalivedGroup true) s) with
        | (s1, some err) => (s1, .updateStatus vip
            (some (errorsNew ("failed to create/update the service: " ++ err.msg))))
        | (s1, none) =>
          match updateVirtualIP r.Client (RemoveFinalizer vip serviceFinalizer) s1 with
          | (s2, some err) => (s2, .updateStatus (RemoveFinalizer vip serviceFinalizer)
              (some (errorsNew ("could not add finalizer for service: " ++ err.msg))))
          | (s2, none) => (s2, .result none) := by
  obtain ⟨h1, h2⟩ := service_key _ _ _ _ hsvc
  cases hc : r.Client (.getService vip.Namespace vip.Status.Service) with
  | some e => simp only [reconcileService, hname, if_false, getService, Kube.getService, hc]
  | none =>
    have hcu := CreateOrUpdateService_existing r.Client svc svc
      (fun x => patchService r x vip.Status.IP vip.Status.KeepalivedGroup true) s
      (by rw [h1, h2]; exact hc) (by rw [h1, h2]; exact hsvc) (patchService_key _ _ _ _ _)
    simp only [reconcileService, hname, if_false, getService, Kube.getService, hc, hsvc, hclone,
      Bool.false_eq_true, Bool.and_false, Bool.not_false, if_true, hcu, Bool.true_or]

theorem mapGet_mapDelete_self (m : StringMap) (k : String) : mapGet (mapDelete m k) k = none := by
  induction m with
  | nil => rfl
  | cons p ps ih =>
    obtain ⟨k1, v1⟩ := p
    unfold mapDelete at ih ⊢
    rw [List.filter_cons]
    by_cases h : k1 = k
    · simp only [h, ne_eq, not_true_eq_false, decide_False, Bool.false_eq_true, if_false]
      exact ih
    · simp only [h, ne_eq, not_false_eq_true, decide_True, if_true, mapGet, if_false]
      exact ih

theorem mapGet_mapDelete_other (m : StringMap) (k k2 : String) (hk : k2 ≠ k) :
    mapGet (mapDelete m k) k2 = mapGet m k2 := by
  induction m with
  | nil => rfl
  | cons p ps ih =>
    obtain ⟨k1, v1⟩ := p
    unfold mapDelete at ih ⊢
    rw [List.filter_cons]
    by_cases h : k1 = k
    · have h2 : ¬ k1 = k2 := by rw [h]; exact fun e => hk e.symm
      simp only [h, ne_eq, not_true_eq_false, decide_False, Bool.false_eq_true, if_false, mapGet]
      rw [h] at h2
      simp only [h2, if_false]
      exact ih
    · simp only [h, ne_eq, not_false_eq_true, decide_True, if_true, mapGet]
      rw [ih]

theorem reconcileSteps_teardown (r : VirtualIPReconciler) (req : Request) (s : Store)
    (vip : VirtualIP) (hstored : s.virtualIP req.Namespace req.Name = some vip)
    (hdel : vip.DeletionTimestamp ≠ none) (hnoip : ipFinalizer ∉ vip.Finalizers) :
    reconcileSteps r req s =
      match r.Client (.getVirtualIP req.Namespace req.Name) with
      | some e => (s, .result (IgnoreNotFound e))
      | none => reconcileService r true vip s := by
  have hz := isZero_false _ hdel
  have hc : ContainsFinalizer vip ipFinalizer = false := by
    simp [ContainsFinalizer, hnoip]
  cases hget : r.Client (.getVirtualIP req.Namespace req.Name) with
  | some e => simp only [reconcileSteps, getVirtualIP, hget]
  | none =>
    simp only [reconcileSteps, getVirtualIP, hget, hstored, hz, Bool.not_false, if_true,
      (reconcileDeletion_exit r vip s).2 hc]

theorem virtualIP_updateVirtualIP (c : Client) (v vip : VirtualIP) (s : Store)
    (hkey : v.Namespace = vip.Namespace ∧ v.Name = vip.Name)
    (hstored : s.virtualIP vip.Namespace vip.Name = some vip) :
    (updateVirtualIP c v s).1.virtualIP vip.Namespace vip.Name =
      if (updateVirtualIP c v s).2 = none then some { v with Status := vip.Status }
      else some vip := by
  obtain ⟨vns, vname, vuid, vdel, vfin, vspec, vstatus⟩ := v
  simp only at hkey
  obtain ⟨rfl, rfl⟩ := hkey
  unfold updateVirtualIP
  cases hc : c (.updateVirtualIP vip.Namespace vip.Name) with
  | some e => simpa using hstored
  | none =>
    simp only [hstored, if_true]
    simp only [Store.virtualIP] at hstored ⊢
    rw [virtualIP_map_replace _ _ _ _ _
      (fun x => ⟨vip.Namespace, vip.Name, vuid, vdel, vfin, vspec, x.Status⟩)
      (fun x hx => ⟨hx.1.symm, hx.2.symm⟩), hstored]
    simp

theorem service_updateService (c : Client) (svc new : Service) (s : Store)
    (hkey : new.Namespace = svc.Namespace ∧ new.Name = svc.Name)
    (hstored : s.service svc.Namespace svc.Name = some svc) :
    (updateService c new s).1.service svc.Namespace svc.Name =
      if (updateService c new s).2 = none then some new else some svc := by
  unfold updateService
  rw [hkey.1, hkey.2]
  cases hc : c (.updateService svc.Namespace svc.Name) with
  | some e => simpa using hstored
  | none =>
    simp only [hstored, if_true]
    simp only [Store.service] at hstored ⊢
    rw [service_map_replace _ _ _ _ _ new hkey, hstored]
    simp

theorem updateStatus_deleting (r : VirtualIPReconciler) (v : VirtualIP) (e : Option Err)
    (s : Store) (hz : IsZero v.DeletionTimestamp = false) :
    updateStatus r v e s = (s, {}, none) := by
  simp only [updateStatus, (recordError_meta v e).2.2.1, hz, Bool.false_eq_true, if_false]

theorem updateVirtualIP_served (c : Client) (v x : VirtualIP) (s : Store)
    (hc : c (.updateVirtualIP v.Namespace v.Name) = none)
    (hx : s.virtualIP v.Namespace v.Name = some x) : (updateVirtualIP c v s).2 = none := by
  simp only [updateVirtualIP, hc, hx]

theorem updateService_served (c : Client) (v x : Service) (s : Store)
    (hc : c (.updateService v.Namespace v.Name) = none)
    (hx : s.service v.Namespace v.Name = some x) : (updateService c v s).2 = none := by
  simp only [updateService, hc, hx]

theorem reconcile_teardown (r : VirtualIPReconciler) (req : Request) (s : Store)
    (vip : VirtualIP) (svc : Service)
    (hstored : s.virtualIP req.Namespace req.Name = some vip)
    (hdel : vip.DeletionTimestamp ≠ none) (hnoip : ipFinalizer ∉ vip.Finalizers)
    (hname : vip.Status.Service ≠ "") (hclone : vip.Status.Clone = some false)
    (hsvc : s.service vip.Namespace vip.Status.Service = some svc) :
    ((Reconcile r req s).1.virtualIP req.Namespace req.Name = some vip ∨
      ((Reconcile r req s).1.virtualIP req.Namespace req.Name =
          some (RemoveFinalizer vip serviceFinalizer) ∧
        (Reconcile r req s).1.service vip.Namespace vip.Status.Service =
          some (patchService r svc vip.Status.IP vip.Status.KeepalivedGroup true) ∧
        (Reconcile r req s).2 = .ret {} none)) ∧
    (r.Client (.updateService vip.Namespace vip.Status.Service) ≠ none →
      patchService r svc vip.Status.IP vip.Status.KeepalivedGroup true ≠ svc →
      (Reconcile r req s).1.virtualIP req.Namespace req.Name = some vip) ∧
    ((∀ op, r.Client op = none) →
      (Reconcile r req s).1.virtualIP req.Namespace req.Name =
          some (RemoveFinalizer vip serviceFinalizer)) := by
  obtain ⟨ns, name⟩ := req
  obtain ⟨rfl, rfl⟩ := virtualIP_key s _ _ vip hstored
  obtain ⟨hk1, hk2⟩ := service_key _ _ _ _ hsvc
  have hz := isZero_false _ hdel
  have hz2 : IsZero (RemoveFinalizer vip serviceFinalizer).DeletionTimestamp = false := hz
  simp only at hstored ⊢
  unfold Reconcile
  rw [reconcileSteps_teardown r _ s vip hstored hdel hnoip,
    reconcileService_teardown r vip svc s hname hclone hsvc]
  simp only
  cases hget : r.Client (.getVirtualIP vip.Namespace vip.Name) with
  | some e =>
    exact ⟨Or.inl hstored, fun _ _ => hstored, fun h => absurd (h _) (by rw [hget]; simp)⟩
  | none =>
    simp only
    cases hgs : r.Client (.getService vip.Namespace vip.Status.Service) with
    | some e =>
      simp only [updateStatus_deleting r vip _ s hz]
      exact ⟨Or.inl hstored, fun _ _ => hstored, fun h => absurd (h _) (by rw [hgs]; simp)⟩
    | none =>
      simp only
      have hpk := patchService_key r svc vip.Status.IP vip.Status.KeepalivedGroup true
      -- the service write
      have hwrite : ∀ s1 e1,
          (if patchService r svc vip.Status.IP vip.Status.KeepalivedGroup true = svc then
              (s, none)
            else updateService r.Client
              (patchService r svc vip.Status.IP vip.Status.KeepalivedGroup true) s) = (s1, e1) →
          s1.VirtualIPs = s.VirtualIPs ∧
          (e1 = none → s1.service vip.Namespace vip.Status.Service =
            some (patchService r svc vip.Status.IP vip.Status.KeepalivedGroup true)) ∧
          (r.Client (.updateService vip.Namespace vip.Status.Service) ≠ none →
            patchService r svc vip.Status.IP vip.Status.KeepalivedGroup true ≠ svc →
            e1 ≠ none) ∧
          (r.Client (.updateService vip.Namespace vip.Status.Service) = none → e1 = none) := by
        intro s1 e1 h
        split at h
        · rename_i heq
          cases h
          exact ⟨rfl, fun _ => by rw [heq]; exact hsvc, fun _ hne => absurd heq hne, fun _ => rfl⟩
        · have hf := updateService_frame r.Client
            (patchService r svc vip.Status.IP vip.Status.KeepalivedGroup true) s
          have hl := service_updateService r.Client svc
            (patchService r svc vip.Status.IP vip.Status.KeepalivedGroup true) s hpk
            (by rw [hk1, hk2]; exact hsvc)
          rw [h] at hf hl
          rw [hk1, hk2] at hl
          have hserved := updateService_served r.Client
            (patchService r svc vip.Status.IP vip.Status.KeepalivedGroup true) svc s
          rw [h, hpk.1, hpk.2, hk1, hk2] at hserved
          refine ⟨hf.1, fun he => by rw [hl]; simp [he], ?_, fun hc => hserved hc hsvc⟩
          intro hfault _
          have : (updateService r.Client
            (patchService r svc vip.Status.IP vip.Status.KeepalivedGroup true) s).2 ≠ none := by
            unfold updateService
            rw [hpk.1, hpk.2, hk1, hk2]
            cases hc : r.Client (.updateService vip.Namespace vip.Status.Service) with
            | none => exact absurd hc hfault
            | some e => simp
          rw [h] at this
          exact this
      revert hwrite
      generalize (if patchService r svc vip.Status.IP vip.Status.KeepalivedGroup true = svc then
              (s, none)
            else updateService r.Client
              (patchService r svc vip.Status.IP vip.Status.KeepalivedGroup true) s) = res
      obtain ⟨s1, e1⟩ := res
      intro hwrite
      obtain ⟨hv1, hs1, hfail, hok⟩ := hwrite s1 e1 rfl
      have hstored1 : s1.virtualIP vip.Namespace vip.Name = some vip := by
        simpa only [Store.virtualIP, hv1] using hstored
      cases e1 with
      | some err =>
        simp only [updateStatus_deleting r vip _ s1 hz]
        exact ⟨Or.inl hstored1, fun _ _ => hstored1,
          fun h => absurd (hok (h _)) (by simp)⟩
      | none =>
        simp only
        have hl := virtualIP_updateVirtualIP r.Client (RemoveFinalizer vip serviceFinalizer) vip s1
          ⟨rfl, rfl⟩ hstored1
        have hf := updateVirtualIP_frame r.Client (RemoveFinalizer vip serviceFinalizer) s1
        have hsrv := updateVirtualIP_served r.Client (RemoveFinalizer vip serviceFinalizer) vip s1
        revert hl hf hsrv
        generalize updateVirtualIP r.Client (RemoveFinalizer vip serviceFinalizer) s1 = res
        obtain ⟨s2, e2⟩ := res
        intro hl hf hsrv
        cases e2 with
        | some err =>
          simp only [updateStatus_deleting r _ _ s2 hz2]
          simp only [reduceCtorEq, if_false] at hl
          exact ⟨Or.inl hl, fun _ _ => hl, fun h => absurd (hsrv (h _) hstored1) (by simp)⟩
        | none =>
          simp only [if_true] at hl
          have hl2 : s2.virtualIP vip.Namespace vip.Name =
              some (RemoveFinalizer vip serviceFinalizer) := hl
          have hsv : s2.service vip.Namespace vip.Status.Service =
              some (patchService r svc vip.Status.IP vip.Status.KeepalivedGroup true) := by
            have := hs1 rfl
            simp only [Store.service] at this ⊢
            rw [show s2.Services = s1.Services from hf.2.2]
            exact this
          exact ⟨Or.inr ⟨hl2, hsv, rfl⟩, fun h1 h2 => absurd rfl (hfail h1 h2), fun _ => hl2⟩

theorem reconcile_deletion_both (r : VirtualIPReconciler) (req : Request) (s : Store) (vip : VirtualIP)
    (hstored : s.virtualIP req.Namespace req.Name = some vip)
    (hdel : vip.DeletionTimestamp ≠ none) (hip : ipFinalizer ∈ vip.Finalizers)
    (hsvc : serviceFinalizer ∈ vip.Finalizers) :
    (Reconcile r req s).1.Services = s.Services ∧
    (∃ vip1, (Reconcile r req s).1.virtualIP req.Namespace req.Name = some vip1 ∧
      serviceFinalizer ∈ vip1.Finalizers) ∧
    ((∀ op, r.Client op = none) → s.ip vip.Status.IP ≠ none →
      Reconcile r req s =
        ({ s with
            IPs := s.IPs.filter (fun x => x.Name ≠ vip.Status.IP)
            VirtualIPs := s.VirtualIPs.map (fun x =>
              if x.Namespace = vip.Namespace ∧ x.Name = vip.Name then
                { vip with Finalizers := vip.Finalizers.filter (fun f => f ≠ ipFinalizer),
                           Status := x.Status }
              else x) }, .ret {} none)) := by
  obtain ⟨ns, name⟩ := req
  obtain ⟨rfl, rfl⟩ := virtualIP_key s _ _ vip hstored
  have hz := isZero_false _ hdel
  have hc : ContainsFinalizer vip ipFinalizer = true := by
    simp [ContainsFinalizer, hip]
  have hkeep : serviceFinalizer ∈ vip.Finalizers.filter (fun f => f ≠ ipFinalizer) := by
    simp [List.mem_filter, hsvc]; decide
  simp only [Store.virtualIP] at hstored
  unfold Reconcile reconcileSteps
  cases hget : r.Client (.getVirtualIP vip.Namespace vip.Name) with
  | some e =>
    simp only [getVirtualIP, hget]
    exact ⟨trivial, ⟨vip, hstored, hsvc⟩, fun h => absurd (h _) (by rw [hget]; simp)⟩
  | none =>
    simp only [getVirtualIP, hget, Store.virtualIP, hstored, hz, Bool.not_false, if_true, reconcileDeletion, hc]
    cases hdelop : r.Client (.deleteIP vip.Status.IP) with
    | some e =>
      simp only [deleteIP, hdelop, updateStatus_deleting r vip _ s hz]
      exact ⟨trivial, ⟨vip, hstored, hsvc⟩, fun h => absurd (h _) (by rw [hdelop]; simp)⟩
    | none =>
      cases hrec : s.ip vip.Status.IP with
      | none =>
        simp only [deleteIP, hdelop, hrec, updateStatus_deleting r vip _ s hz]
        exact ⟨trivial, ⟨vip, hstored, hsvc⟩, fun _ h => absurd rfl h⟩
      | some rec =>
        simp only [deleteIP, hdelop, hrec]
        cases hup : r.Client (.updateVirtualIP vip.Namespace vip.Name) with
        | some e =>
          simp only [updateVirtualIP, RemoveFinalizer, hup, updateStatus_deleting, hz]
          exact ⟨trivial, ⟨vip, hstored, hsvc⟩, fun h => absurd (h _) (by rw [hup]; simp)⟩
        | none =>
          simp only [updateVirtualIP, RemoveFinalizer, hup, Store.virtualIP, hstored]
          refine ⟨trivial, ?_, fun _ _ => trivial⟩
          rw [virtualIP_map_replace _ _ _ _ _
            (fun x => { vip with Finalizers := vip.Finalizers.filter (fun f => f ≠ ipFinalizer),
                                 Status := x.Status }) (fun x hx => ⟨hx.1.symm, hx.2.symm⟩), hstored]
          simp only [Option.map_some', and_self, if_true, Option.some.injEq, exists_eq_left']
          exact hkeep

theorem cloneService_ok (r : VirtualIPReconciler) (vip : VirtualIP) (svc : Service)
    (gvk : String × String) (hns : svc.Namespace = vip.Namespace) (hs : r.Scheme = some gvk) :
    cloneService r vip svc = .ok (cloneOf gvk vip svc) := by
  obtain ⟨a, k⟩ := gvk
  simp only [cloneService, SetOwnerReference, hs, hns, upsertOwnerRef, cloneOf, ne_eq,
    not_true_eq_false, and_false, if_false]
  by_cases h : vip.Namespace = ""
  · simp [h]
  · simp [h]

theorem reconcile_teardown_clone (r : VirtualIPReconciler) (req : Request) (s : Store)
    (vip : VirtualIP) (svc : Service) (gvk : String × String)
    (hstored : s.virtualIP req.Namespace req.Name = some vip)
    (hdel : vip.DeletionTimestamp ≠ none) (hnoip : ipFinalizer ∉ vip.Finalizers)
    (hname : vip.Status.Service ≠ "") (hclone : vip.Status.Clone = some true)
    (hsvc : s.service vip.Namespace vip.Status.Service = some svc)
    (hscheme : r.Scheme = some gvk) (hserved : ∀ op, r.Client op = none) :
    Reconcile r req s =
      ((updateVirtualIP r.Client (RemoveFinalizer vip serviceFinalizer) s).1, .ret {} none) ∧
    (Reconcile r req s).1.virtualIP req.Namespace req.Name =
      some (RemoveFinalizer vip serviceFinalizer) ∧
    (Reconcile r req s).1.Services = s.Services := by
  obtain ⟨ns, name⟩ := req
  obtain ⟨rfl, rfl⟩ := virtualIP_key s _ _ vip hstored
  obtain ⟨hk1, hk2⟩ := service_key _ _ _ _ hsvc
  simp only at hstored ⊢
  have hlook := virtualIP_updateVirtualIP r.Client (RemoveFinalizer vip serviceFinalizer) vip s
    ⟨rfl, rfl⟩ hstored
  have hok := updateVirtualIP_served r.Client (RemoveFinalizer vip serviceFinalizer) vip s
    (hserved _) hstored
  have hf := updateVirtualIP_frame r.Client (RemoveFinalizer vip serviceFinalizer) s
  have hmain : Reconcile r ⟨vip.Namespace, vip.Name⟩ s =
      ((updateVirtualIP r.Client (RemoveFinalizer vip serviceFinalizer) s).1, .ret {} none) := by
    unfold Reconcile
    rw [reconcileSteps_teardown r _ s vip hstored hdel hnoip]
    simp only [hserved, reconcileService, hname, if_false, getService, Kube.getService, hsvc,
      hclone, if_true, cloneService_ok r vip svc gvk hk1 hscheme, Bool.and_self, Bool.not_true,
      Bool.false_eq_true, Bool.true_or]
    revert hok
    generalize updateVirtualIP r.Client (RemoveFinalizer vip serviceFinalizer) s = res
    obtain ⟨s2, e2⟩ := res
    intro hok
    simp only at hok
    subst hok
    rfl
  rw [hmain]
  rw [hok] at hlook
  exact ⟨rfl, by simpa using hlook, hf.2.2⟩

theorem removeFinalizer_not_mem (v : VirtualIP) (f : String) :
    f ∉ (RemoveFinalizer v f).Finalizers := by
  simp [RemoveFinalizer, List.mem_filter]

/-- C5 (deletion unwind order), for the stored VirtualIP `vip` of the key.
First: if `vip` is being deleted and carries both finalizers, one invocation
changes no service and leaves the service finalizer on the stored object;
when the store serves every request and the IP record named `Status.IP`
exists, it deletes that record and removes the address finalizer only.
Second, for every invocation: if the service finalizer is on the object
before and not after, the object was being deleted and the address finalizer
was already absent before. Third: a deleting object without the address
finalizer and with the service finalizer, with a service recorded and
existing (and, in clone mode, the VirtualIP kind registered), served by the
store, ends without either finalizer, with the service unbound when the clone
flag is false, and without error. -/
theorem reconcile_deletion_unwind_order (r : VirtualIPReconciler) (req : Request) (s : Store)
    (vip : VirtualIP) (hstored : s.virtualIP req.Namespace req.Name = some vip) :
    ((vip.DeletionTimestamp ≠ none ∧ ipFinalizer ∈ vip.Finalizers ∧
        serviceFinalizer ∈ vip.Finalizers) →
      (Reconcile r req s).1.Services = s.Services ∧
      (∃ vip1, (Reconcile r req s).1.virtualIP req.Namespace req.Name = some vip1 ∧
        serviceFinalizer ∈ vip1.Finalizers) ∧
      ((∀ op, r.Client op = none) → s.ip vip.Status.IP ≠ none →
        Reconcile r req s =
          ({ s with
              IPs := s.IPs.filter (fun x => x.Name ≠ vip.Status.IP)
              VirtualIPs := s.VirtualIPs.map (fun x =>
                if x.Namespace = vip.Namespace ∧ x.Name = vip.Name then
                  { vip with Finalizers := vip.Finalizers.filter (fun f => f ≠ ipFinalizer),
                             Status := x.Status }
                else x) }, .ret {} none))) ∧
    (∀ vip1, (Reconcile r req s).1.virtualIP req.Namespace req.Name = some vip1 →
      serviceFinalizer ∈ vip.Finalizers → serviceFinalizer ∉ vip1.Finalizers →
      vip.DeletionTimestamp ≠ none ∧ ipFinalizer ∉ vip.Finalizers) ∧
    (∀ (svc : Service) (clone : Bool),
      vip.DeletionTimestamp ≠ none → ipFinalizer ∉ vip.Finalizers →
      serviceFinalizer ∈ vip.Finalizers → (∀ op, r.Client op = none) →
      vip.Status.Service ≠ "" → vip.Status.Clone = some clone →
      s.service vip.Namespace vip.Status.Service = some svc →
      (clone = true → r.Scheme ≠ none) →
      (∃ vip1, (Reconcile r req s).1.virtualIP req.Namespace req.Name = some vip1 ∧
        serviceFinalizer ∉ vip1.Finalizers ∧ ipFinalizer ∉ vip1.Finalizers) ∧
      (clone = false → (Reconcile r req s).1.service vip.Namespace vip.Status.Service =
        some (patchService r svc vip.Status.IP vip.Status.KeepalivedGroup true)) ∧
      (Reconcile r req s).2 = .ret {} none) := by
  refine ⟨fun h => reconcile_deletion_both r req s vip hstored h.1 h.2.1 h.2.2,
    fun vip1 h1 h2 h3 => service_finalizer_removed_late r req s vip vip1 hstored h1 h2 h3, ?_⟩
  intro svc clone hdel hnoip hfin hserved hname hclone hsvc hscheme
  have hno2 : ipFinalizer ∉ (RemoveFinalizer vip serviceFinalizer).Finalizers := by
    intro h
    exact hnoip (List.mem_of_mem_filter h)
  cases clone with
  | false =>
    obtain ⟨h1, _, h3⟩ := reconcile_teardown r req s vip svc hstored hdel hnoip hname hclone hsvc
    have hl := h3 hserved
    rcases h1 with h | ⟨_, h5, h6⟩
    · rw [hl] at h
      have hm := removeFinalizer_not_mem vip serviceFinalizer
      rw [Option.some.inj h] at hm
      exact absurd hfin hm
    · exact ⟨⟨_, hl, removeFinalizer_not_mem _ _, hno2⟩, fun _ => h5, h6⟩
  | true =>
    cases hs : r.Scheme with
    | none => exact absurd hs (hscheme rfl)
    | some gvk =>
      obtain ⟨h1, h2, _⟩ := reconcile_teardown_clone r req s vip svc gvk hstored hdel hnoip
        hname hclone hsvc hs hserved
      exact ⟨⟨_, h2, removeFinalizer_not_mem _ _, hno2⟩, fun h => absurd h (by simp),
        by rw [h1]⟩

theorem statusKept_refl (s : Store) : statusKept s s := fun _ _ => rfl

theorem statusKept_trans {a b c : Store} (h1 : statusKept a b) (h2 : statusKept b c) :
    statusKept a c := fun ns name => (h2 ns name).trans (h1 ns name)

theorem statusKept_of_same (s s1 : Store) (h : s1.VirtualIPs = s.VirtualIPs) :
    statusKept s s1 := by
  intro ns name
  simp only [Store.virtualIP, h]

theorem statusKept_updateVirtualIP (c : Client) (v : VirtualIP) (s : Store) :
    statusKept s (updateVirtualIP c v s).1 := by
  unfold updateVirtualIP
  split
  · exact statusKept_refl s
  · split
    · intro ns name
      simp only [Store.virtualIP]
      rw [virtualIP_map_replace _ _ _ _ _ (fun x => { v with Status := x.Status })
        (fun x hx => ⟨hx.1.symm, hx.2.symm⟩)]
      cases s.VirtualIPs.find? (fun v => decide (v.Namespace = ns ∧ v.Name = name)) with
      | none => rfl
      | some y =>
        simp only [Option.map_some', Option.some.injEq]
        split <;> rfl
    · exact statusKept_refl s

theorem sameObject_refl (v : VirtualIP) : sameObject v v := ⟨rfl, rfl, rfl⟩

theorem sameObject_removeFinalizer (v : VirtualIP) (f : String) :
    sameObject v (RemoveFinalizer v f) := ⟨rfl, rfl, rfl⟩

theorem sameObject_addFinalizer (v : VirtualIP) (f : String) :
    sameObject v (AddFinalizer v f) := by
  unfold AddFinalizer
  split <;> exact ⟨rfl, rfl, rfl⟩

theorem reconcileDeletion_report (r : VirtualIPReconciler) (v0 : VirtualIP) (s : Store) :
    statusKept s (reconcileDeletion r v0 s).1 ∧
    ∀ vip eo, (reconcileDeletion r v0 s).2 = some (.updateStatus vip eo) → sameObject v0 vip := by
  unfold reconcileDeletion
  split
  · have h1 := statusKept_of_same s _ (deleteIP_frame r.Client v0.Status.IP s).1
    revert h1
    generalize deleteIP r.Client v0.Status.IP s = res
    obtain ⟨s1, e1⟩ := res
    intro h1
    cases e1 with
    | some err =>
      refine ⟨h1, ?_⟩
      intro vip eo h
      simp only [Option.some.injEq, Exit.updateStatus.injEq] at h
      rw [← h.1]; exact sameObject_refl _
    | none =>
      simp only
      have h2 := statusKept_updateVirtualIP r.Client (RemoveFinalizer v0 ipFinalizer) s1
      revert h2
      generalize updateVirtualIP r.Client (RemoveFinalizer v0 ipFinalizer) s1 = res
      obtain ⟨s2, e2⟩ := res
      intro h2
      cases e2 with
      | some err =>
        refine ⟨statusKept_trans h1 h2, ?_⟩
        intro vip eo h
        simp only [Option.some.injEq, Exit.updateStatus.injEq] at h
        rw [← h.1]; exact sameObject_removeFinalizer _ _
      | none =>
        refine ⟨statusKept_trans h1 h2, ?_⟩
        intro vip eo h
        simp at h
  · exact ⟨statusKept_refl s, fun vip eo h => by simp at h⟩

theorem reconcileAddress_report (r : VirtualIPReconciler) (v0 : VirtualIP) (s : Store) :
    statusKept s (reconcileAddress r v0 s).1 ∧
    ∀ vip eo, (reconcileAddress r v0 s).2 = some (.updateStatus vip eo) → sameObject v0 vip := by
  unfold reconcileAddress
  split
  · have h1 := statusKept_of_same s _ (allocateIP_frame r v0 s).1
    revert h1
    generalize allocateIP r v0 s = res
    obtain ⟨s1, e1⟩ := res
    intro h1
    cases e1 with
    | hang => exact ⟨h1, fun vip eo h => by simp at h⟩
    | error err =>
      refine ⟨h1, ?_⟩
      intro vip eo h
      simp only [Option.some.injEq, Exit.updateStatus.injEq] at h
      rw [← h.1]; exact ⟨rfl, rfl, rfl⟩
    | ok a =>
      obtain ⟨ip, kg, gn⟩ := a
      refine ⟨h1, ?_⟩
      intro vip eo h
      simp only [Option.some.injEq, Exit.updateStatus.injEq] at h
      rw [← h.1]; exact ⟨rfl, rfl, rfl⟩
  · simp only
    have h1 := statusKept_of_same s _
      (CreateOrUpdateIP_frame r.Client { Name := v0.Status.IP, Labels := [], Annotations := [] }
        (fun o => labelIP o v0 v0.Status.GSM) s).1
    revert h1
    generalize CreateOrUpdateIP r.Client { Name := v0.Status.IP, Labels := [], Annotations := [] }
          (fun o => labelIP o v0 v0.Status.GSM) s = res
    obtain ⟨s1, e1⟩ := res
    intro h1
    cases e1 with
    | some err =>
      refine ⟨h1, ?_⟩
      intro vip eo h
      simp only [Option.some.injEq, Exit.updateStatus.injEq] at h
      rw [← h.1]; exact sameObject_refl _
    | none =>
      simp only
      split
      · have h2 := statusKept_updateVirtualIP r.Client (AddFinalizer v0 ipFinalizer) s1
        revert h2
        generalize updateVirtualIP r.Client (AddFinalizer v0 ipFinalizer) s1 = res
        obtain ⟨s2, e2⟩ := res
        intro h2
        cases e2 with
        | some err =>
          refine ⟨statusKept_trans h1 h2, ?_⟩
          intro vip eo h
          simp only [Option.some.injEq, Exit.updateStatus.injEq] at h
          rw [← h.1]; exact sameObject_addFinalizer _ _
        | none => exact ⟨statusKept_trans h1 h2, fun vip eo h => by simp at h⟩
      · exact ⟨h1, fun vip eo h => by simp at h⟩

theorem reconcileService_report (r : VirtualIPReconciler) (deleteVIP : Bool) (v0 : VirtualIP)
    (s : Store) :
    statusKept s (reconcileService r deleteVIP v0 s).1 ∧
    ∀ vip eo, (reconcileService r deleteVIP v0 s).2 = .updateStatus vip eo → sameObject v0 vip := by
  unfold reconcileService
  split
  · refine ⟨statusKept_refl s, ?_⟩
    intro vip eo h
    simp only [Exit.updateStatus.injEq] at h
    rw [← h.1]; exact ⟨rfl, rfl, rfl⟩
  · split
    · exact ⟨statusKept_refl s, fun vip eo h => by simp at h⟩
    · refine ⟨statusKept_refl s, ?_⟩
      intro vip eo h
      simp only [Exit.updateStatus.injEq] at h
      rw [← h.1]; exact sameObject_refl _
    · split
      · exact ⟨statusKept_refl s, fun vip eo h => by simp at h⟩
      · rename_i service _ clone _
        split
        · exact ⟨statusKept_refl s, fun vip eo h => by simp at h⟩
        · refine ⟨statusKept_refl s, ?_⟩
          intro vip eo h
          simp only [Exit.updateStatus.injEq] at h
          rw [← h.1]; exact sameObject_refl _
        · rename_i service1 _
          have h1 : statusKept s (if (!(deleteVIP && clone)) = true then
                  CreateOrUpdateService r.Client service1
                    (fun svc => patchService r svc v0.Status.IP
                      v0.Status.KeepalivedGroup deleteVIP) s
                else (s, none)).1 := by
            split
            · exact statusKept_of_same s _ (CreateOrUpdateService_frame _ _ _ _).1
            · exact statusKept_refl s
          revert h1
          generalize (if (!(deleteVIP && clone)) = true then
                  CreateOrUpdateService r.Client service1
                    (fun svc => patchService r svc v0.Status.IP
                      v0.Status.KeepalivedGroup deleteVIP) s
                else (s, none)) = res
          obtain ⟨s1, e1⟩ := res
          intro h1
          cases e1 with
          | some err =>
            refine ⟨h1, ?_⟩
            intro vip eo h
            simp only [Exit.updateStatus.injEq] at h
            rw [← h.1]; exact sameObject_refl _
          | none =>
            simp only
            split
            · have h2 := statusKept_updateVirtualIP r.Client
                (if deleteVIP = true then RemoveFinalizer v0 serviceFinalizer
                  else AddFinalizer v0 serviceFinalizer) s1
              have h3 : sameObject v0 (if deleteVIP = true then RemoveFinalizer v0 serviceFinalizer
                  else AddFinalizer v0 serviceFinalizer) := by
                split
                · exact sameObject_removeFinalizer _ _
                · exact sameObject_addFinalizer _ _
              revert h2
              generalize updateVirtualIP r.Client
                (if deleteVIP = true then RemoveFinalizer v0 serviceFinalizer
                  else AddFinalizer v0 serviceFinalizer) s1 = res
              obtain ⟨s2, e2⟩ := res
              intro h2
              cases e2 with
              | some err =>
                refine ⟨statusKept_trans h1 h2, ?_⟩
                intro vip eo h
                simp only [Exit.updateStatus.injEq] at h
                rw [← h.1]; exact h3
              | none => exact ⟨statusKept_trans h1 h2, fun vip eo h => by simp at h⟩
            · refine ⟨h1, ?_⟩
              intro vip eo h
              simp only [Exit.updateStatus.injEq] at h
              rw [← h.1]; exact ⟨rfl, rfl, rfl⟩

theorem reconcileSteps_report (r : VirtualIPReconciler) (req : Request) (s s1 : Store)
    (vip : VirtualIP) (eo : Option Err)
    (h : reconcileSteps r req s = (s1, .updateStatus vip eo)) :
    statusKept s s1 ∧ ∃ v0, s.virtualIP req.Namespace req.Name = some v0 ∧ sameObject v0 vip := by
  unfold reconcileSteps at h
  rcases getVirtualIP_cases r.Client req.Namespace req.Name s with ⟨e, he⟩ | ⟨v, hv1, hv2, _⟩
  · rw [he] at h
    simp at h
  · rw [hv1] at h
    simp only at h
    have hsec : statusKept s
        (if (!IsZero v.DeletionTimestamp) = true then reconcileDeletion r v s
          else reconcileAddress r v s).1 ∧
        ∀ vip eo, (if (!IsZero v.DeletionTimestamp) = true then reconcileDeletion r v s
          else reconcileAddress r v s).2 = some (.updateStatus vip eo) → sameObject v vip := by
      split
      · exact reconcileDeletion_report r v s
      · exact reconcileAddress_report r v s
    revert hsec h
    generalize (if (!IsZero v.DeletionTimestamp) = true then reconcileDeletion r v s
          else reconcileAddress r v s) = res
    obtain ⟨s2, e2⟩ := res
    intro h hsec
    cases e2 with
    | some exit =>
      simp only [Prod.mk.injEq] at h
      obtain ⟨rfl, rfl⟩ := h
      exact ⟨hsec.1, v, hv2, hsec.2 vip eo rfl⟩
    | none =>
      simp only at h
      have h3 := reconcileService_report r (!IsZero v.DeletionTimestamp) v s2
      rw [h] at h3
      exact ⟨statusKept_trans hsec.1 h3.1, v, hv2, h3.2 vip eo rfl⟩

theorem virtualIP_updateVirtualIPStatus (c : Client) (v x : VirtualIP) (s : Store)
    (hc : c (.updateVirtualIPStatus v.Namespace v.Name) = none)
    (hx : s.virtualIP v.Namespace v.Name = some x) :
    updateVirtualIPStatus c v s =
      ({ s with VirtualIPs := s.VirtualIPs.map (fun y =>
          if y.Namespace = v.Namespace ∧ y.Name = v.Name then { y with Status := v.Status }
          else y) }, none) ∧
    (updateVirtualIPStatus c v s).1.virtualIP v.Namespace v.Name =
      some { x with Status := v.Status } := by
  have h1 : updateVirtualIPStatus c v s =
      ({ s with VirtualIPs := s.VirtualIPs.map (fun y =>
          if y.Namespace = v.Namespace ∧ y.Name = v.Name then { y with Status := v.Status }
          else y) }, none) := by
    simp only [updateVirtualIPStatus, hc, hx]
  refine ⟨h1, ?_⟩
  rw [h1]
  obtain ⟨hk1, hk2⟩ := virtualIP_key _ _ _ _ hx
  simp only [Store.virtualIP] at hx ⊢
  rw [virtualIP_map_replace _ _ _ _ _ (fun y => { y with Status := v.Status })
    (fun y _ => ⟨rfl, rfl⟩), hx]
  simp [hk1, hk2]

/-- C7 (failure reporting): for every invocation whose steps end in
`return r.updateStatus(virtualIP, logger, e)` with a non-nil `e` (a step other
than the status write failed: allocation, IP create-or-update, finalizer
update, service lookup, cloning, service create-or-update, IP deletion):
if the VirtualIP is not being deleted and the status write is served, the
stored status has `State = Error` and `Message` equal to the error text; if
it is being deleted, the store is left as the steps left it, no stored status
differs from the one before the invocation; in both cases `Reconcile` returns
the empty result and no error. -/
theorem reconcile_failure_reporting (r : VirtualIPReconciler) (req : Request) (s s1 : Store)
    (vip : VirtualIP) (e : Err)
    (hfail : reconcileSteps r req s = (s1, .updateStatus vip (some e))) :
    (vip.DeletionTimestamp = none →
      r.Client (.updateVirtualIPStatus req.Namespace req.Name) = none →
      ∃ v1, (Reconcile r req s).1.virtualIP req.Namespace req.Name = some v1 ∧
        v1.Status.State = State.Error ∧ v1.Status.Message = e.msg ∧
        (Reconcile r req s).2 = .ret {} none) ∧
    (vip.DeletionTimestamp ≠ none →
      (Reconcile r req s).1 = s1 ∧
      (∀ ns name, ((Reconcile r req s).1.virtualIP ns name).map (fun v => v.Status) =
        (s.virtualIP ns name).map (fun v => v.Status)) ∧
      (Reconcile r req s).2 = .ret {} none) := by
  obtain ⟨hkept, v0, hv0, hsame⟩ := reconcileSteps_report r req s s1 vip (some e) hfail
  obtain ⟨hk1, hk2⟩ := virtualIP_key _ _ _ _ hv0
  have hkey : vip.Namespace = req.Namespace ∧ vip.Name = req.Name :=
    ⟨hsame.1.trans hk1, hsame.2.1.trans hk2⟩
  constructor
  · intro hnd hserved
    have hex : ∃ x, s1.virtualIP req.Namespace req.Name = some x := by
      have := hkept req.Namespace req.Name
      rw [hv0] at this
      cases hx : s1.virtualIP req.Namespace req.Name with
      | none => rw [hx] at this; simp at this
      | some x => exact ⟨x, rfl⟩
    obtain ⟨x, hx⟩ := hex
    have hm := recordError_meta vip (some e)
    have hup := virtualIP_updateVirtualIPStatus r.Client (recordError vip (some e)) x s1
      (by rw [hm.1, hm.2.1, hkey.1, hkey.2]; exact hserved)
      (by rw [hm.1, hm.2.1, hkey.1, hkey.2]; exact hx)
    rw [hm.1, hm.2.1, hkey.1, hkey.2] at hup
    refine ⟨{ x with Status := (recordError vip (some e)).Status }, ?_, rfl, rfl, ?_⟩
    · simp only [Reconcile, hfail, updateStatus_fst, hnd, IsZero, Option.isNone_none, if_true]
      exact hup.2
    · simp only [Reconcile, hfail, updateStatus, hm.2.2.1, hnd, IsZero, Option.isNone_none, if_true,
        hup.1]
  · intro hd
    have hz := isZero_false _ hd
    simp only [Reconcile, hfail, updateStatus_deleting r vip _ s1 hz]
    exact ⟨trivial, hkept, trivial⟩

theorem CreateOrUpdateIP_served (c : Client) (obj : IPObject) (v : VirtualIP) (g : String)
    (s : Store) (hserved : ∀ op, c op = none) :
    (CreateOrUpdateIP c obj (fun o => labelIP o v g) s).2 = none := by
  unfold CreateOrUpdateIP
  cases hx : s.ip obj.Name with
  | none => simp [getIP, hserved, hx, notFound, labelIP, createIP]
  | some x =>
    have hk := ip_key _ _ _ hx
    simp only [getIP, hserved, hx, labelIP, hk, ne_eq, not_true_eq_false, if_false]
    split
    · rfl
    · simp [updateIP, hserved, hk, hx]

theorem reconcileSteps_settled (r : VirtualIPReconciler) (req : Request) (s : Store)
    (vip : VirtualIP) (hstored : s.virtualIP req.Namespace req.Name = some vip)
    (hnd : vip.DeletionTimestamp = none) (hip : vip.Status.IP ≠ "")
    (hfin : ipFinalizer ∈ vip.Finalizers) (hserved : ∀ op, r.Client op = none) :
    reconcileSteps r req s =
      reconcileService r false vip
        (CreateOrUpdateIP r.Client { Name := vip.Status.IP, Labels := [], Annotations := [] }
          (fun o => labelIP o vip vip.Status.GSM) s).1 := by
  have hc : ContainsFinalizer vip ipFinalizer = true := by simp [ContainsFinalizer, hfin]
  have hok := CreateOrUpdateIP_served r.Client
    { Name := vip.Status.IP, Labels := [], Annotations := [] } vip vip.Status.GSM s hserved
  simp only [reconcileSteps, getVirtualIP, hserved, hstored, hnd, IsZero, Option.isNone_none,
    Bool.not_true, Bool.false_eq_true, if_false, reconcileAddress, hip, hc]
  revert hok
  generalize CreateOrUpdateIP r.Client { Name := vip.Status.IP, Labels := [], Annotations := [] }
    (fun o => labelIP o vip vip.Status.GSM) s = res
  obtain ⟨s1, e1⟩ := res
  intro hok
  simp only at hok
  subst hok
  rfl

theorem updateStatus_frame (r : VirtualIPReconciler) (v : VirtualIP) (e : Option Err) (s : Store) :
    sameButVirtualIPs (updateStatus r v e s).1 s := by
  rw [updateStatus_fst]
  split
  · exact updateVirtualIPStatus_frame _ _ _
  · exact ⟨rfl, rfl, rfl⟩

theorem updateStatus_served (r : VirtualIPReconciler) (v x : VirtualIP) (s : Store)
    (hserved : ∀ op, r.Client op = none) (hx : s.virtualIP v.Namespace v.Name = some x) :
    (updateStatus r v none s).2 = ({}, none) := by
  simp only [updateStatus, recordError]
  split
  · simp only [updateVirtualIPStatus, hserved, hx]
  · rfl

theorem reconcile_clone_services (r : VirtualIPReconciler) (req : Request) (s : Store)
    (vip : VirtualIP) (svc : Service) (gvk : String × String)
    (hstored : s.virtualIP req.Namespace req.Name = some vip)
    (hnd : vip.DeletionTimestamp = none) (hip : vip.Status.IP ≠ "")
    (hfin : ipFinalizer ∈ vip.Finalizers) (hname : vip.Status.Service ≠ "")
    (hclone : vip.Status.Clone = some true)
    (hsvc : s.service vip.Namespace vip.Status.Service = some svc)
    (hnoclone : s.service vip.Namespace (vip.Status.Service ++ "-keepalived-clone") = none)
    (hscheme : r.Scheme = some gvk) (hserved : ∀ op, r.Client op = none) :
    (Reconcile r req s).1.Services = s.Services ++ [boundCloneOf r gvk vip svc] ∧
      (Reconcile r req s).2 = .ret {} none := by
  obtain ⟨ns, name⟩ := req
  obtain ⟨rfl, rfl⟩ := virtualIP_key s _ _ vip hstored
  obtain ⟨hk1, hk2⟩ := service_key _ _ _ _ hsvc
  simp only at hstored
  have hframe := CreateOrUpdateIP_frame r.Client
    { Name := vip.Status.IP, Labels := [], Annotations := [] }
    (fun o => labelIP o vip vip.Status.GSM) s
  have hsteps := reconcileSteps_settled r ⟨vip.Namespace, vip.Name⟩ s vip hstored hnd hip hfin hserved
  revert hframe hsteps
  generalize (CreateOrUpdateIP r.Client { Name := vip.Status.IP, Labels := [], Annotations := [] }
    (fun o => labelIP o vip vip.Status.GSM) s).1 = s1
  intro hframe hsteps
  have hsvc1 : s1.service vip.Namespace vip.Status.Service = some svc := by
    simpa only [Store.service, hframe.2.2] using hsvc
  have hno1 : s1.service vip.Namespace (vip.Status.Service ++ "-keepalived-clone") = none := by
    simpa only [Store.service, hframe.2.2] using hnoclone
  have hstored1 : s1.virtualIP vip.Namespace vip.Name = some vip := by
    simpa only [Store.virtualIP, hframe.1] using hstored
  have hcu : CreateOrUpdateService r.Client (cloneOf gvk vip svc)
      (fun x => patchService r x vip.Status.IP vip.Status.KeepalivedGroup false) s1 =
      ({ s1 with Services := s1.Services ++ [boundCloneOf r gvk vip svc] }, none) := by
    have hkey := patchService_key r (cloneOf gvk vip svc) vip.Status.IP vip.Status.KeepalivedGroup false
    have hcn : (cloneOf gvk vip svc).Namespace = vip.Namespace ∧
        (cloneOf gvk vip svc).Name = vip.Status.Service ++ "-keepalived-clone" := by
      simp only [cloneOf, hk1, hk2, and_self]
    rw [CreateOrUpdateService_absent r.Client (cloneOf gvk vip svc)
      (fun x => patchService r x vip.Status.IP vip.Status.KeepalivedGroup false) s1 (hserved _)
      (by rw [hcn.1, hcn.2]; exact hno1) hkey]
    simp only [createService, hserved, hkey.1, hkey.2, hcn.1, hcn.2, hno1, boundCloneOf]
  have hst : reconcileSteps r ⟨vip.Namespace, vip.Name⟩ s =
      if ContainsFinalizer vip serviceFinalizer = true then
        ({ s1 with Services := s1.Services ++ [boundCloneOf r gvk vip svc] },
          .updateStatus { vip with Status := { vip.Status with
            Message := "successfully allocated an IP address", State := State.Valid } } none)
      else
        ((updateVirtualIP r.Client (AddFinalizer vip serviceFinalizer)
          { s1 with Services := s1.Services ++ [boundCloneOf r gvk vip svc] }).1, .result none) := by
    rw [hsteps]
    simp only [reconcileService, hname, if_false, getService, Kube.getService, hserved, hsvc1,
      hclone, if_true, cloneService_ok r vip svc gvk hk1 hscheme, Bool.false_and, Bool.not_false,
      hcu, Bool.false_or, Bool.false_eq_true]
    by_cases hcf : ContainsFinalizer vip serviceFinalizer = true
    · simp only [hcf, Bool.not_true, Bool.false_eq_true, if_false, if_true]
    · simp only [Bool.not_eq_true] at hcf
      simp only [hcf, Bool.not_false, if_true, Bool.false_eq_true, if_false]
      have hak := sameObject_addFinalizer vip serviceFinalizer
      have hok := updateVirtualIP_served r.Client (AddFinalizer vip serviceFinalizer) vip
        { s1 with Services := s1.Services ++ [boundCloneOf r gvk vip svc] } (hserved _)
        (by rw [hak.1, hak.2.1]; exact hstored1)
      revert hok
      generalize updateVirtualIP r.Client (AddFinalizer vip serviceFinalizer)
        { s1 with Services := s1.Services ++ [boundCloneOf r gvk vip svc] } = res
      obtain ⟨s2, e2⟩ := res
      intro hok
      simp only at hok
      subst hok
      rfl
  have hsv : s1.Services ++ [boundCloneOf r gvk vip svc] =
      s.Services ++ [boundCloneOf r gvk vip svc] := by rw [hframe.2.2]
  unfold Reconcile
  rw [hst]
  by_cases hcf : ContainsFinalizer vip serviceFinalizer = true
  · rw [if_pos hcf]
    simp only
    refine ⟨(updateStatus_frame r _ none _).2.2.trans hsv, ?_⟩
    have := updateStatus_served r { vip with Status := { vip.Status with
            Message := "successfully allocated an IP address", State := State.Valid } } vip
        { s1 with Services := s1.Services ++ [boundCloneOf r gvk vip svc] } hserved hstored1
    rw [this]
  · rw [if_neg hcf]
    simp only
    exact ⟨(updateVirtualIP_frame r.Client _ _).2.2.trans hsv, trivial⟩

theorem mapGet_mapSet_self (m : StringMap) (k v : String) : mapGet (mapSet m k v) k = some v := by
  induction m with
  | nil => simp [mapSet, mapGet]
  | cons p ps ih =>
    obtain ⟨k1, v1⟩ := p
    by_cases h : k1 = k
    · simp [mapSet, mapGet, h]
    · simp [mapSet, mapGet, h, ih]

theorem service_append_absent (s : Store) (ns name : String) (svc : Service)
    (h : s.service ns name = none) (hk : svc.Namespace = ns ∧ svc.Name = name) :
    Store.service { s with Services := s.Services ++ [svc] } ns name = some svc := by
  simp only [Store.service] at h ⊢
  rw [List.find?_append, h]
  simp [hk]

theorem service_append_present (s : Store) (ns name : String) (svc x : Service)
    (h : s.service ns name = some x) :
    Store.service { s with Services := s.Services ++ [svc] } ns name = some x := by
  simp only [Store.service] at h ⊢
  rw [List.find?_append, h]
  rfl

/-- C9 (clone mode leaves the original untouched): for a stored, non-deleting
VirtualIP with an address recorded, the address finalizer, `Status.Service`
naming an existing service of its namespace, the committed clone flag set and
no clone stored yet, when the store serves every request and the scheme
registers the VirtualIP kind, `Reconcile` succeeds and appends exactly one
service: named `<svc>-keepalived-clone`, with the VirtualIP as its only owner
reference, `[Status.IP]` as its external addresses and the keepalived group
annotation `<keepalivedGroupNamespace>/<Status.KeepalivedGroup>`; the stored
service `svc` is what it was. -/
theorem reconcile_clone_leaves_original (r : VirtualIPReconciler) (req : Request) (s : Store)
    (vip : VirtualIP) (svc : Service) (gvk : String × String)
    (hstored : s.virtualIP req.Namespace req.Name = some vip)
    (hnd : vip.DeletionTimestamp = none) (hip : vip.Status.IP ≠ "")
    (hfin : ipFinalizer ∈ vip.Finalizers) (hname : vip.Status.Service ≠ "")
    (hclone : vip.Status.Clone = some true)
    (hsvc : s.service vip.Namespace vip.Status.Service = some svc)
    (hnoclone : s.service vip.Namespace (vip.Status.Service ++ "-keepalived-clone") = none)
    (hscheme : r.Scheme = some gvk) (hserved : ∀ op, r.Client op = none) :
    (Reconcile r req s).2 = .ret {} none ∧
    ∃ clone : Service,
      (Reconcile r req s).1.Services = s.Services ++ [clone] ∧
      (Reconcile r req s).1.service vip.Namespace (vip.Status.Service ++ "-keepalived-clone") =
        some clone ∧
      clone.Name = svc.Name ++ "-keepalived-clone" ∧
      clone.OwnerReferences = [⟨gvk.1, gvk.2, vip.Name, vip.UID⟩] ∧
      clone.Spec.ExternalIPs = [vip.Status.IP] ∧
      mapGet clone.Annotations keepalivedGroupAnnotation =
        some (keepalivedGroupNamespace r ++ "/" ++ vip.Status.KeepalivedGroup) ∧
      (Reconcile r req s).1.service vip.Namespace vip.Status.Service = some svc := by
  obtain ⟨h1, h2⟩ := reconcile_clone_services r req s vip svc gvk hstored hnd hip hfin hname
    hclone hsvc hnoclone hscheme hserved
  obtain ⟨hk1, hk2⟩ := service_key _ _ _ _ hsvc
  have hl : ∀ ns name, (Reconcile r req s).1.service ns name =
      Store.service { s with Services := s.Services ++ [boundCloneOf r gvk vip svc] } ns name := by
    intro ns name
    simp only [Store.service, h1]
  refine ⟨h2, boundCloneOf r gvk vip svc, h1, ?_, ?_, ?_, ?_, ?_, ?_⟩
  · rw [hl]
    exact service_append_absent s _ _ _ hnoclone
      (by simp only [boundCloneOf, patchService, cloneOf, Bool.not_false, if_true, hk1, hk2, and_self])
  · simp only [boundCloneOf, patchService, cloneOf, Bool.not_false, if_true]
  · simp only [boundCloneOf, patchService, cloneOf, Bool.not_false, if_true]
  · simp only [boundCloneOf, patchService, cloneOf, Bool.not_false, if_true]
  · simp only [boundCloneOf, patchService, cloneOf, Bool.not_false, if_true, mapGet_mapSet_self]
  · rw [hl]
    exact service_append_present s _ _ _ svc hsvc

theorem map_self_of_unique (l : List VirtualIP) (vip v : VirtualIP)
    (huniq : ∀ x ∈ l, x.Namespace = vip.Namespace ∧ x.Name = vip.Name → x = vip)
    (hv : v.Namespace = vip.Namespace ∧ v.Name = vip.Name) (hs : v.Status = vip.Status) :
    l.map (fun y => if y.Namespace = v.Namespace ∧ y.Name = v.Name then
      { y with Status := v.Status } else y) = l := by
  rw [hv.1, hv.2, hs]
  conv_rhs => rw [← List.map_id l]
  apply List.map_congr_left
  intro y hy
  by_cases hk : y.Namespace = vip.Namespace ∧ y.Name = vip.Name
  · rw [if_pos hk, huniq y hy hk]
    rfl
  · rw [if_neg hk]
    rfl

theorem CreateOrUpdateIP_labelled (c : Client) (vip : VirtualIP) (rec : IPObject) (s : Store)
    (hserved : ∀ op, c op = none) (hrec : s.ip vip.Status.IP = some rec)
    (hlab : labelIP rec vip vip.Status.GSM = rec) :
    CreateOrUpdateIP c { Name := vip.Status.IP, Labels := [], Annotations := [] }
      (fun o => labelIP o vip vip.Status.GSM) s = (s, none) := by
  have hk := ip_key _ _ _ hrec
  simp only [CreateOrUpdateIP, getIP, hserved, hrec, hlab, hk, ne_eq, not_true_eq_false,
    if_false, if_true]

theorem valid_status_eq (vip : VirtualIP) (c : Option Bool) (hclone : vip.Status.Clone = c)
    (hstate : vip.Status.State = State.Valid)
    (hmsg : vip.Status.Message = "successfully allocated an IP address") :
    ({ Namespace := vip.Namespace, Name := vip.Name, UID := vip.UID,
       DeletionTimestamp := vip.DeletionTimestamp, Finalizers := vip.Finalizers,
       Spec := vip.Spec,
       Status := { IP := vip.Status.IP, GSM := vip.Status.GSM,
                   KeepalivedGroup := vip.Status.KeepalivedGroup,
                   Service := vip.Status.Service, Clone := c, State := State.Valid,
                   Message := "successfully allocated an IP address" } } : VirtualIP) = vip := by
  obtain ⟨a, b, c1, d, e, f, st⟩ := vip
  obtain ⟨g, h, i, j, k, l, m⟩ := st
  simp only at hstate hmsg hclone
  subst hstate hmsg hclone
  rfl

/-- C8 (steady-state idempotence): for a stored, non-deleting VirtualIP with
an address recorded, both finalizers, state `Valid` with its message, a
recorded and existing target service, an IP record that already carries the
labels and a bound service (the target, or its clone when the clone flag is
set) that already carries the patch, in a store with one object per key that
serves every request, `Reconcile` returns without error and leaves the whole
store as it was; hence a second invocation equals the first. -/
theorem reconcile_steady_state (r : VirtualIPReconciler) (req : Request) (s : Store)
    (vip : VirtualIP) (rec : IPObject) (svc bound : Service) (clone : Bool)
    (hstored : s.virtualIP req.Namespace req.Name = some vip)
    (huniq : ∀ x ∈ s.VirtualIPs, x.Namespace = vip.Namespace ∧ x.Name = vip.Name → x = vip)
    (hnd : vip.DeletionTimestamp = none) (hip : vip.Status.IP ≠ "")
    (hfin : ipFinalizer ∈ vip.Finalizers) (hsfin : serviceFinalizer ∈ vip.Finalizers)
    (hname : vip.Status.Service ≠ "") (hclone : vip.Status.Clone = some clone)
    (hstate : vip.Status.State = State.Valid)
    (hmsg : vip.Status.Message = "successfully allocated an IP address")
    (hrec : s.ip vip.Status.IP = some rec) (hlab : labelIP rec vip vip.Status.GSM = rec)
    (hsvc : s.service vip.Namespace vip.Status.Service = some svc)
    (hbound : s.service vip.Namespace
      (if clone = true then vip.Status.Service ++ "-keepalived-clone" else vip.Status.Service) =
        some bound)
    (hpatched : patchService r bound vip.Status.IP vip.Status.KeepalivedGroup false = bound)
    (hscheme : clone = true → r.Scheme ≠ none) (hserved : ∀ op, r.Client op = none) :
    Reconcile r req s = (s, .ret {} none) ∧
      Reconcile r req (Reconcile r req s).1 = Reconcile r req s := by
  have hmain : Reconcile r req s = (s, .ret {} none) := by
    obtain ⟨hk1, hk2⟩ := service_key _ _ _ _ hsvc
    obtain ⟨hb1, hb2⟩ := service_key _ _ _ _ hbound
    obtain ⟨hv1, hv2⟩ := virtualIP_key _ _ _ _ hstored
    have hcf : ContainsFinalizer vip serviceFinalizer = true := by simp [ContainsFinalizer, hsfin]
    have hsteps := reconcileSteps_settled r req s vip hstored hnd hip hfin hserved
    rw [CreateOrUpdateIP_labelled r.Client vip rec s hserved hrec hlab] at hsteps
    have hexit : reconcileService r false vip s = (s, .updateStatus vip none) := by
      cases clone with
      | false =>
        simp only [Bool.false_eq_true, if_false] at hbound
        rw [hsvc] at hbound
        cases hbound
        have hcu := CreateOrUpdateService_existing r.Client svc svc
          (fun x => patchService r x vip.Status.IP vip.Status.KeepalivedGroup false) s
          (hserved _) (by rw [hk1, hk2]; exact hsvc) (patchService_key _ _ _ _ _)
        simp only [hpatched, if_true] at hcu
        simp only [reconcileService, hname, if_false, getService, Kube.getService, hserved, hsvc,
          hclone, Bool.false_eq_true, Bool.and_false, Bool.not_false, if_true, hcu, hcf,
          Bool.not_true, Bool.or_self, valid_status_eq vip _ hclone hstate hmsg]
      | true =>
        simp only [if_true] at hbound
        cases hs : r.Scheme with
        | none => exact absurd hs (hscheme rfl)
        | some gvk =>
          have hcn : (cloneOf gvk vip svc).Namespace = vip.Namespace ∧
              (cloneOf gvk vip svc).Name = vip.Status.Service ++ "-keepalived-clone" := by
            simp only [cloneOf, hk1, hk2, and_self]
          have hcu := CreateOrUpdateService_existing r.Client (cloneOf gvk vip svc) bound
            (fun x => patchService r x vip.Status.IP vip.Status.KeepalivedGroup false) s
            (hserved _) (by rw [hcn.1, hcn.2]; exact hbound) (patchService_key _ _ _ _ _)
          simp only [hpatched, if_true] at hcu
          simp only [reconcileService, hname, if_false, getService, Kube.getService, hserved,
            hsvc, hclone, if_true, cloneService_ok r vip svc gvk hk1 hs, Bool.false_and,
            Bool.not_false, hcu, hcf, Bool.not_true, Bool.or_self, Bool.false_eq_true,
            valid_status_eq vip _ hclone hstate hmsg]
    unfold Reconcile
    rw [hsteps, hexit]
    have hup := (virtualIP_updateVirtualIPStatus r.Client vip vip s (hserved _)
      (by rw [hv1, hv2]; exact hstored)).1
    rw [map_self_of_unique s.VirtualIPs vip vip huniq ⟨rfl, rfl⟩ rfl] at hup
    simp only [updateStatus, recordError, hnd, IsZero, Option.isNone_none, if_true, hup]
  exact ⟨hmain, by rw [hmain]; exact hmain⟩

/-- C10 (unbind before release): for a stored deleting VirtualIP without the
address finalizer, with the service finalizer, the clone flag false and
`Status.Service` naming an existing service: whenever the stored object has
lost the service finalizer after an invocation, the stored service is the
unbound one: no external address, no keepalived group annotation, every other
annotation as before; and if the store rejects the update of the service
while the service still carries the binding, the service finalizer is still
on the stored object afterwards. -/
theorem reconcile_unbinds_before_release (r : VirtualIPReconciler) (req : Request) (s : Store)
    (vip : VirtualIP) (svc : Service)
    (hstored : s.virtualIP req.Namespace req.Name = some vip)
    (hdel : vip.DeletionTimestamp ≠ none) (hnoip : ipFinalizer ∉ vip.Finalizers)
    (hfin : serviceFinalizer ∈ vip.Finalizers)
    (hname : vip.Status.Service ≠ "") (hclone : vip.Status.Clone = some false)
    (hsvc : s.service vip.Namespace vip.Status.Service = some svc) :
    (∀ vip1, (Reconcile r req s).1.virtualIP req.Namespace req.Name = some vip1 →
      serviceFinalizer ∉ vip1.Finalizers →
      ∃ svc1, (Reconcile r req s).1.service vip.Namespace vip.Status.Service = some svc1 ∧
        svc1 = patchService r svc vip.Status.IP vip.Status.KeepalivedGroup true ∧
        svc1.Spec.ExternalIPs = [] ∧
        mapGet svc1.Annotations keepalivedGroupAnnotation = none ∧
        ∀ k, k ≠ keepalivedGroupAnnotation →
          mapGet svc1.Annotations k = mapGet svc.Annotations k) ∧
    (r.Client (.updateService vip.Namespace vip.Status.Service) ≠ none →
      patchService r svc vip.Status.IP vip.Status.KeepalivedGroup true ≠ svc →
      ∃ vip1, (Reconcile r req s).1.virtualIP req.Namespace req.Name = some vip1 ∧
        serviceFinalizer ∈ vip1.Finalizers) := by
  obtain ⟨h1, h2, _⟩ := reconcile_teardown r req s vip svc hstored hdel hnoip hname hclone hsvc
  constructor
  · intro vip1 hafter hgone
    rcases h1 with h | ⟨_, h5, _⟩
    · rw [h] at hafter
      rw [← Option.some.inj hafter] at hgone
      exact absurd hfin hgone
    · refine ⟨_, h5, rfl, ?_, ?_, ?_⟩
      · simp only [patchService, Bool.not_true, Bool.false_eq_true, if_false]
      · simp only [patchService, Bool.not_true, Bool.false_eq_true, if_false,
          mapGet_mapDelete_self]
      · intro k hk
        simp only [patchService, Bool.not_true, Bool.false_eq_true, if_false]
        exact mapGet_mapDelete_other _ _ _ hk
  · intro hfault hdue
    exact ⟨vip, h2 hfault hdue, hfin⟩

/-- Witness of C10: the teardown of `ns/v` unbinds `ns/svc`; with a store that
rejects the update of the service the finalizer stays. -/
theorem reconcile_unbinds_before_release_witness :
    (∃ svc1, (Reconcile exampleReconciler ⟨"ns", "v"⟩ unbindStore).1.service "ns" "svc" =
        some svc1 ∧ svc1.Spec.ExternalIPs = [] ∧
        mapGet svc1.Annotations keepalivedGroupAnnotation = none) ∧
    (∃ vip1, (Reconcile serviceUpdateFails ⟨"ns", "v"⟩ unbindStore).1.virtualIP "ns" "v" =
        some vip1 ∧ serviceFinalizer ∈ vip1.Finalizers) := by
  constructor
  · obtain ⟨svc1, h1, _, h3, h4, _⟩ :=
      (reconcile_unbinds_before_release exampleReconciler ⟨"ns", "v"⟩ unbindStore
        unbindingVirtualIP boundService (by decide) (by decide) (by decide) (by decide)
        (by decide) (by decide) (by decide)).1
        { unbindingVirtualIP with Finalizers := [] } (by decide) (by decide)
    exact ⟨svc1, h1, h3, h4⟩
  · exact (reconcile_unbinds_before_release serviceUpdateFails ⟨"ns", "v"⟩ unbindStore
      unbindingVirtualIP boundService (by decide) (by decide) (by decide) (by decide)
      (by decide) (by decide) (by decide)).2 (by decide) (by decide)

/-- Witness of C5: the first invocation on a deleting VirtualIP with both
finalizers releases the IP record and keeps the service finalizer. -/
theorem reconcile_deletion_unwind_order_witness :
    (Reconcile exampleReconciler ⟨"ns", "v"⟩ teardownStore).1.Services = teardownStore.Services ∧
    (∃ vip1, (Reconcile exampleReconciler ⟨"ns", "v"⟩ teardownStore).1.virtualIP "ns" "v" =
      some vip1 ∧ serviceFinalizer ∈ vip1.Finalizers) ∧
    (Reconcile exampleReconciler ⟨"ns", "v"⟩ teardownStore).1.IPs = [] := by
  have h := (reconcile_deletion_unwind_order exampleReconciler ⟨"ns", "v"⟩ teardownStore
    releasingVirtualIP (by decide)).1 ⟨by decide, by decide, by decide⟩
  refine ⟨h.1, h.2.1, ?_⟩
  rw [h.2.2 (fun _ => rfl) (by decide)]
  decide

/-- Witness of C7: without any segment-mapping the allocation fails and the
failure is written on the status; for a deleting object whose IP record is
gone the failed deletion is not written anywhere. -/
theorem reconcile_failure_reporting_witness :
    (∃ v1, (Reconcile exampleReconciler ⟨"ns", "v"⟩ noPoolStore).1.virtualIP "ns" "v" = some v1 ∧
      v1.Status.State = State.Error ∧
      v1.Status.Message = "could not allocate an IP: no IP could be allocated" ∧
      (Reconcile exampleReconciler ⟨"ns", "v"⟩ noPoolStore).2 = .ret {} none) ∧
    ((Reconcile exampleReconciler ⟨"ns", "v"⟩ redeliveryStore).1 = redeliveryStore ∧
      (Reconcile exampleReconciler ⟨"ns", "v"⟩ redeliveryStore).2 = .ret {} none) :=
  ⟨(reconcile_failure_reporting exampleReconciler ⟨"ns", "v"⟩ noPoolStore noPoolStore
      exampleVirtualIP (errorsNew "could not allocate an IP: no IP could be allocated")
      (by decide)).1 (by decide) rfl,
    ((reconcile_failure_reporting exampleReconciler ⟨"ns", "v"⟩ redeliveryStore redeliveryStore
      releasingVirtualIP (notFound "ips.paas.org" "10.0.0.2") (by decide)).2 (by decide)).1,
    ((reconcile_failure_reporting exampleReconciler ⟨"ns", "v"⟩ redeliveryStore redeliveryStore
      releasingVirtualIP (notFound "ips.paas.org" "10.0.0.2") (by decide)).2 (by decide)).2.2⟩

/-- Witness of C8: the steady state of `ns/v` bound to `ns/svc`. -/
theorem reconcile_steady_state_witness :
    Reconcile exampleReconciler ⟨"ns", "v"⟩ steadyStore = (steadyStore, .ret {} none) :=
  (reconcile_steady_state exampleReconciler ⟨"ns", "v"⟩ steadyStore validVirtualIP exampleClaim
    boundService boundService false (by decide) (by decide) (by decide) (by decide) (by decide)
    (by decide) (by decide) (by decide) (by decide) (by decide) (by decide) (by decide)
    (by decide) (by decide) (by decide) (by decide) (fun _ => rfl)).1

/-- Witness of C9: the clone `svc-keepalived-clone` is created next to the
untouched `svc`. -/
theorem reconcile_clone_leaves_original_witness :
    (Reconcile exampleReconciler ⟨"ns", "v"⟩ cloneStore).1.service "ns" "svc" =
      some plainService ∧
    ∃ clone, (Reconcile exampleReconciler ⟨"ns", "v"⟩ cloneStore).1.service "ns"
        "svc-keepalived-clone" = some clone ∧
      clone.OwnerReferences = [⟨"paas.org/v1", "VirtualIP", "v", "u"⟩] ∧
      clone.Spec.ExternalIPs = ["10.0.0.2"] ∧
      mapGet clone.Annotations keepalivedGroupAnnotation = some "keepalived-operator/g1" := by
  obtain ⟨_, clone, _, h2, _, h4, h5, h6, h7⟩ :=
    reconcile_clone_leaves_original exampleReconciler ⟨"ns", "v"⟩ cloneStore cloningVirtualIP
      plainService ("paas.org/v1", "VirtualIP") (by decide) (by decide) (by decide) (by decide)
      (by decide) (by decide) (by decide) (by decide) rfl (fun _ => rfl)
  exact ⟨h7, clone, h2, h4, h5, h6⟩

/-! ### Patching, cloning, allocation by segment, and the way to `Valid` -/

theorem mapGet_mapSet_other (m : StringMap) (k k2 v : String) (hk : k2 ≠ k) :
    mapGet (mapSet m k v) k2 = mapGet m k2 := by
  induction m with
  | nil => simp [mapSet, mapGet, Ne.symm hk]
  | cons p ps ih =>
    obtain ⟨k1, v1⟩ := p
    by_cases h : k1 = k
    · have h2 : ¬ k = k2 := fun e => hk e.symm
      have h3 : ¬ k1 = k2 := by rw [h]; exact h2
      simp [mapSet, mapGet, h, h2]
    · by_cases h3 : k1 = k2
      · subst h3
        simp [mapSet, mapGet, hk]
      · simp [mapSet, mapGet, h, h3, ih]

theorem mapSet_mapSet (m : StringMap) (k v : String) :
    mapSet (mapSet m k v) k v = mapSet m k v := by
  induction m with
  | nil => simp [mapSet]
  | cons p ps ih =>
    obtain ⟨k1, v1⟩ := p
    by_cases h : k1 = k
    · simp [mapSet, h]
    · simp [mapSet, h, ih]

theorem mapDelete_mapDelete (m : StringMap) (k : String) :
    mapDelete (mapDelete m k) k = mapDelete m k := by
  unfold mapDelete
  rw [List.filter_filter]
  simp

/-- C14 (`patchService` postconditions): with `remove = false` the external
IPs are exactly `[ip]` and the keepalived group annotation is
`<group namespace>/<g>`, the group namespace being the environment variable
`KEEPALIVED_GROUP_NAMESPACE`, or `keepalived-operator` when that is empty or
unset; with `remove = true` the external IPs are empty and the annotation is
absent; in both modes every other annotation and every other field of the
service is as in the input. -/
theorem patchService_postconditions (r : VirtualIPReconciler) (service : Service)
    (ip g : String) :
    ((patchService r service ip g false).Spec.ExternalIPs = [ip] ∧
      mapGet (patchService r service ip g false).Annotations keepalivedGroupAnnotation =
        some (keepalivedGroupNamespace r ++ "/" ++ g) ∧
      keepalivedGroupNamespace r =
        (if (r.Getenv "KEEPALIVED_GROUP_NAMESPACE").length = 0 then "keepalived-operator"
         else r.Getenv "KEEPALIVED_GROUP_NAMESPACE")) ∧
    ((patchService r service ip g true).Spec.ExternalIPs = [] ∧
      mapGet (patchService r service ip g true).Annotations keepalivedGroupAnnotation = none) ∧
    (∀ remove : Bool,
      (∀ k, k ≠ keepalivedGroupAnnotation →
        mapGet (patchService r service ip g remove).Annotations k =
          mapGet service.Annotations k) ∧
      (patchService r service ip g remove).Namespace = service.Namespace ∧
      (patchService r service ip g remove).Name = service.Name ∧
      (patchService r service ip g remove).ResourceVersion = service.ResourceVersion ∧
      (patchService r service ip g remove).OwnerReferences = service.OwnerReferences ∧
      (patchService r service ip g remove).Rest = service.Rest ∧
      (patchService r service ip g remove).Spec.ClusterIP = service.Spec.ClusterIP ∧
      (patchService r service ip g remove).Spec.Rest = service.Spec.Rest) := by
  refine ⟨⟨rfl, ?_, rfl⟩, ⟨rfl, ?_⟩, ?_⟩
  · simp only [patchService, Bool.not_false, if_true, mapGet_mapSet_self]
  · simp only [patchService, Bool.not_true, Bool.false_eq_true, if_false, mapGet_mapDelete_self]
  · intro remove
    cases remove with
    | false =>
      refine ⟨fun k hk => ?_, rfl, rfl, rfl, rfl, rfl, rfl, rfl⟩
      simp only [patchService, Bool.not_false, if_true]
      exact mapGet_mapSet_other _ _ _ _ hk
    | true =>
      refine ⟨fun k hk => ?_, rfl, rfl, rfl, rfl, rfl, rfl, rfl⟩
      simp only [patchService, Bool.not_true, Bool.false_eq_true, if_false]
      exact mapGet_mapDelete_other _ _ _ hk

theorem patchService_twice (r : VirtualIPReconciler) (service : Service)
    (ip g : String) (remove : Bool) :
    patchService r (patchService r service ip g remove) ip g remove =
      patchService r service ip g remove := by
  cases remove with
  | false => simp only [patchService, Bool.not_false, if_true, mapSet_mapSet]
  | true =>
    simp only [patchService, Bool.not_true, Bool.false_eq_true, if_false, mapDelete_mapDelete]

/-- C15 (`patchService` is idempotent): patching a patched service again with
the same address, group and flag gives the patched service. -/
theorem patchService_idempotent (r : VirtualIPReconciler) (service : Service)
    (ip g : String) (remove : Bool) :
    patchService r (patchService r service ip g remove) ip g remove =
      patchService r service ip g remove :=
  patchService_twice r service ip g remove

theorem cloneService_eq (r : VirtualIPReconciler) (virtualIP : VirtualIP) (service : Service) :
    cloneService r virtualIP service =
      match SetOwnerReference virtualIP (detachedCopy service) r.Scheme with
      | .error err =>
          .error (errorsNew ("received error while setting service\x27s owner: " ++ err.msg))
      | .hang => .hang
      | .ok clone => .ok clone := rfl

theorem SetOwnerReference_ok (owner : VirtualIP) (object clone : Service) (scheme : Scheme)
    (h : SetOwnerReference owner object scheme = .ok clone) :
    ∃ apiVersion kind, scheme = some (apiVersion, kind) ∧
      clone = { object with OwnerReferences :=
        (upsertOwnerRef (OwnerReference.mk apiVersion kind owner.Name owner.UID)
          object.OwnerReferences) } := by
  unfold SetOwnerReference at h
  split_ifs at h
  cases scheme with
  | none => simp at h
  | some gvk =>
    obtain ⟨a, k⟩ := gvk
    simp only [Res.ok.injEq] at h
    exact ⟨a, k, rfl, h.symm⟩

theorem SetOwnerReference_returns (owner : VirtualIP) (object : Service) (scheme : Scheme) :
    SetOwnerReference owner object scheme ≠ .hang := by
  unfold SetOwnerReference
  split_ifs
  · simp
  · simp
  · cases scheme with
    | none => simp
    | some gvk => simp

/-- C16 (`cloneService` postconditions): when `SetOwnerReference` succeeds on
the detached copy, `cloneService` returns its result, which is named
`<original name>-keepalived-clone`, has an empty resource version and an
empty `ClusterIP`, and whose owner references are exactly one reference, to
the VirtualIP (its name and UID, under the registered version and kind),
whatever references the input carried; when `SetOwnerReference` fails with
`err`, `cloneService` fails with the text
`received error while setting service's owner: ` followed by the text of
`err`; there is no third outcome. -/
theorem cloneService_postconditions (r : VirtualIPReconciler) (virtualIP : VirtualIP)
    (service : Service) :
    (∀ clone, SetOwnerReference virtualIP (detachedCopy service) r.Scheme = .ok clone →
      cloneService r virtualIP service = .ok clone ∧
      clone.Name = service.Name ++ "-keepalived-clone" ∧
      clone.ResourceVersion = "" ∧ clone.Spec.ClusterIP = "" ∧
      ∃ ref : OwnerReference, clone.OwnerReferences = [ref] ∧
        ref.Name = virtualIP.Name ∧ ref.UID = virtualIP.UID ∧
        r.Scheme = some (ref.APIVersion, ref.Kind)) ∧
    (∀ err, SetOwnerReference virtualIP (detachedCopy service) r.Scheme = .error err →
      cloneService r virtualIP service =
        .error (errorsNew ("received error while setting service\x27s owner: " ++ err.msg))) ∧
    SetOwnerReference virtualIP (detachedCopy service) r.Scheme ≠ .hang := by
  refine ⟨?_, ?_, SetOwnerReference_returns _ _ _⟩
  · intro clone h
    obtain ⟨a, k, hs, hc⟩ := SetOwnerReference_ok _ _ _ _ h
    refine ⟨by rw [cloneService_eq, h], ?_⟩
    subst hc
    exact ⟨rfl, rfl, rfl, ⟨a, k, virtualIP.Name, virtualIP.UID⟩, rfl, rfl, rfl, hs⟩
  · intro err h
    rw [cloneService_eq, h]

/-- C17 (pinned segment without a match): for a VirtualIP whose
`spec.segment` is not empty and a store none of whose segment-mappings
(possibly none at all) has that segment, `allocateIP`, its listing served,
fails with `GroupSegmentMapping not found for the requested segment` and
leaves the store as it is: no IP record is created and no other
segment-mapping is drawn from. -/
theorem allocateIP_pinned_without_match (r : VirtualIPReconciler) (virtualIP : VirtualIP)
    (s : Store) (hpinned : virtualIP.Spec.Segment ≠ "")
    (hlist : r.Client .listGroupSegmentMapping = none)
    (hnone : ∀ gsm ∈ s.GroupSegmentMappings, gsm.Spec.Segment ≠ virtualIP.Spec.Segment) :
    allocateIP r virtualIP s =
      (s, .error (errorsNew "GroupSegmentMapping not found for the requested segment")) := by
  have hfind : s.GroupSegmentMappings.find?
      (fun gsm => decide (gsm.Spec.Segment = virtualIP.Spec.Segment)) = none := by
    rw [List.find?_eq_none]
    intro g hg
    simpa using hnone g hg
  simp only [allocateIP, hpinned, ne_eq, not_false_eq_true, if_true, getGSMBySegment, getGSMs,
    listGroupSegmentMapping, hlist, hfind]

theorem incrementBytes_length : ∀ bs : List Nat, (incrementBytes bs).length = bs.length := by
  intro bs
  induction bs with
  | nil => rfl
  | cons b bs ih =>
    unfold incrementBytes
    split
    · simp [ih]
    · simp

theorem incrementIP_length (ip : IP) : (incrementIP ip).length = ip.length := by
  simp [incrementIP, incrementBytes_length]

theorem contains_prefix_zero (ip a : IP) (hip : ip.length = 4) (ha : a.length = 4) :
    Contains (network ip 0) a = true := by
  match ip, hip, a, ha with
  | [x, y, z, w], _, [a1, a2, a3, a4], _ =>
    simp [Contains, network, CIDRMask, CIDRMaskBytes, Mask, sameNetwork]

theorem enumerateIPs_prefix_zero (ip : IP) (excl : List String) (hip : ip.length = 4) :
    ∀ (fuel : Nat) (a : IP) (acc : List String), a.length = 4 →
      enumerateIPs (network ip 0) excl fuel a acc = .hang := by
  intro fuel
  induction fuel with
  | zero => intro a acc _; rfl
  | succ n ih =>
    intro a acc ha
    simp only [enumerateIPs, contains_prefix_zero ip a hip ha, if_true]
    exact ih _ _ (by rw [incrementIP_length]; exact ha)

theorem getAvailableIPs_prefix_zero (r : VirtualIPReconciler) (gsm : GroupSegmentMapping)
    (s : Store) (ip : IP) (hlist : r.Client .listIP = none)
    (hparse : ParseCIDR gsm.Spec.Segment = some (ip, 0)) :
    getAvailableIPs r gsm s = .hang := by
  have hip := (ParseCIDR_wf _ _ _ hparse).1.1
  have hm : (To4 (Mask ip (network ip 0).Mask)).length = 4 := by
    match ip, hip with
    | [x, y, z, w], _ => simp [To4, Mask, network, CIDRMask, CIDRMaskBytes]
  simp only [getAvailableIPs, listIP, hlist, hparse]
  exact enumerateIPs_prefix_zero ip _ hip _ _ _ hm

theorem reserveIP_hang (r : VirtualIPReconciler) (gsm : GroupSegmentMapping) (v : VirtualIP)
    (s : Store) (h : getAvailableIPs r gsm s = .hang) : reserveIP r gsm v s = (s, .hang) := by
  unfold reserveIP
  rw [h]

theorem parse_whole_space : ParseCIDR wholeSpaceGSM.Spec.Segment = some ([0, 0, 0, 0], 0) := by
  decide

/-- C13 (the candidate enumeration does not end for prefix length 0): the
well-formed CIDR string `0.0.0.0/0` parses to the network `0.0.0.0` with
prefix length 0, whose mask matches every address, and `incrementIP` wraps
`255.255.255.255` around to `0.0.0.0`. The loop condition of
`getAvailableIPs` therefore holds at every test: the loop outlasts every
number of tests, and `getAvailableIPs` and `reserveIP` never return for such
a segment-mapping, on any store. -/
theorem getAvailableIPs_whole_space_never_ends :
    ParseCIDR "0.0.0.0/0" = some ([0, 0, 0, 0], 0) ∧
    (∀ fuel : Nat, enumerateIPs (network [0, 0, 0, 0] 0) [] fuel [0, 0, 0, 0] [] = .hang) ∧
    (∀ s : Store, getAvailableIPs exampleReconciler wholeSpaceGSM s = .hang) ∧
    (∀ s : Store, reserveIP exampleReconciler wholeSpaceGSM exampleVirtualIP s = (s, .hang)) :=
  ⟨parse_whole_space,
    fun fuel => enumerateIPs_prefix_zero [0, 0, 0, 0] [] rfl fuel [0, 0, 0, 0] [] rfl,
    fun s => getAvailableIPs_prefix_zero exampleReconciler wholeSpaceGSM s [0, 0, 0, 0] rfl
      parse_whole_space,
    fun s => reserveIP_hang exampleReconciler wholeSpaceGSM exampleVirtualIP s
      (getAvailableIPs_prefix_zero exampleReconciler wholeSpaceGSM s [0, 0, 0, 0] rfl
        parse_whole_space)⟩

/-- C18, counterexample: the VirtualIP `ns/v` is not being deleted, has an
address and the address finalizer, and names no service in its spec or
status. After a served invocation of `Reconcile` the stored state is
`Exposing`, not `Error`, the recorded service is the empty name, and no error
is returned. -/
theorem reconcile_missing_service_not_reported :
    ¬ (∃ v1, (Reconcile exampleReconciler ⟨"ns", "v"⟩ unnamedServiceStore).1.virtualIP "ns" "v" =
        some v1 ∧ v1.Status.State = State.Error) ∧
    (∃ v1, (Reconcile exampleReconciler ⟨"ns", "v"⟩ unnamedServiceStore).1.virtualIP "ns" "v" =
        some v1 ∧ v1.Status.State = State.Exposing ∧ v1.Status.Service = "") ∧
    (Reconcile exampleReconciler ⟨"ns", "v"⟩ unnamedServiceStore).2 = .ret {} none := by
  have h : (Reconcile exampleReconciler ⟨"ns", "v"⟩ unnamedServiceStore).1.virtualIP "ns" "v" =
      some { unnamedServiceVirtualIP with
        Status := { unnamedServiceVirtualIP.Status with
          Clone := some false, State := State.Exposing,
          Message := "exposing service with an external IP" } } := by decide
  refine ⟨?_, ⟨_, h, rfl, rfl⟩, by decide⟩
  rintro ⟨v1, h1, h2⟩
  rw [h] at h1
  cases h1
  simp at h2

/-- C18, amended: for a non-deleting VirtualIP with an address recorded and
the address finalizer present whose spec names no target service and whose
status records none, an invocation of `Reconcile` whose store requests are
served reports no failure: it records the empty service name and the clone
flag of the spec, persists `State = Exposing` with the message
`exposing service with an external IP`, and returns no error. -/
theorem reconcile_missing_service_exposing (r : VirtualIPReconciler) (req : Request) (s : Store)
    (vip : VirtualIP) (hstored : s.virtualIP req.Namespace req.Name = some vip)
    (hnd : vip.DeletionTimestamp = none) (hip : vip.Status.IP ≠ "")
    (hfin : ipFinalizer ∈ vip.Finalizers) (hspec : vip.Spec.Service = "")
    (hstatus : vip.Status.Service = "") (hserved : ∀ op, r.Client op = none) :
    (Reconcile r req s).1.virtualIP req.Namespace req.Name =
      some { vip with Status := { vip.Status with
        Service := "", Clone := some vip.Spec.Clone,
        Message := "exposing service with an external IP", State := State.Exposing } } ∧
    (Reconcile r req s).2 = .ret {} none := by
  obtain ⟨hk1, hk2⟩ := virtualIP_key _ _ _ _ hstored
  have hframe := CreateOrUpdateIP_frame r.Client
    { Name := vip.Status.IP, Labels := [], Annotations := [] }
    (fun o => labelIP o vip vip.Status.GSM) s
  have hsteps := reconcileSteps_settled r req s vip hstored hnd hip hfin hserved
  revert hframe hsteps
  generalize (CreateOrUpdateIP r.Client { Name := vip.Status.IP, Labels := [], Annotations := [] }
    (fun o => labelIP o vip vip.Status.GSM) s).1 = s1
  intro hframe hsteps
  have hstored1 : s1.virtualIP vip.Namespace vip.Name = some vip := by
    rw [hk1, hk2]
    simpa only [Store.virtualIP, hframe.1] using hstored
  have hexit : reconcileService r false vip s1 =
      (s1, .updateStatus { vip with Status := { vip.Status with
        Service := vip.Spec.Service, Clone := some vip.Spec.Clone,
        Message := "exposing service with an external IP", State := State.Exposing } } none) := by
    simp only [reconcileService, hstatus, if_true]
  have hup := virtualIP_updateVirtualIPStatus r.Client
    { vip with Status := { vip.Status with
        Service := vip.Spec.Service, Clone := some vip.Spec.Clone,
        Message := "exposing service with an external IP", State := State.Exposing } } vip s1
    (hserved _) hstored1
  have hsrv := updateStatus_served r
    { vip with Status := { vip.Status with
        Service := vip.Spec.Service, Clone := some vip.Spec.Clone,
        Message := "exposing service with an external IP", State := State.Exposing } } vip s1
    hserved hstored1
  have hfst := updateStatus_fst r
    { vip with Status := { vip.Status with
        Service := vip.Spec.Service, Clone := some vip.Spec.Clone,
        Message := "exposing service with an external IP", State := State.Exposing } } none s1
  have hz : IsZero vip.DeletionTimestamp = true := by rw [hnd]; rfl
  rw [if_pos hz] at hfst
  have hrec : Reconcile r req s =
      ((updateVirtualIPStatus r.Client { vip with Status := { vip.Status with
        Service := vip.Spec.Service, Clone := some vip.Spec.Clone,
        Message := "exposing service with an external IP", State := State.Exposing } } s1).1,
        .ret {} none) := by
    unfold Reconcile
    rw [hsteps, hexit]
    simp only
    rw [hsrv, hfst]
    rfl
  rw [hrec, ← hk1, ← hk2]
  refine ⟨?_, rfl⟩
  have := hup.2
  simp only [hspec] at this ⊢
  exact this

theorem reconcileService_teardown_clone (r : VirtualIPReconciler) (vip : VirtualIP) (s : Store)
    (hname : vip.Status.Service ≠ "") (hclone : vip.Status.Clone = some true) :
    reconcileService r true vip s =
      match getService r vip s with
      | .hang => (s, .hang)
      | .error err => (s, .updateStatus vip
          (some (errorsNew ("could not get service to be exposed: " ++ err.msg))))
      | .ok service =>
        match cloneService r vip service with
        | .hang => (s, .hang)
        | .error err => (s, .updateStatus vip
            (some (errorsNew ("received error while cloning service: " ++ err.msg))))
        | .ok _ =>
          match updateVirtualIP r.Client (RemoveFinalizer vip serviceFinalizer) s with
          | (s2, some err) => (s2, .updateStatus (RemoveFinalizer vip serviceFinalizer)
              (some (errorsNew ("could not add finalizer for service: " ++ err.msg))))
          | (s2, none) => (s2, .result none) := by
  simp only [reconcileService, hname, if_false, hclone, if_true]
  cases getService r vip s with
  | hang => rfl
  | error e => rfl
  | ok service =>
    simp only
    cases cloneService r vip service with
    | hang => rfl
    | error e => rfl
    | ok c => rfl

/-- C19 (clone-mode teardown touches no service): for a stored VirtualIP
being deleted, without the address finalizer, with committed clone flag true
and a recorded service name, every invocation of `Reconcile` leaves the
services exactly as stored; when the recorded service exists, the kind of
the VirtualIP is registered and every request is served, the stored object
afterwards is without the service finalizer and no error is returned; when
the lookup of the recorded service fails, the request being rejected or the
service absent, the store is left as it is, the service finalizer
included. -/
theorem reconcile_clone_teardown (r : VirtualIPReconciler) (req : Request) (s : Store)
    (vip : VirtualIP) (hstored : s.virtualIP req.Namespace req.Name = some vip)
    (hdel : vip.DeletionTimestamp ≠ none) (hnoip : ipFinalizer ∉ vip.Finalizers)
    (hname : vip.Status.Service ≠ "") (hclone : vip.Status.Clone = some true) :
    (Reconcile r req s).1.Services = s.Services ∧
    (∀ (svc : Service) (gvk : String × String),
      s.service vip.Namespace vip.Status.Service = some svc → r.Scheme = some gvk →
      (∀ op, r.Client op = none) →
      (∃ vip1, (Reconcile r req s).1.virtualIP req.Namespace req.Name = some vip1 ∧
        serviceFinalizer ∉ vip1.Finalizers) ∧
      (Reconcile r req s).2 = .ret {} none) ∧
    ((r.Client (.getService vip.Namespace vip.Status.Service) ≠ none ∨
        s.service vip.Namespace vip.Status.Service = none) →
      (Reconcile r req s).1 = s) := by
  have hz := isZero_false _ hdel
  have hz2 : IsZero (RemoveFinalizer vip serviceFinalizer).DeletionTimestamp = false := hz
  refine ⟨?_, ?_, ?_⟩
  · unfold Reconcile
    rw [reconcileSteps_teardown r req s vip hstored hdel hnoip]
    cases r.Client (.getVirtualIP req.Namespace req.Name) with
    | some e => rfl
    | none =>
      simp only
      rw [reconcileService_teardown_clone r vip s hname hclone]
      cases getService r vip s with
      | hang => rfl
      | error e => simp only [updateStatus_deleting r vip _ s hz]
      | ok service =>
        simp only
        cases cloneService r vip service with
        | hang => rfl
        | error e => simp only [updateStatus_deleting r vip _ s hz]
        | ok c =>
          simp only
          have hf := updateVirtualIP_frame r.Client (RemoveFinalizer vip serviceFinalizer) s
          revert hf
          generalize updateVirtualIP r.Client (RemoveFinalizer vip serviceFinalizer) s = res
          obtain ⟨s2, e2⟩ := res
          intro hf
          cases e2 with
          | some err =>
            simp only [updateStatus_deleting r _ _ s2 hz2]
            exact hf.2.2
          | none => exact hf.2.2
  · intro svc gvk hsvc hscheme hserved
    obtain ⟨h1, h2, _⟩ := reconcile_teardown_clone r req s vip svc gvk hstored hdel hnoip hname
      hclone hsvc hscheme hserved
    exact ⟨⟨_, h2, removeFinalizer_not_mem _ _⟩, by rw [h1]⟩
  · intro hfail
    unfold Reconcile
    rw [reconcileSteps_teardown r req s vip hstored hdel hnoip]
    cases r.Client (.getVirtualIP req.Namespace req.Name) with
    | some e => rfl
    | none =>
      simp only
      rw [reconcileService_teardown_clone r vip s hname hclone]
      have hget : ∃ e, getService r vip s = .error e := by
        unfold getService Kube.getService
        cases hc : r.Client (.getService vip.Namespace vip.Status.Service) with
        | some e => exact ⟨e, rfl⟩
        | none =>
          rcases hfail with h | h
          · exact absurd hc h
          · simp only [h]
            exact ⟨_, rfl⟩
      obtain ⟨e, he⟩ := hget
      rw [he]
      simp only [updateStatus_deleting r vip _ s hz]

theorem IPString_ne_empty (a : IP) (ha : IsIPv4 a) : IPString a ≠ "" := by
  obtain ⟨hl, _⟩ := ha
  match a, hl with
  | [x, y, z, w], _ =>
    intro h
    have h2 := congrArg String.data h
    simp only [IPString] at h2
    have h3 := congrArg List.length h2
    simp at h3

theorem parseCIDR_empty : ParseCIDR "" = none := by decide

theorem lowest_free_exists (gsm : GroupSegmentMapping) (s : Store) (ip : IP) (ones : Nat)
    (h : ∃ a, freeAddress gsm s ip ones a) :
    ∃ a, freeAddress gsm s ip ones a ∧
      ∀ b, freeAddress gsm s ip ones b → Net.toNat a ≤ Net.toNat b := by
  classical
  have hex : ∃ n, ∃ a, freeAddress gsm s ip ones a ∧ Net.toNat a = n := by
    obtain ⟨a, ha⟩ := h
    exact ⟨_, a, ha, rfl⟩
  obtain ⟨a, ha, hn⟩ := Nat.find_spec hex
  refine ⟨a, ha, fun b hb => ?_⟩
  rw [hn]
  exact Nat.find_min' hex ⟨b, hb, rfl⟩

theorem reserveIP_free (r : VirtualIPReconciler) (gsm : GroupSegmentMapping)
    (virtualIP : VirtualIP) (s : Store) (ip : IP) (ones : Nat)
    (hlist : r.Client .listIP = none) (hcreate : ∀ name, r.Client (.createIP name) = none)
    (hparse : ParseCIDR gsm.Spec.Segment = some (ip, ones)) (hones : 1 ≤ ones)
    (hfree : ∃ a, freeAddress gsm s ip ones a) :
    ∃ a, freeAddress gsm s ip ones a ∧
      (∀ b, freeAddress gsm s ip ones b → Net.toNat a ≤ Net.toNat b) ∧
      reserveIP r gsm virtualIP s =
        ({ s with IPs := s.IPs ++ [claimOf gsm virtualIP (IPString a)] }, .ok (IPString a)) := by
  obtain ⟨a, ha, hmin⟩ := lowest_free_exists gsm s ip ones hfree
  exact ⟨a, ha, hmin,
    (reserveIP_lowest r gsm virtualIP s ip ones hlist hcreate hparse hones).1 a ha hmin⟩

theorem allocateIP_pinned (r : VirtualIPReconciler) (virtualIP : VirtualIP) (s s1 : Store)
    (gsm : GroupSegmentMapping) (str : String)
    (hpinned : virtualIP.Spec.Segment ≠ "")
    (hlist : r.Client .listGroupSegmentMapping = none)
    (hfind : s.GroupSegmentMappings.find?
      (fun g => decide (g.Spec.Segment = virtualIP.Spec.Segment)) = some gsm)
    (hres : reserveIP r gsm virtualIP s = (s1, .ok str)) (hstr : str ≠ "") :
    allocateIP r virtualIP s = (s1, .ok (str, gsm.Spec.KeepalivedGroup, gsm.Name)) := by
  simp only [allocateIP, hpinned, ne_eq, not_false_eq_true, if_true, getGSMBySegment, getGSMs,
    listGroupSegmentMapping, hlist, hfind, hres, checkAllocated, hstr, if_false]

theorem ip_append_absent (s : Store) (rec : IPObject) (h : ∀ x ∈ s.IPs, x.Name ≠ rec.Name) :
    Store.ip { s with IPs := s.IPs ++ [rec] } rec.Name = some rec := by
  simp only [Store.ip]
  rw [List.find?_append]
  have : s.IPs.find? (fun x => decide (x.Name = rec.Name)) = none := by
    rw [List.find?_eq_none]
    intro x hx
    simpa using h x hx
  rw [this]
  simp

theorem reconcile_allocates (r : VirtualIPReconciler) (req : Request) (s : Store)
    (vip : VirtualIP) (gsm : GroupSegmentMapping) (ip : IP) (ones : Nat)
    (hstored : s.virtualIP req.Namespace req.Name = some vip)
    (hnd : vip.DeletionTimestamp = none) (hnoaddr : vip.Status.IP = "")
    (hfind : s.GroupSegmentMappings.find?
      (fun g => decide (g.Spec.Segment = vip.Spec.Segment)) = some gsm)
    (hparse : ParseCIDR gsm.Spec.Segment = some (ip, ones)) (hones : 1 ≤ ones)
    (hfree : ∃ a, freeAddress gsm s ip ones a) (hserved : ∀ op, r.Client op = none) :
    ∃ a, freeAddress gsm s ip ones a ∧
      (∀ b, freeAddress gsm s ip ones b → Net.toNat a ≤ Net.toNat b) ∧
      (Reconcile r req s).1.virtualIP req.Namespace req.Name =
        some { vip with Status := { vip.Status with
          IP := IPString a, KeepalivedGroup := gsm.Spec.KeepalivedGroup, GSM := gsm.Name,
          Message := "creating IP object for the service", State := State.CreatingIP } } ∧
      (Reconcile r req s).1.IPs = s.IPs ++ [claimOf gsm vip (IPString a)] ∧
      (Reconcile r req s).1.ip (IPString a) = some (claimOf gsm vip (IPString a)) ∧
      (Reconcile r req s).1.Services = s.Services ∧
      (Reconcile r req s).2 = .ret {} none := by
  obtain ⟨hk1, hk2⟩ := virtualIP_key _ _ _ _ hstored
  have hseg : gsm.Spec.Segment = vip.Spec.Segment := by
    have := List.find?_some hfind
    simpa using this
  have hpinned : vip.Spec.Segment ≠ "" := by
    intro h
    rw [hseg, h, parseCIDR_empty] at hparse
    cases hparse
  obtain ⟨a, ha, hmin, hres⟩ := reserveIP_free r gsm vip s ip ones (hserved _)
    (fun _ => hserved _) hparse hones hfree
  have halloc := allocateIP_pinned r vip s _ gsm (IPString a) hpinned (hserved _) hfind hres
    (IPString_ne_empty a ha.1)
  have hstored1 : Store.virtualIP { s with IPs := s.IPs ++ [claimOf gsm vip (IPString a)] }
      vip.Namespace vip.Name = some vip := by
    rw [hk1, hk2]; exact hstored
  have hsteps : reconcileSteps r req s =
      ({ s with IPs := s.IPs ++ [claimOf gsm vip (IPString a)] },
        .updateStatus { vip with Status := { vip.Status with
          IP := IPString a, KeepalivedGroup := gsm.Spec.KeepalivedGroup, GSM := gsm.Name,
          Message := "creating IP object for the service", State := State.CreatingIP } } none) := by
    simp only [reconcileSteps, getVirtualIP, hserved, hstored, hnd, IsZero, Option.isNone_none,
      Bool.not_true, Bool.false_eq_true, if_false, reconcileAddress, hnoaddr, if_true, halloc]
  have hup := virtualIP_updateVirtualIPStatus r.Client
    { vip with Status := { vip.Status with
        IP := IPString a, KeepalivedGroup := gsm.Spec.KeepalivedGroup, GSM := gsm.Name,
        Message := "creating IP object for the service", State := State.CreatingIP } } vip
    { s with IPs := s.IPs ++ [claimOf gsm vip (IPString a)] } (hserved _) hstored1
  have hsrv := updateStatus_served r
    { vip with Status := { vip.Status with
        IP := IPString a, KeepalivedGroup := gsm.Spec.KeepalivedGroup, GSM := gsm.Name,
        Message := "creating IP object for the service", State := State.CreatingIP } } vip
    { s with IPs := s.IPs ++ [claimOf gsm vip (IPString a)] } hserved hstored1
  have hfst := updateStatus_fst r
    { vip with Status := { vip.Status with
        IP := IPString a, KeepalivedGroup := gsm.Spec.KeepalivedGroup, GSM := gsm.Name,
        Message := "creating IP object for the service", State := State.CreatingIP } } none
    { s with IPs := s.IPs ++ [claimOf gsm vip (IPString a)] }
  have hz : IsZero vip.DeletionTimestamp = true := by rw [hnd]; rfl
  rw [if_pos hz] at hfst
  have hrec : Reconcile r req s =
      ((updateVirtualIPStatus r.Client { vip with Status := { vip.Status with
          IP := IPString a, KeepalivedGroup := gsm.Spec.KeepalivedGroup, GSM := gsm.Name,
          Message := "creating IP object for the service", State := State.CreatingIP } }
        { s with IPs := s.IPs ++ [claimOf gsm vip (IPString a)] }).1, .ret {} none) := by
    unfold Reconcile
    rw [hsteps]
    simp only
    rw [hsrv, hfst]
    rfl
  have hf := updateVirtualIPStatus_frame r.Client { vip with Status := { vip.Status with
          IP := IPString a, KeepalivedGroup := gsm.Spec.KeepalivedGroup, GSM := gsm.Name,
          Message := "creating IP object for the service", State := State.CreatingIP } }
        { s with IPs := s.IPs ++ [claimOf gsm vip (IPString a)] }
  refine ⟨a, ha, hmin, ?_, ?_, ?_, ?_, ?_⟩
  · rw [hrec, ← hk1, ← hk2]
    exact hup.2
  · rw [hrec]; exact hf.1
  · rw [hrec]
    simp only [Store.ip]
    rw [show (updateVirtualIPStatus r.Client _ _).1.IPs = _ from hf.1]
    exact ip_append_absent s (claimOf gsm vip (IPString a)) ha.2.2.2
  · rw [hrec]; exact hf.2.2
  · rw [hrec]

/-- C11, counterexample: the segment `10.0.0.0/30` pinned by the fresh
VirtualIP `ns/v` is the segment of two listed segment-mappings. In the first
store the one listed first excludes all four addresses and the second one,
`exampleGSM`, has `10.0.0.0` free: the served invocation of `Reconcile` asks
the first one only, persists `State = Error` with the message of the
exhausted allocation, records no address and creates no IP record. In the
second store both have free addresses: the status records the name and the
group of the one listed first, not those of `exampleGSM`. -/
theorem reconcile_allocation_shadowed :
    (shadowedStore.virtualIP "ns" "v" = some pinnedVirtualIP ∧
      pinnedVirtualIP.DeletionTimestamp = none ∧ pinnedVirtualIP.Status.IP = "" ∧
      exampleGSM ∈ shadowedStore.GroupSegmentMappings ∧
      exampleGSM.Spec.Segment = pinnedVirtualIP.Spec.Segment ∧
      ParseCIDR exampleGSM.Spec.Segment = some ([10, 0, 0, 0], 30) ∧
      freeAddress exampleGSM shadowedStore [10, 0, 0, 0] 30 [10, 0, 0, 0]) ∧
    (((Reconcile exampleReconciler ⟨"ns", "v"⟩ shadowedStore).1.virtualIP "ns" "v").map
        (fun v => v.Status) =
      some { pinnedVirtualIP.Status with
        State := State.Error,
        Message := "could not allocate an IP: there are no available IPs" } ∧
      (Reconcile exampleReconciler ⟨"ns", "v"⟩ shadowedStore).1.IPs = [] ∧
      (Reconcile exampleReconciler ⟨"ns", "v"⟩ shadowedStore).2 = .ret {} none) ∧
    (exampleGSM ∈ twinStore.GroupSegmentMappings ∧
      freeAddress exampleGSM twinStore [10, 0, 0, 0] 30 [10, 0, 0, 0] ∧
      ((Reconcile exampleReconciler ⟨"ns", "v"⟩ twinStore).1.virtualIP "ns" "v").map
          (fun v => (v.Status.State, v.Status.IP, v.Status.GSM, v.Status.KeepalivedGroup)) =
        some (State.CreatingIP, "10.0.0.0", "twin", "g2") ∧
      exampleGSM.Name ≠ "twin" ∧ exampleGSM.Spec.KeepalivedGroup ≠ "g2") := by
  unfold freeAddress
  decide

/-- C11, amended (allocation transition): for a stored, non-deleting
VirtualIP with no address recorded, let `gsm` be the first listed
segment-mapping whose segment equals `spec.segment` (the one
`getGSMBySegment` returns). If the segment of `gsm` has prefix length at
least 1 and `gsm` has a free address, an invocation of `Reconcile` whose store
requests are all served claims the numerically lowest free address `a` of
`gsm`: the stored status afterwards has `IP = a`, `KeepalivedGroup` and `GSM`
the grouping identifier and the name of `gsm`, and `State = CreatingIP`, the
rest of the object (finalizers, recorded service) being as before; the IP
record `claimOf gsm vip a` is appended to the IP records and is the record
stored under the name `a`; the services are unchanged; the empty result and
no error are returned. -/
theorem reconcile_allocation_transition (r : VirtualIPReconciler) (req : Request) (s : Store)
    (vip : VirtualIP) (gsm : GroupSegmentMapping) (ip : IP) (ones : Nat)
    (hstored : s.virtualIP req.Namespace req.Name = some vip)
    (hnd : vip.DeletionTimestamp = none) (hnoaddr : vip.Status.IP = "")
    (hfind : s.GroupSegmentMappings.find?
      (fun g => decide (g.Spec.Segment = vip.Spec.Segment)) = some gsm)
    (hparse : ParseCIDR gsm.Spec.Segment = some (ip, ones)) (hones : 1 ≤ ones)
    (hfree : ∃ a, freeAddress gsm s ip ones a) (hserved : ∀ op, r.Client op = none) :
    ∃ a, freeAddress gsm s ip ones a ∧
      (∀ b, freeAddress gsm s ip ones b → Net.toNat a ≤ Net.toNat b) ∧
      (Reconcile r req s).1.virtualIP req.Namespace req.Name =
        some { vip with Status := { vip.Status with
          IP := IPString a, KeepalivedGroup := gsm.Spec.KeepalivedGroup, GSM := gsm.Name,
          Message := "creating IP object for the service", State := State.CreatingIP } } ∧
      (Reconcile r req s).1.IPs = s.IPs ++ [claimOf gsm vip (IPString a)] ∧
      (Reconcile r req s).1.ip (IPString a) = some (claimOf gsm vip (IPString a)) ∧
      (Reconcile r req s).1.Services = s.Services ∧
      (Reconcile r req s).2 = .ret {} none :=
  reconcile_allocates r req s vip gsm ip ones hstored hnd hnoaddr hfind hparse hones hfree hserved

theorem lacks_of_same (f ns name : String) (s1 s : Store) (h : s1.VirtualIPs = s.VirtualIPs)
    (hk : lacksFinalizer f ns name s) : lacksFinalizer f ns name s1 := by
  intro v hv
  apply hk v
  simpa only [Store.virtualIP, h] using hv

theorem lacks_updateVirtualIPStatus (f ns name : String) (c : Client) (v : VirtualIP) (s : Store)
    (hk : lacksFinalizer f ns name s) :
    lacksFinalizer f ns name (updateVirtualIPStatus c v s).1 := by
  unfold updateVirtualIPStatus
  split
  · exact hk
  · split
    · intro x hx
      simp only [Store.virtualIP] at hx
      rw [virtualIP_map_replace _ _ _ _ _ (fun x => { x with Status := v.Status })
        (fun x _ => ⟨rfl, rfl⟩)] at hx
      cases hl : s.VirtualIPs.find? (fun v => decide (v.Namespace = ns ∧ v.Name = name)) with
      | none => rw [hl] at hx; exact absurd hx (by simp)
      | some y =>
        rw [hl] at hx
        simp only [Option.map_some', Option.some.injEq] at hx
        have hy := hk y hl
        rw [← hx]
        split <;> exact hy
    · exact hk

theorem lacks_updateStatus (f ns name : String) (r : VirtualIPReconciler) (v : VirtualIP)
    (e : Option Err) (s : Store) (hk : lacksFinalizer f ns name s) :
    lacksFinalizer f ns name (updateStatus r v e s).1 := by
  rw [updateStatus_fst]
  split
  · exact lacks_updateVirtualIPStatus f ns name r.Client _ s hk
  · exact hk

theorem lacks_updateVirtualIP (f ns name : String) (c : Client) (v : VirtualIP) (s : Store)
    (hk : lacksFinalizer f ns name s) (hv : f ∉ v.Finalizers) :
    lacksFinalizer f ns name (updateVirtualIP c v s).1 := by
  unfold updateVirtualIP
  split
  · exact hk
  · split
    · intro x hx
      simp only [Store.virtualIP] at hx
      rw [virtualIP_map_replace _ _ _ _ _ (fun x => { v with Status := x.Status })
        (fun x hx => ⟨hx.1.symm, hx.2.symm⟩)] at hx
      cases hl : s.VirtualIPs.find? (fun v => decide (v.Namespace = ns ∧ v.Name = name)) with
      | none => rw [hl] at hx; exact absurd hx (by simp)
      | some y =>
        rw [hl] at hx
        simp only [Option.map_some', Option.some.injEq] at hx
        have hy := hk y hl
        rw [← hx]
        split
        · exact hv
        · exact hy
    · exact hk

theorem not_mem_removeFinalizer (v : VirtualIP) (f g : String) (h : f ∉ v.Finalizers) :
    f ∉ (RemoveFinalizer v g).Finalizers := by
  simp only [RemoveFinalizer, List.mem_filter]
  exact fun hc => h hc.1

theorem not_mem_addFinalizer (v : VirtualIP) (f g : String) (h : f ∉ v.Finalizers)
    (hne : f ≠ g) : f ∉ (AddFinalizer v g).Finalizers := by
  unfold AddFinalizer
  split
  · exact h
  · simp only [List.mem_append, List.mem_singleton, not_or]
    exact ⟨h, hne⟩

theorem lacks_reconcileDeletion (f ns name : String) (r : VirtualIPReconciler) (vip : VirtualIP)
    (s : Store) (hk : lacksFinalizer f ns name s) (hv : f ∉ vip.Finalizers) :
    lacksFinalizer f ns name (reconcileDeletion r vip s).1 := by
  unfold reconcileDeletion
  have h1 : lacksFinalizer f ns name (deleteIP r.Client vip.Status.IP s).1 :=
    lacks_of_same _ _ _ _ _ (deleteIP_frame _ _ _).1 hk
  split
  · revert h1
    generalize deleteIP r.Client vip.Status.IP s = res
    obtain ⟨s1, e1⟩ := res
    intro h1
    cases e1 with
    | some err => exact h1
    | none =>
      simp only
      have h2 := lacks_updateVirtualIP f ns name r.Client
        (RemoveFinalizer vip ipFinalizer) s1 h1 (not_mem_removeFinalizer _ _ _ hv)
      revert h2
      generalize updateVirtualIP r.Client (RemoveFinalizer vip ipFinalizer) s1 = res
      obtain ⟨s2, e2⟩ := res
      intro h2
      cases e2 <;> exact h2
  · exact hk

theorem lacks_reconcileAddress (f ns name : String) (r : VirtualIPReconciler) (vip : VirtualIP)
    (s : Store) (hk : lacksFinalizer f ns name s) (hv : f ∉ vip.Finalizers)
    (hne : f ≠ ipFinalizer) :
    lacksFinalizer f ns name (reconcileAddress r vip s).1 := by
  unfold reconcileAddress
  split
  · have h1 : lacksFinalizer f ns name (allocateIP r vip s).1 :=
      lacks_of_same _ _ _ _ _ (allocateIP_frame _ _ _).1 hk
    revert h1
    generalize allocateIP r vip s = res
    obtain ⟨s1, e1⟩ := res
    intro h1
    cases e1 with
    | hang => exact h1
    | error err => exact h1
    | ok a => obtain ⟨ip, kg, gn⟩ := a; exact h1
  · simp only
    have h1 : lacksFinalizer f ns name
        (CreateOrUpdateIP r.Client { Name := vip.Status.IP, Labels := [], Annotations := [] }
          (fun o => labelIP o vip vip.Status.GSM) s).1 :=
      lacks_of_same _ _ _ _ _ (CreateOrUpdateIP_frame _ _ _ _).1 hk
    revert h1
    generalize CreateOrUpdateIP r.Client { Name := vip.Status.IP, Labels := [], Annotations := [] }
          (fun o => labelIP o vip vip.Status.GSM) s = res
    obtain ⟨s1, e1⟩ := res
    intro h1
    cases e1 with
    | some err => exact h1
    | none =>
      simp only
      split
      · have h2 := lacks_updateVirtualIP f ns name r.Client
          (AddFinalizer vip ipFinalizer) s1 h1 (not_mem_addFinalizer _ _ _ hv hne)
        revert h2
        generalize updateVirtualIP r.Client (AddFinalizer vip ipFinalizer) s1 = res
        obtain ⟨s2, e2⟩ := res
        intro h2
        cases e2 <;> exact h2
      · exact h1

theorem lacks_reconcileService (f ns name : String) (r : VirtualIPReconciler)
    (deleteVIP : Bool) (vip : VirtualIP) (s : Store)
    (hk : lacksFinalizer f ns name s) (hv : f ∉ vip.Finalizers)
    (hne : deleteVIP = true ∨ f ≠ serviceFinalizer) :
    lacksFinalizer f ns name (reconcileService r deleteVIP vip s).1 := by
  unfold reconcileService
  split
  · exact hk
  · split
    · exact hk
    · exact hk
    · split
      · exact hk
      · split
        · exact hk
        · exact hk
        · rename_i clone _ _ service _
          have h1 : lacksFinalizer f ns name
              (if !(deleteVIP && clone) then
                CreateOrUpdateService r.Client service
                  (fun svc => patchService r svc vip.Status.IP vip.Status.KeepalivedGroup
                    deleteVIP) s
               else (s, none)).1 := by
            split
            · exact lacks_of_same _ _ _ _ _ (CreateOrUpdateService_frame _ _ _ _).1 hk
            · exact hk
          revert h1
          generalize (if !(deleteVIP && clone) then
                CreateOrUpdateService r.Client service
                  (fun svc => patchService r svc vip.Status.IP vip.Status.KeepalivedGroup
                    deleteVIP) s
               else (s, none)) = res
          obtain ⟨s1, e1⟩ := res
          intro h1
          cases e1 with
          | some err => exact h1
          | none =>
            simp only
            split
            · have hv2 : f ∉ (if deleteVIP = true then RemoveFinalizer vip serviceFinalizer
                  else AddFinalizer vip serviceFinalizer).Finalizers := by
                split
                · exact not_mem_removeFinalizer _ _ _ hv
                · rename_i hd
                  rcases hne with h | h
                  · exact absurd h hd
                  · exact not_mem_addFinalizer _ _ _ hv h
              have h2 := lacks_updateVirtualIP f ns name r.Client _ s1 h1 hv2
              revert h2
              generalize updateVirtualIP r.Client _ s1 = res
              obtain ⟨s2, e2⟩ := res
              intro h2
              cases e2 <;> exact h2
            · exact h1

theorem lacks_return (f : String) (r : VirtualIPReconciler) (req : Request) (s : Store)
    (h : lacksFinalizer f req.Namespace req.Name (reconcileSteps r req s).1) :
    lacksFinalizer f req.Namespace req.Name (Reconcile r req s).1 := by
  unfold Reconcile
  revert h
  generalize reconcileSteps r req s = res
  obtain ⟨s1, e1⟩ := res
  intro h
  cases e1 with
  | updateStatus v e => exact lacks_updateStatus _ _ _ r v e s1 h
  | result err => exact h
  | panic => exact h
  | hang => exact h

theorem createIP_ok (c : Client) (ip : IPObject) (s : Store) (h : (createIP c ip s).2 = none) :
    createIP c ip s = ({ s with IPs := s.IPs ++ [ip] }, none) ∧ s.ip ip.Name = none := by
  unfold createIP at h ⊢
  cases hc : c (.createIP ip.Name) with
  | some e => rw [hc] at h; cases h
  | none =>
    rw [hc] at h
    cases hs : s.ip ip.Name with
    | some x => rw [hs] at h; cases h
    | none => exact ⟨rfl, rfl⟩

theorem updateIP_ok (c : Client) (ip : IPObject) (s : Store) (h : (updateIP c ip s).2 = none) :
    updateIP c ip s =
      ({ s with IPs := s.IPs.map (fun x => if x.Name = ip.Name then ip else x) }, none) ∧
      ∃ x, s.ip ip.Name = some x := by
  unfold updateIP at h ⊢
  cases hc : c (.updateIP ip.Name) with
  | some e => rw [hc] at h; cases h
  | none =>
    rw [hc] at h
    cases hs : s.ip ip.Name with
    | none => rw [hs] at h; cases h
    | some x => exact ⟨rfl, x, rfl⟩

theorem createService_ok (c : Client) (svc : Service) (s : Store)
    (h : (createService c svc s).2 = none) :
    createService c svc s = ({ s with Services := s.Services ++ [svc] }, none) ∧
      s.service svc.Namespace svc.Name = none := by
  unfold createService at h ⊢
  cases hc : c (.createService svc.Namespace svc.Name) with
  | some e => rw [hc] at h; cases h
  | none =>
    rw [hc] at h
    cases hs : s.service svc.Namespace svc.Name with
    | some x => rw [hs] at h; cases h
    | none => exact ⟨rfl, rfl⟩

theorem updateService_ok (c : Client) (svc : Service) (s : Store)
    (h : (updateService c svc s).2 = none) :
    updateService c svc s =
      ({ s with Services := s.Services.map (fun x =>
          if x.Namespace = svc.Namespace ∧ x.Name = svc.Name then svc else x) }, none) ∧
      ∃ x, s.service svc.Namespace svc.Name = some x := by
  unfold updateService at h ⊢
  cases hc : c (.updateService svc.Namespace svc.Name) with
  | some e => rw [hc] at h; cases h
  | none =>
    rw [hc] at h
    cases hs : s.service svc.Namespace svc.Name with
    | none => rw [hs] at h; cases h
    | some x => exact ⟨rfl, x, rfl⟩

theorem getIP_cases (c : Client) (name : String) (s : Store) :
    (∃ e, getIP c name s = .error e) ∨ (∃ x, getIP c name s = .ok x ∧ s.ip name = some x) := by
  unfold getIP
  cases hc : c (.getIP name) with
  | some e => exact Or.inl ⟨e, rfl⟩
  | none =>
    cases hv : s.ip name with
    | none => exact Or.inl ⟨_, rfl⟩
    | some v => exact Or.inr ⟨v, rfl, rfl⟩

theorem getService_cases (c : Client) (ns name : String) (s : Store) :
    (∃ e, Kube.getService c ns name s = .error e) ∨
      (∃ x, Kube.getService c ns name s = .ok x ∧ s.service ns name = some x) := by
  unfold Kube.getService
  cases hc : c (.getService ns name) with
  | some e => exact Or.inl ⟨e, rfl⟩
  | none =>
    cases hv : s.service ns name with
    | none => exact Or.inl ⟨_, rfl⟩
    | some v => exact Or.inr ⟨v, rfl, rfl⟩

theorem ip_append_none (s : Store) (rec : IPObject) (h : s.ip rec.Name = none) :
    Store.ip { s with IPs := s.IPs ++ [rec] } rec.Name = some rec := by
  simp only [Store.ip] at h ⊢
  rw [List.find?_append, h]
  simp

theorem ip_map_replace (l : List IPObject) (name name1 : String) (new : IPObject)
    (hf : new.Name = name1) :
    (l.map (fun x => if x.Name = name1 then new else x)).find?
        (fun v => decide (v.Name = name)) =
      (l.find? (fun v => decide (v.Name = name))).map
        (fun x => if x.Name = name1 then new else x) := by
  have := find_map_replace (fun v : IPObject => decide (v.Name = name))
    (fun x => decide (x.Name = name1)) (fun _ => new)
    (by intro x hx; simp only [decide_eq_true_eq] at hx; simp only [hf, hx]) l
  simpa only [decide_eq_true_eq] using this

theorem CreateOrUpdateIP_ok (c : Client) (obj : IPObject) (f : IPObject → IPObject) (s : Store)
    (h : (CreateOrUpdateIP c obj f s).2 = none) :
    ∃ x, (CreateOrUpdateIP c obj f s).1.ip obj.Name = some (f x) := by
  have hcreate : (f obj).Name = obj.Name → (createIP c (f obj) s).2 = none →
      ∃ x, (createIP c (f obj) s).1.ip obj.Name = some (f x) := by
    intro hkey hc
    obtain ⟨h1, h2⟩ := createIP_ok c (f obj) s hc
    refine ⟨obj, ?_⟩
    rw [h1, ← hkey]
    exact ip_append_none s (f obj) h2
  unfold CreateOrUpdateIP at h ⊢
  rcases getIP_cases c obj.Name s with ⟨e, he⟩ | ⟨x, hx, hs⟩
  · rw [he] at h ⊢
    simp only at h ⊢
    by_cases hk : e.kind = .notFound
    · rw [if_pos hk] at h ⊢
      by_cases hn : (f obj).Name ≠ obj.Name
      · rw [if_pos hn] at h; cases h
      · rw [if_neg hn] at h ⊢
        exact hcreate (not_not.mp hn) h
    · rw [if_neg hk] at h; cases h
  · rw [hx] at h ⊢
    simp only at h ⊢
    by_cases hn : (f x).Name ≠ obj.Name
    · rw [if_pos hn] at h; cases h
    · rw [if_neg hn] at h ⊢
      have hkey : (f x).Name = obj.Name := not_not.mp hn
      by_cases hsame : f x = x
      · rw [if_pos hsame]
        refine ⟨x, ?_⟩
        rw [hsame]; exact hs
      · rw [if_neg hsame] at h ⊢
        obtain ⟨h1, _⟩ := updateIP_ok c (f x) s h
        refine ⟨x, ?_⟩
        rw [h1]
        simp only [Store.ip] at hs ⊢
        rw [ip_map_replace _ _ _ _ rfl, hs]
        simp only [Option.map_some', hkey, ip_key s obj.Name x hs, if_true]

theorem CreateOrUpdateService_ok (c : Client) (obj : Service) (f : Service → Service)
    (s : Store) (h : (CreateOrUpdateService c obj f s).2 = none) :
    ∃ x, (CreateOrUpdateService c obj f s).1.service obj.Namespace obj.Name = some (f x) := by
  have hcreate : (f obj).Namespace = obj.Namespace ∧ (f obj).Name = obj.Name →
      (createService c (f obj) s).2 = none →
      ∃ x, (createService c (f obj) s).1.service obj.Namespace obj.Name = some (f x) := by
    intro hkey hc
    obtain ⟨h1, h2⟩ := createService_ok c (f obj) s hc
    refine ⟨obj, ?_⟩
    rw [h1]
    rw [hkey.1, hkey.2] at h2
    exact service_append_absent s _ _ (f obj) h2 hkey
  unfold CreateOrUpdateService at h ⊢
  rcases getService_cases c obj.Namespace obj.Name s with ⟨e, he⟩ | ⟨x, hx, hs⟩
  · rw [he] at h ⊢
    simp only at h ⊢
    by_cases hk : e.kind = .notFound
    · rw [if_pos hk] at h ⊢
      by_cases hn : (f obj).Namespace ≠ obj.Namespace ∨ (f obj).Name ≠ obj.Name
      · rw [if_pos hn] at h; cases h
      · rw [if_neg hn] at h ⊢
        rw [not_or, not_not, not_not] at hn
        exact hcreate hn h
    · rw [if_neg hk] at h; cases h
  · rw [hx] at h ⊢
    simp only at h ⊢
    by_cases hn : (f x).Namespace ≠ obj.Namespace ∨ (f x).Name ≠ obj.Name
    · rw [if_pos hn] at h; cases h
    · rw [if_neg hn] at h ⊢
      rw [not_or, not_not, not_not] at hn
      by_cases hsame : f x = x
      · rw [if_pos hsame]
        refine ⟨x, ?_⟩
        rw [hsame]; exact hs
      · rw [if_neg hsame] at h ⊢
        obtain ⟨h1, _⟩ := updateService_ok c (f x) s h
        refine ⟨x, ?_⟩
        rw [h1]
        have hxk := service_key s _ _ x hs
        simp only [Store.service] at hs ⊢
        rw [service_map_replace _ _ _ _ _ (f x) ⟨rfl, rfl⟩, hs]
        simp only [Option.map_some', hn.1, hn.2, hxk.1, hxk.2, and_self, if_true]

theorem CreateOrUpdateService_snd_congr (c : Client) (obj : Service) (f : Service → Service)
    (s1 s : Store) (hs : s1.Services = s.Services) :
    (CreateOrUpdateService c obj f s1).2 = (CreateOrUpdateService c obj f s).2 := by
  have hlook : ∀ ns name, s1.service ns name = s.service ns name := by
    intro ns name; simp only [Store.service, hs]
  have hget : Kube.getService c obj.Namespace obj.Name s1 =
      Kube.getService c obj.Namespace obj.Name s := by
    simp only [Kube.getService, hlook]
  have hcr : ∀ svc, (createService c svc s1).2 = (createService c svc s).2 := by
    intro svc
    simp only [createService, hlook]
    cases c (.createService svc.Namespace svc.Name) with
    | some e => rfl
    | none => cases s.service svc.Namespace svc.Name <;> rfl
  have hup : ∀ svc, (updateService c svc s1).2 = (updateService c svc s).2 := by
    intro svc
    simp only [updateService, hlook]
    cases c (.updateService svc.Namespace svc.Name) with
    | some e => rfl
    | none => cases s.service svc.Namespace svc.Name <;> rfl
  unfold CreateOrUpdateService
  rw [hget]
  cases Kube.getService c obj.Namespace obj.Name s with
  | hang => rfl
  | error e =>
    simp only
    split_ifs
    · rfl
    · exact hcr _
    · rfl
  | ok x =>
    simp only
    split_ifs
    · rfl
    · rfl
    · exact hup _

theorem cloneService_key (r : VirtualIPReconciler) (vip : VirtualIP) (service bound : Service)
    (h : cloneService r vip service = .ok bound) :
    bound.Namespace = service.Namespace ∧ bound.Name = service.Name ++ "-keepalived-clone" := by
  rw [cloneService_eq] at h
  cases hset : SetOwnerReference vip (detachedCopy service) r.Scheme with
  | hang => rw [hset] at h; cases h
  | error e => rw [hset] at h; cases h
  | ok c =>
    rw [hset] at h
    simp only [Res.ok.injEq] at h
    obtain ⟨a, k, _, hc⟩ := SetOwnerReference_ok _ _ _ _ hset
    rw [← h, hc]
    exact ⟨rfl, rfl⟩

theorem updateVirtualIP_error (c : Client) (v : VirtualIP) (s : Store)
    (h : (updateVirtualIP c v s).2 ≠ none) : (updateVirtualIP c v s).1 = s := by
  unfold updateVirtualIP at h ⊢
  cases hc : c (.updateVirtualIP v.Namespace v.Name) with
  | some e => rfl
  | none =>
    rw [hc] at h
    cases hs : s.virtualIP v.Namespace v.Name with
    | none => rfl
    | some x => rw [hs] at h; exact absurd rfl h

theorem lacks_stored (f : String) (req : Request) (s : Store) (vip : VirtualIP)
    (hstored : s.virtualIP req.Namespace req.Name = some vip) (hv : f ∉ vip.Finalizers) :
    lacksFinalizer f req.Namespace req.Name s := by
  intro v h
  rw [hstored] at h
  cases h
  exact hv

theorem reconcileAddress_ip_path (ns name : String) (r : VirtualIPReconciler) (vip : VirtualIP)
    (s : Store) (hk : lacksFinalizer ipFinalizer ns name s) (hv : ipFinalizer ∉ vip.Finalizers) :
    (reconcileAddress r vip s).2 ≠ none ∧
    (lacksFinalizer ipFinalizer ns name (reconcileAddress r vip s).1 ∨
      (vip.Status.IP ≠ "" ∧
        (CreateOrUpdateIP r.Client { Name := vip.Status.IP, Labels := [], Annotations := [] }
          (fun o => labelIP o vip vip.Status.GSM) s).2 = none ∧
        reconcileAddress r vip s =
          ((updateVirtualIP r.Client (AddFinalizer vip ipFinalizer)
            (CreateOrUpdateIP r.Client { Name := vip.Status.IP, Labels := [], Annotations := [] }
              (fun o => labelIP o vip vip.Status.GSM) s).1).1, some (.result none)))) := by
  have hcf : ContainsFinalizer vip ipFinalizer = false := by
    simpa [ContainsFinalizer] using hv
  unfold reconcileAddress
  by_cases hip : vip.Status.IP = ""
  · rw [if_pos hip]
    have h1 : lacksFinalizer ipFinalizer ns name (allocateIP r vip s).1 :=
      lacks_of_same _ _ _ _ _ (allocateIP_frame _ _ _).1 hk
    revert h1
    generalize allocateIP r vip s = res
    obtain ⟨s1, e1⟩ := res
    intro h1
    cases e1 with
    | hang => exact ⟨by simp, Or.inl h1⟩
    | error err => exact ⟨by simp, Or.inl h1⟩
    | ok a => obtain ⟨ip, kg, gn⟩ := a; exact ⟨by simp, Or.inl h1⟩
  · rw [if_neg hip]
    simp only
    have h1 : lacksFinalizer ipFinalizer ns name
        (CreateOrUpdateIP r.Client { Name := vip.Status.IP, Labels := [], Annotations := [] }
          (fun o => labelIP o vip vip.Status.GSM) s).1 :=
      lacks_of_same _ _ _ _ _ (CreateOrUpdateIP_frame _ _ _ _).1 hk
    revert h1
    generalize CreateOrUpdateIP r.Client { Name := vip.Status.IP, Labels := [], Annotations := [] }
          (fun o => labelIP o vip vip.Status.GSM) s = res
    obtain ⟨s1, e1⟩ := res
    intro h1
    cases e1 with
    | some err => exact ⟨by simp, Or.inl h1⟩
    | none =>
      simp only [hcf, Bool.not_false, if_true]
      have h2 := updateVirtualIP_error r.Client (AddFinalizer vip ipFinalizer) s1
      revert h2
      generalize hup : updateVirtualIP r.Client (AddFinalizer vip ipFinalizer) s1 = res
      obtain ⟨s2, e2⟩ := res
      intro h2
      cases e2 with
      | some err =>
        refine ⟨by simp, Or.inl ?_⟩
        simp only at h2 ⊢
        rw [h2 (by simp)]
        exact h1
      | none => exact ⟨by simp, Or.inr ⟨hip, trivial, rfl⟩⟩

theorem reconcile_ip_finalizer_path (r : VirtualIPReconciler) (req : Request) (s : Store)
    (vip : VirtualIP) (hstored : s.virtualIP req.Namespace req.Name = some vip)
    (hv : ipFinalizer ∉ vip.Finalizers) :
    lacksFinalizer ipFinalizer req.Namespace req.Name (Reconcile r req s).1 ∨
      (vip.DeletionTimestamp = none ∧ vip.Status.IP ≠ "" ∧
        (CreateOrUpdateIP r.Client { Name := vip.Status.IP, Labels := [], Annotations := [] }
          (fun o => labelIP o vip vip.Status.GSM) s).2 = none ∧
        Reconcile r req s =
          ((updateVirtualIP r.Client (AddFinalizer vip ipFinalizer)
            (CreateOrUpdateIP r.Client { Name := vip.Status.IP, Labels := [], Annotations := [] }
              (fun o => labelIP o vip vip.Status.GSM) s).1).1, .ret {} none)) := by
  have hk := lacks_stored ipFinalizer req s vip hstored hv
  have hsteps : lacksFinalizer ipFinalizer req.Namespace req.Name (reconcileSteps r req s).1 ∨
      (vip.DeletionTimestamp = none ∧ vip.Status.IP ≠ "" ∧
        (CreateOrUpdateIP r.Client { Name := vip.Status.IP, Labels := [], Annotations := [] }
          (fun o => labelIP o vip vip.Status.GSM) s).2 = none ∧
        reconcileSteps r req s =
          ((updateVirtualIP r.Client (AddFinalizer vip ipFinalizer)
            (CreateOrUpdateIP r.Client { Name := vip.Status.IP, Labels := [], Annotations := [] }
              (fun o => labelIP o vip vip.Status.GSM) s).1).1, .result none)) := by
    unfold reconcileSteps
    rcases getVirtualIP_cases r.Client req.Namespace req.Name s with ⟨e, he⟩ | ⟨v, hv1, hv2, _⟩
    · rw [he]; exact Or.inl hk
    · rw [hv1]
      rw [hstored] at hv2
      cases hv2
      simp only
      cases hd : vip.DeletionTimestamp with
      | none =>
        simp only [IsZero, Option.isNone_none, Bool.not_true, Bool.false_eq_true, if_false]
        obtain ⟨h1, h2⟩ := reconcileAddress_ip_path req.Namespace req.Name r vip s hk hv
        revert h1 h2
        generalize reconcileAddress r vip s = res
        obtain ⟨s1, e1⟩ := res
        intro h1 h2
        cases e1 with
        | none => exact absurd rfl h1
        | some exit =>
          rcases h2 with h2 | ⟨h3, h4, h5⟩
          · exact Or.inl h2
          · refine Or.inr ⟨trivial, h3, h4, ?_⟩
            simp only [Prod.mk.injEq, Option.some.injEq] at h5
            simp only [h5.1, h5.2]
      | some t =>
        simp only [IsZero, Option.isNone_some, Bool.not_false, if_true]
        rw [(reconcileDeletion_exit r vip s).2 (by simpa [ContainsFinalizer] using hv)]
        exact Or.inl (lacks_reconcileService _ _ _ r true vip s hk hv (Or.inl rfl))
  rcases hsteps with h | ⟨h1, h2, h3, h4⟩
  · exact Or.inl (lacks_return _ r req s h)
  · refine Or.inr ⟨h1, h2, h3, ?_⟩
    unfold Reconcile
    rw [h4]

theorem reconcileService_service_path (ns name : String) (r : VirtualIPReconciler)
    (vip : VirtualIP) (s : Store) (hk : lacksFinalizer serviceFinalizer ns name s)
    (hv : serviceFinalizer ∉ vip.Finalizers) :
    lacksFinalizer serviceFinalizer ns name (reconcileService r false vip s).1 ∨
      ∃ service clone bound, vip.Status.Service ≠ "" ∧
        getService r vip s = .ok service ∧ vip.Status.Clone = some clone ∧
        (if clone then cloneService r vip service else .ok service) = .ok bound ∧
        (CreateOrUpdateService r.Client bound
          (fun svc => patchService r svc vip.Status.IP vip.Status.KeepalivedGroup false) s).2 =
            none ∧
        reconcileService r false vip s =
          ((updateVirtualIP r.Client (AddFinalizer vip serviceFinalizer)
            (CreateOrUpdateService r.Client bound
              (fun svc => patchService r svc vip.Status.IP vip.Status.KeepalivedGroup false)
              s).1).1, .result none) := by
  have hcf : ContainsFinalizer vip serviceFinalizer = false := by
    simpa [ContainsFinalizer] using hv
  unfold reconcileService
  by_cases hname : vip.Status.Service = ""
  · rw [if_pos hname]; exact Or.inl hk
  · rw [if_neg hname]
    cases hget : getService r vip s with
    | hang => exact Or.inl hk
    | error e => exact Or.inl hk
    | ok service =>
      simp only
      cases hclone : vip.Status.Clone with
      | none => exact Or.inl hk
      | some clone =>
        simp only
        cases hb : (if clone = true then cloneService r vip service else Res.ok service) with
        | hang => exact Or.inl hk
        | error e => exact Or.inl hk
        | ok bound =>
          simp only [Bool.false_and, Bool.not_false, if_true, Bool.false_or, hcf,
            Bool.false_eq_true, if_false]
          have h1 : lacksFinalizer serviceFinalizer ns name
              (CreateOrUpdateService r.Client bound
                (fun svc => patchService r svc vip.Status.IP vip.Status.KeepalivedGroup false)
                s).1 :=
            lacks_of_same _ _ _ _ _ (CreateOrUpdateService_frame _ _ _ _).1 hk
          revert h1
          generalize hcou : CreateOrUpdateService r.Client bound
                (fun svc => patchService r svc vip.Status.IP vip.Status.KeepalivedGroup false)
                s = res
          obtain ⟨s1, e1⟩ := res
          intro h1
          cases e1 with
          | some err => exact Or.inl h1
          | none =>
            simp only
            have h2 := updateVirtualIP_error r.Client (AddFinalizer vip serviceFinalizer) s1
            revert h2
            generalize hup : updateVirtualIP r.Client (AddFinalizer vip serviceFinalizer) s1 = res
            obtain ⟨s2, e2⟩ := res
            intro h2
            cases e2 with
            | some err =>
              refine Or.inl ?_
              simp only at h2 ⊢
              rw [h2 (by simp)]
              exact h1
            | none =>
              refine Or.inr ⟨service, clone, bound, hname, rfl, rfl, hb, ?_, ?_⟩
              · rw [hcou]
              · rw [hcou]
                simp only
                rw [hup]

theorem reconcileAddress_frame_none (r : VirtualIPReconciler) (vip : VirtualIP) (s : Store)
    (h : (reconcileAddress r vip s).2 = none) : sameButIPs (reconcileAddress r vip s).1 s := by
  unfold reconcileAddress at h ⊢
  by_cases hip : vip.Status.IP = ""
  · rw [if_pos hip] at h
    revert h
    generalize allocateIP r vip s = res
    obtain ⟨s1, e1⟩ := res
    intro h
    cases e1 with
    | hang => cases h
    | error err => cases h
    | ok a => obtain ⟨ip, kg, gn⟩ := a; cases h
  · rw [if_neg hip] at h ⊢
    simp only at h ⊢
    have h1 := CreateOrUpdateIP_frame r.Client
      { Name := vip.Status.IP, Labels := [], Annotations := [] }
      (fun o => labelIP o vip vip.Status.GSM) s
    revert h h1
    generalize CreateOrUpdateIP r.Client { Name := vip.Status.IP, Labels := [], Annotations := [] }
          (fun o => labelIP o vip vip.Status.GSM) s = res
    obtain ⟨s1, e1⟩ := res
    intro h h1
    cases e1 with
    | some err => cases h
    | none =>
      simp only at h ⊢
      by_cases hc : (!ContainsFinalizer vip ipFinalizer) = true
      · rw [if_pos hc] at h
        revert h
        generalize updateVirtualIP r.Client (AddFinalizer vip ipFinalizer) s1 = res
        obtain ⟨s2, e2⟩ := res
        intro h
        cases e2 <;> cases h
      · rw [if_neg hc]
        exact h1

theorem getService_stored (r : VirtualIPReconciler) (vip : VirtualIP) (s : Store)
    (service : Service) (h : getService r vip s = .ok service) :
    s.service vip.Namespace vip.Status.Service = some service := by
  unfold getService at h
  rcases getService_cases r.Client vip.Namespace vip.Status.Service s with ⟨e, he⟩ | ⟨x, hx, hs⟩
  · rw [he] at h; cases h
  · rw [hx] at h
    cases h
    exact hs

theorem reconcile_service_finalizer_path (r : VirtualIPReconciler) (req : Request) (s : Store)
    (vip : VirtualIP) (hstored : s.virtualIP req.Namespace req.Name = some vip)
    (hv : serviceFinalizer ∉ vip.Finalizers) :
    lacksFinalizer serviceFinalizer req.Namespace req.Name (Reconcile r req s).1 ∨
      ∃ s1 service clone bound, sameButIPs s1 s ∧ vip.DeletionTimestamp = none ∧
        vip.Status.Service ≠ "" ∧
        getService r vip s1 = .ok service ∧ vip.Status.Clone = some clone ∧
        (if clone then cloneService r vip service else .ok service) = .ok bound ∧
        (CreateOrUpdateService r.Client bound
          (fun svc => patchService r svc vip.Status.IP vip.Status.KeepalivedGroup false) s1).2 =
            none ∧
        Reconcile r req s =
          ((updateVirtualIP r.Client (AddFinalizer vip serviceFinalizer)
            (CreateOrUpdateService r.Client bound
              (fun svc => patchService r svc vip.Status.IP vip.Status.KeepalivedGroup false)
              s1).1).1, .ret {} none) := by
  have hk := lacks_stored serviceFinalizer req s vip hstored hv
  have hsteps : lacksFinalizer serviceFinalizer req.Namespace req.Name
        (reconcileSteps r req s).1 ∨
      ∃ s1 service clone bound, sameButIPs s1 s ∧ vip.DeletionTimestamp = none ∧
        vip.Status.Service ≠ "" ∧
        getService r vip s1 = .ok service ∧ vip.Status.Clone = some clone ∧
        (if clone then cloneService r vip service else .ok service) = .ok bound ∧
        (CreateOrUpdateService r.Client bound
          (fun svc => patchService r svc vip.Status.IP vip.Status.KeepalivedGroup false) s1).2 =
            none ∧
        reconcileSteps r req s =
          ((updateVirtualIP r.Client (AddFinalizer vip serviceFinalizer)
            (CreateOrUpdateService r.Client bound
              (fun svc => patchService r svc vip.Status.IP vip.Status.KeepalivedGroup false)
              s1).1).1, .result none) := by
    unfold reconcileSteps
    rcases getVirtualIP_cases r.Client req.Namespace req.Name s with ⟨e, he⟩ | ⟨v, hv1, hv2, _⟩
    · rw [he]; exact Or.inl hk
    · rw [hv1]
      rw [hstored] at hv2
      cases hv2
      simp only
      cases hd : vip.DeletionTimestamp with
      | none =>
        simp only [IsZero, Option.isNone_none, Bool.not_true, Bool.false_eq_true, if_false]
        have h1 := lacks_reconcileAddress serviceFinalizer req.Namespace req.Name r vip s hk hv
          serviceFinalizer_ne_ipFinalizer
        have h2 := reconcileAddress_frame_none r vip s
        revert h1 h2
        generalize reconcileAddress r vip s = res
        obtain ⟨s1, e1⟩ := res
        intro h1 h2
        cases e1 with
        | some exit => exact Or.inl h1
        | none =>
          simp only
          rcases reconcileService_service_path req.Namespace req.Name r vip s1 h1 hv with
            h3 | ⟨service, clone, bound, h4, h5, h6, h7, h8, h9⟩
          · exact Or.inl h3
          · exact Or.inr ⟨s1, service, clone, bound, h2 rfl, trivial, h4, h5, h6, h7, h8, h9⟩
      | some t =>
        simp only [IsZero, Option.isNone_some, Bool.not_false, if_true]
        have h1 := lacks_reconcileDeletion serviceFinalizer req.Namespace req.Name r vip s hk hv
        revert h1
        generalize reconcileDeletion r vip s = res
        obtain ⟨s1, e1⟩ := res
        intro h1
        cases e1 with
        | some exit => exact Or.inl h1
        | none =>
          exact Or.inl (lacks_reconcileService _ _ _ r true vip s1 h1 hv (Or.inl rfl))
  rcases hsteps with h | ⟨s1, service, clone, bound, h1, h2, h3, h4, h5, h6, h7, h8⟩
  · exact Or.inl (lacks_return _ r req s h)
  · refine Or.inr ⟨s1, service, clone, bound, h1, h2, h3, h4, h5, h6, h7, ?_⟩
    unfold Reconcile
    rw [h8]

theorem mapGet_singleton (k v : String) : mapGet [(k, v)] k = some v := by
  simp [mapGet]

theorem statusKept_stored (s s1 : Store) (ns name : String) (v v1 : VirtualIP)
    (hk : statusKept s s1) (h : s.virtualIP ns name = some v)
    (h1 : s1.virtualIP ns name = some v1) : v1.Status = v.Status := by
  have := hk ns name
  rw [h, h1] at this
  simpa using this

/-- C12 (a finalizer is added only after its side effect): for every
invocation of `Reconcile` on a stored VirtualIP, whichever requests fail.
If the address finalizer is absent before and on the stored object
afterwards, the status is the one before and the resulting store holds an IP
record named `Status.IP` whose label `gsm` is `Status.GSM`; if the
create-or-update of the IP record fails, the address finalizer is absent
afterwards. If the service finalizer is absent before and present
afterwards, the status is the one before and the resulting store holds, in
the namespace of the VirtualIP, the bound service (named `Status.Service`, or
`Status.Service ++ "-keepalived-clone"` when the committed clone flag is set)
with external IPs `[Status.IP]` and the keepalived group annotation
`<group namespace>/<Status.KeepalivedGroup>`; if the create-or-update of that
service fails, the service finalizer is absent afterwards. -/
theorem reconcile_finalizer_after_side_effect (r : VirtualIPReconciler) (req : Request)
    (s : Store) (vip : VirtualIP)
    (hstored : s.virtualIP req.Namespace req.Name = some vip) :
    (ipFinalizer ∉ vip.Finalizers →
      (∀ v1, (Reconcile r req s).1.virtualIP req.Namespace req.Name = some v1 →
        ipFinalizer ∈ v1.Finalizers →
        v1.Status = vip.Status ∧
        ∃ rec, (Reconcile r req s).1.ip v1.Status.IP = some rec ∧
          mapGet rec.Labels groupSegmentMappingLabel = some v1.Status.GSM) ∧
      ((CreateOrUpdateIP r.Client { Name := vip.Status.IP, Labels := [], Annotations := [] }
          (fun o => labelIP o vip vip.Status.GSM) s).2 ≠ none →
        ∀ v1, (Reconcile r req s).1.virtualIP req.Namespace req.Name = some v1 →
          ipFinalizer ∉ v1.Finalizers)) ∧
    (serviceFinalizer ∉ vip.Finalizers →
      (∀ v1, (Reconcile r req s).1.virtualIP req.Namespace req.Name = some v1 →
        serviceFinalizer ∈ v1.Finalizers →
        v1.Status = vip.Status ∧
        ∃ clone svc, v1.Status.Clone = some clone ∧
          (Reconcile r req s).1.service v1.Namespace
            (if clone then v1.Status.Service ++ "-keepalived-clone" else v1.Status.Service) =
              some svc ∧
          svc.Spec.ExternalIPs = [v1.Status.IP] ∧
          mapGet svc.Annotations keepalivedGroupAnnotation =
            some (keepalivedGroupNamespace r ++ "/" ++ v1.Status.KeepalivedGroup)) ∧
      (∀ clone service bound, vip.Status.Clone = some clone →
        s.service vip.Namespace vip.Status.Service = some service →
        (if clone then cloneService r vip service else .ok service) = .ok bound →
        (CreateOrUpdateService r.Client bound
          (fun svc => patchService r svc vip.Status.IP vip.Status.KeepalivedGroup false) s).2 ≠
            none →
        ∀ v1, (Reconcile r req s).1.virtualIP req.Namespace req.Name = some v1 →
          serviceFinalizer ∉ v1.Finalizers)) := by
  obtain ⟨hk1, hk2⟩ := virtualIP_key _ _ _ _ hstored
  constructor
  · intro hv
    rcases reconcile_ip_finalizer_path r req s vip hstored hv with hl | ⟨_, _, hcou, hrec⟩
    · exact ⟨fun v1 h1 hin => absurd hin (hl v1 h1), fun _ v1 h1 => hl v1 h1⟩
    · refine ⟨fun v1 h1 _ => ?_, fun hne => absurd hcou hne⟩
      have hst : v1.Status = vip.Status := by
        rw [hrec] at h1
        exact statusKept_stored s _ _ _ vip v1
          (statusKept_trans (statusKept_of_same _ _ (CreateOrUpdateIP_frame _ _ _ _).1)
            (statusKept_updateVirtualIP _ _ _)) hstored h1
      refine ⟨hst, ?_⟩
      obtain ⟨x, hx⟩ := CreateOrUpdateIP_ok _ _ _ _ hcou
      refine ⟨labelIP x vip vip.Status.GSM, ?_, ?_⟩
      · rw [hrec, hst]
        simp only [Store.ip] at hx ⊢
        rw [(updateVirtualIP_frame _ _ _).1]
        exact hx
      · rw [hst]
        exact mapGet_singleton _ _
  · intro hv
    rcases reconcile_service_finalizer_path r req s vip hstored hv with
      hl | ⟨s1, service, clone, bound, hsame, _, _, hget, hclone, hb, hcou, hrec⟩
    · exact ⟨fun v1 h1 hin => absurd hin (hl v1 h1), fun _ _ _ _ _ _ _ v1 h1 => hl v1 h1⟩
    · have hsvc := getService_stored r vip s1 service hget
      have hsvc0 : s.service vip.Namespace vip.Status.Service = some service := by
        simp only [Store.service] at hsvc ⊢
        rw [← hsame.2.2]; exact hsvc
      constructor
      · intro v1 h1 _
        have hst : v1.Status = vip.Status := by
          rw [hrec] at h1
          exact statusKept_stored s _ _ _ vip v1
            (statusKept_trans (statusKept_of_same _ _
                ((CreateOrUpdateService_frame _ _ _ _).1.trans hsame.1))
              (statusKept_updateVirtualIP _ _ _)) hstored h1
        have hns : v1.Namespace = vip.Namespace :=
          (virtualIP_key _ _ _ _ h1).1.trans hk1.symm
        refine ⟨hst, clone, ?_⟩
        obtain ⟨x, hx⟩ := CreateOrUpdateService_ok _ _ _ _ hcou
        have hkey : bound.Namespace = vip.Namespace ∧
            bound.Name = (if clone = true then vip.Status.Service ++ "-keepalived-clone"
              else vip.Status.Service) := by
          obtain ⟨k1, k2⟩ := service_key _ _ _ _ hsvc
          cases clone with
          | true =>
            simp only [if_true] at hb ⊢
            obtain ⟨c1, c2⟩ := cloneService_key r vip service bound hb
            exact ⟨c1.trans k1, by rw [c2, k2]⟩
          | false =>
            simp only [Bool.false_eq_true, if_false, Res.ok.injEq] at hb ⊢
            rw [← hb]; exact ⟨k1, k2⟩
        refine ⟨patchService r x vip.Status.IP vip.Status.KeepalivedGroup false,
          by rw [hst]; exact hclone, ?_, ?_, ?_⟩
        · rw [hrec, hst, hns]
          rw [hkey.1, hkey.2] at hx
          simp only [Store.service] at hx ⊢
          rw [(updateVirtualIP_frame _ _ _).2.2]
          exact hx
        · rw [hst]; rfl
        · rw [hst]
          exact mapGet_mapSet_self _ _ _
      · intro clone1 service1 bound1 hc1 hs1 hb1 hne
        rw [hclone] at hc1
        rw [hsvc0] at hs1
        cases hc1
        cases hs1
        rw [hb] at hb1
        cases hb1
        rw [← CreateOrUpdateService_snd_congr _ _ _ s1 s hsame.2.2] at hne
        exact absurd hcou hne

theorem reconcile_status_exit (r : VirtualIPReconciler) (req : Request) (s s1 : Store)
    (vip v : VirtualIP) (hsteps : reconcileSteps r req s = (s1, .updateStatus v none))
    (hkey : v.Namespace = req.Namespace ∧ v.Name = req.Name)
    (hstored1 : s1.virtualIP req.Namespace req.Name = some vip)
    (hnd : v.DeletionTimestamp = none) (hserved : ∀ op, r.Client op = none) :
    (Reconcile r req s).1.virtualIP req.Namespace req.Name =
        some { vip with Status := v.Status } ∧
      sameButVirtualIPs (Reconcile r req s).1 s1 ∧
      (Reconcile r req s).2 = .ret {} none := by
  have hst : s1.virtualIP v.Namespace v.Name = some vip := by
    rw [hkey.1, hkey.2]; exact hstored1
  have hup := virtualIP_updateVirtualIPStatus r.Client v vip s1 (hserved _) hst
  have hsrv := updateStatus_served r v vip s1 hserved hst
  have hfst := updateStatus_fst r v none s1
  have hz : IsZero v.DeletionTimestamp = true := by rw [hnd]; rfl
  rw [if_pos hz] at hfst
  have hrec : Reconcile r req s = ((updateVirtualIPStatus r.Client v s1).1, .ret {} none) := by
    unfold Reconcile
    rw [hsteps]
    simp only
    rw [hsrv, hfst]
    rfl
  rw [hrec]
  refine ⟨?_, updateVirtualIPStatus_frame _ _ _, rfl⟩
  rw [← hkey.1, ← hkey.2]
  exact hup.2

theorem reconcile_adds_ip_finalizer (r : VirtualIPReconciler) (req : Request) (s : Store)
    (vip : VirtualIP) (rec : IPObject)
    (hstored : s.virtualIP req.Namespace req.Name = some vip)
    (hnd : vip.DeletionTimestamp = none) (hip : vip.Status.IP ≠ "")
    (hnofin : ipFinalizer ∉ vip.Finalizers)
    (hrec : s.ip vip.Status.IP = some rec) (hlab : labelIP rec vip vip.Status.GSM = rec)
    (hserved : ∀ op, r.Client op = none) :
    (Reconcile r req s).1.virtualIP req.Namespace req.Name =
        some { vip with Finalizers := vip.Finalizers ++ [ipFinalizer] } ∧
      sameButVirtualIPs (Reconcile r req s).1 s ∧
      (Reconcile r req s).2 = .ret {} none := by
  obtain ⟨hk1, hk2⟩ := virtualIP_key _ _ _ _ hstored
  have hcf : ContainsFinalizer vip ipFinalizer = false := by
    simpa [ContainsFinalizer] using hnofin
  have hadd : AddFinalizer vip ipFinalizer =
      { vip with Finalizers := vip.Finalizers ++ [ipFinalizer] } := by
    unfold AddFinalizer
    rw [if_neg]
    simpa [ContainsFinalizer] using hcf
  have hst : s.virtualIP vip.Namespace vip.Name = some vip := by
    rw [hk1, hk2]; exact hstored
  have hok := updateVirtualIP_served r.Client
    { vip with Finalizers := vip.Finalizers ++ [ipFinalizer] } vip s (hserved _) hst
  have hlook := virtualIP_updateVirtualIP r.Client
    { vip with Finalizers := vip.Finalizers ++ [ipFinalizer] } vip s ⟨rfl, rfl⟩ hst
  rw [if_pos hok] at hlook
  have hz : IsZero vip.DeletionTimestamp = true := by rw [hnd]; rfl
  have hframe := updateVirtualIP_frame r.Client
    { vip with Finalizers := vip.Finalizers ++ [ipFinalizer] } s
  have hrecon : Reconcile r req s =
      ((updateVirtualIP r.Client { vip with Finalizers := vip.Finalizers ++ [ipFinalizer] } s).1,
        .ret {} none) := by
    simp only [Reconcile, reconcileSteps, getVirtualIP, hserved, hstored, hz,
      Bool.not_true, Bool.false_eq_true, if_false, reconcileAddress, hip,
      CreateOrUpdateIP_labelled r.Client vip rec s hserved hrec hlab, hcf, Bool.not_false,
      if_true, hadd]
    revert hok
    generalize updateVirtualIP r.Client
      { vip with Finalizers := vip.Finalizers ++ [ipFinalizer] } s = res
    obtain ⟨s2, e2⟩ := res
    intro hok
    simp only at hok
    subst hok
    rfl
  rw [hrecon, ← hk1, ← hk2]
  exact ⟨hlook, hframe, rfl⟩

theorem reconcile_exposing (r : VirtualIPReconciler) (req : Request) (s : Store)
    (vip : VirtualIP) (rec : IPObject)
    (hstored : s.virtualIP req.Namespace req.Name = some vip)
    (hnd : vip.DeletionTimestamp = none) (hip : vip.Status.IP ≠ "")
    (hfin : ipFinalizer ∈ vip.Finalizers)
    (hrec : s.ip vip.Status.IP = some rec) (hlab : labelIP rec vip vip.Status.GSM = rec)
    (hstatus : vip.Status.Service = "") (hserved : ∀ op, r.Client op = none) :
    (Reconcile r req s).1.virtualIP req.Namespace req.Name =
        some { vip with Status := { vip.Status with
          Service := vip.Spec.Service, Clone := some vip.Spec.Clone,
          Message := "exposing service with an external IP", State := State.Exposing } } ∧
      sameButVirtualIPs (Reconcile r req s).1 s ∧
      (Reconcile r req s).2 = .ret {} none := by
  obtain ⟨hk1, hk2⟩ := virtualIP_key _ _ _ _ hstored
  have hsteps := reconcileSteps_settled r req s vip hstored hnd hip hfin hserved
  rw [CreateOrUpdateIP_labelled r.Client vip rec s hserved hrec hlab] at hsteps
  have hexit : reconcileService r false vip s =
      (s, .updateStatus { vip with Status := { vip.Status with
        Service := vip.Spec.Service, Clone := some vip.Spec.Clone,
        Message := "exposing service with an external IP", State := State.Exposing } } none) := by
    simp only [reconcileService, hstatus, if_true]
  rw [hexit] at hsteps
  exact reconcile_status_exit r req s s vip _ hsteps ⟨hk1, hk2⟩ hstored hnd hserved

theorem reconcile_binds_service (r : VirtualIPReconciler) (req : Request) (s : Store)
    (vip : VirtualIP) (rec : IPObject) (svc : Service)
    (hstored : s.virtualIP req.Namespace req.Name = some vip)
    (hnd : vip.DeletionTimestamp = none) (hip : vip.Status.IP ≠ "")
    (hfin : ipFinalizer ∈ vip.Finalizers) (hnofin : serviceFinalizer ∉ vip.Finalizers)
    (hrec : s.ip vip.Status.IP = some rec) (hlab : labelIP rec vip vip.Status.GSM = rec)
    (hname : vip.Status.Service ≠ "") (hclone : vip.Status.Clone = some false)
    (hsvc : s.service vip.Namespace vip.Status.Service = some svc)
    (hserved : ∀ op, r.Client op = none) :
    (Reconcile r req s).1.virtualIP req.Namespace req.Name =
        some { vip with Finalizers := vip.Finalizers ++ [serviceFinalizer] } ∧
      (Reconcile r req s).1.IPs = s.IPs ∧
      (Reconcile r req s).1.service vip.Namespace vip.Status.Service =
        some (patchService r svc vip.Status.IP vip.Status.KeepalivedGroup false) ∧
      (Reconcile r req s).2 = .ret {} none := by
  obtain ⟨hk1, hk2⟩ := virtualIP_key _ _ _ _ hstored
  obtain ⟨hs1, hs2⟩ := service_key _ _ _ _ hsvc
  have hcf : ContainsFinalizer vip serviceFinalizer = false := by
    simpa [ContainsFinalizer] using hnofin
  have hadd : AddFinalizer vip serviceFinalizer =
      { vip with Finalizers := vip.Finalizers ++ [serviceFinalizer] } := by
    unfold AddFinalizer
    rw [if_neg]
    simpa [ContainsFinalizer] using hcf
  have hsteps := reconcileSteps_settled r req s vip hstored hnd hip hfin hserved
  rw [CreateOrUpdateIP_labelled r.Client vip rec s hserved hrec hlab] at hsteps
  have hcou := CreateOrUpdateService_existing r.Client svc svc
    (fun x => patchService r x vip.Status.IP vip.Status.KeepalivedGroup false) s (hserved _)
    (by rw [hs1, hs2]; exact hsvc) (patchService_key r svc _ _ false)
  -- the store after the service write, and what it holds
  have hbound : ∃ s1, CreateOrUpdateService r.Client svc
        (fun x => patchService r x vip.Status.IP vip.Status.KeepalivedGroup false) s =
          (s1, none) ∧ sameButServices s1 s ∧
        s1.service vip.Namespace vip.Status.Service =
          some (patchService r svc vip.Status.IP vip.Status.KeepalivedGroup false) := by
    by_cases hsame : patchService r svc vip.Status.IP vip.Status.KeepalivedGroup false = svc
    · refine ⟨s, ?_, ⟨rfl, rfl, rfl⟩, ?_⟩
      · rw [hcou]; simp only [hsame, if_true]
      · rw [hsame]; exact hsvc
    · have hsvc1 : s.service svc.Namespace svc.Name = some svc := by
        rw [hs1, hs2]; exact hsvc
      have hk := patchService_key r svc vip.Status.IP vip.Status.KeepalivedGroup false
      have hok := updateService_served r.Client
        (patchService r svc vip.Status.IP vip.Status.KeepalivedGroup false) svc s
        (hserved _) (by rw [hk.1, hk.2]; exact hsvc1)
      have hlook := service_updateService r.Client svc
        (patchService r svc vip.Status.IP vip.Status.KeepalivedGroup false) s hk hsvc1
      rw [if_pos hok, hs1, hs2] at hlook
      refine ⟨(updateService r.Client
        (patchService r svc vip.Status.IP vip.Status.KeepalivedGroup false) s).1, ?_,
        updateService_frame _ _ _, hlook⟩
      rw [hcou]
      simp only [hsame, if_false]
      exact Prod.ext rfl hok
  obtain ⟨s1, hc1, hf1, hl1⟩ := hbound
  have hst : s1.virtualIP vip.Namespace vip.Name = some vip := by
    rw [hk1, hk2]
    simpa only [Store.virtualIP, hf1.1] using hstored
  have hok := updateVirtualIP_served r.Client
    { vip with Finalizers := vip.Finalizers ++ [serviceFinalizer] } vip s1 (hserved _) hst
  have hlook := virtualIP_updateVirtualIP r.Client
    { vip with Finalizers := vip.Finalizers ++ [serviceFinalizer] } vip s1 ⟨rfl, rfl⟩ hst
  rw [if_pos hok] at hlook
  have hframe := updateVirtualIP_frame r.Client
    { vip with Finalizers := vip.Finalizers ++ [serviceFinalizer] } s1
  have hrecon : Reconcile r req s =
      ((updateVirtualIP r.Client
        { vip with Finalizers := vip.Finalizers ++ [serviceFinalizer] } s1).1, .ret {} none) := by
    unfold Reconcile
    rw [hsteps]
    simp only [reconcileService, hname, if_false, getService, Kube.getService, hserved, hsvc,
      hclone, Bool.false_eq_true, Bool.false_and, Bool.and_false, Bool.not_false, if_true, hc1,
      Bool.false_or, hcf, hadd]
    revert hok
    generalize updateVirtualIP r.Client
      { vip with Finalizers := vip.Finalizers ++ [serviceFinalizer] } s1 = res
    obtain ⟨s2, e2⟩ := res
    intro hok
    simp only at hok
    subst hok
    rfl
  rw [hrecon, ← hk1, ← hk2]
  refine ⟨hlook, hframe.1.trans hf1.2.2, ?_, rfl⟩
  simp only [Store.service] at hl1 ⊢
  rw [hframe.2.2]
  exact hl1

theorem reconcile_validates (r : VirtualIPReconciler) (req : Request) (s : Store)
    (vip : VirtualIP) (rec : IPObject) (svc : Service)
    (hstored : s.virtualIP req.Namespace req.Name = some vip)
    (hnd : vip.DeletionTimestamp = none) (hip : vip.Status.IP ≠ "")
    (hfin : ipFinalizer ∈ vip.Finalizers) (hsfin : serviceFinalizer ∈ vip.Finalizers)
    (hrec : s.ip vip.Status.IP = some rec) (hlab : labelIP rec vip vip.Status.GSM = rec)
    (hname : vip.Status.Service ≠ "") (hclone : vip.Status.Clone = some false)
    (hsvc : s.service vip.Namespace vip.Status.Service = some svc)
    (hpatched : patchService r svc vip.Status.IP vip.Status.KeepalivedGroup false = svc)
    (hserved : ∀ op, r.Client op = none) :
    (Reconcile r req s).1.virtualIP req.Namespace req.Name =
        some { vip with Status := { vip.Status with
          Message := "successfully allocated an IP address", State := State.Valid } } ∧
      sameButVirtualIPs (Reconcile r req s).1 s ∧
      (Reconcile r req s).2 = .ret {} none := by
  obtain ⟨hk1, hk2⟩ := virtualIP_key _ _ _ _ hstored
  obtain ⟨hs1, hs2⟩ := service_key _ _ _ _ hsvc
  have hcf : ContainsFinalizer vip serviceFinalizer = true := by
    simpa [ContainsFinalizer] using hsfin
  have hsteps := reconcileSteps_settled r req s vip hstored hnd hip hfin hserved
  rw [CreateOrUpdateIP_labelled r.Client vip rec s hserved hrec hlab] at hsteps
  have hcou := CreateOrUpdateService_existing r.Client svc svc
    (fun x => patchService r x vip.Status.IP vip.Status.KeepalivedGroup false) s (hserved _)
    (by rw [hs1, hs2]; exact hsvc) (patchService_key r svc _ _ false)
  simp only [hpatched, if_true] at hcou
  have hexit : reconcileService r false vip s =
      (s, .updateStatus { vip with Status := { vip.Status with
          Message := "successfully allocated an IP address", State := State.Valid } } none) := by
    simp only [reconcileService, hname, if_false, getService, Kube.getService, hserved, hsvc,
      hclone, Bool.false_eq_true, Bool.false_and, Bool.and_false, Bool.not_false, if_true, hcou,
      Bool.false_or, hcf, Bool.not_true]
  rw [hexit] at hsteps
  exact reconcile_status_exit r req s s vip _ hsteps ⟨hk1, hk2⟩ hstored hnd hserved

theorem ip_of_same (s1 s : Store) (h : s1.IPs = s.IPs) (name : String) :
    s1.ip name = s.ip name := by
  simp only [Store.ip, h]

theorem service_of_same (s1 s : Store) (h : s1.Services = s.Services) (ns name : String) :
    s1.service ns name = s.service ns name := by
  simp only [Store.service, h]

theorem reconcile_five_invocations (r : VirtualIPReconciler) (req : Request) (s : Store)
    (vip : VirtualIP) (gsm : GroupSegmentMapping) (ip : IP) (ones : Nat) (svc : Service)
    (hstored : s.virtualIP req.Namespace req.Name = some vip)
    (hnd : vip.DeletionTimestamp = none) (hnoaddr : vip.Status.IP = "")
    (hnosvc : vip.Status.Service = "") (hnofin : vip.Finalizers = [])
    (hnoclone : vip.Spec.Clone = false)
    (hfind : s.GroupSegmentMappings.find?
      (fun g => decide (g.Spec.Segment = vip.Spec.Segment)) = some gsm)
    (hparse : ParseCIDR gsm.Spec.Segment = some (ip, ones)) (hones : 1 ≤ ones)
    (hfree : ∃ a, freeAddress gsm s ip ones a)
    (hname : vip.Spec.Service ≠ "")
    (hsvc : s.service vip.Namespace vip.Spec.Service = some svc)
    (hserved : ∀ op, r.Client op = none) :
    ∃ a, freeAddress gsm s ip ones a ∧
      (∀ b, freeAddress gsm s ip ones b → Net.toNat a ≤ Net.toNat b) ∧
      (∃ v1, (reconcileTimes r req 1 s).virtualIP req.Namespace req.Name = some v1 ∧
        v1.Status.State = State.CreatingIP) ∧
      (∃ v3, (reconcileTimes r req 3 s).virtualIP req.Namespace req.Name = some v3 ∧
        v3.Status.State = State.Exposing) ∧
      (reconcileTimes r req 5 s).virtualIP req.Namespace req.Name =
        some { vip with
          Finalizers := [ipFinalizer, serviceFinalizer]
          Status := { vip.Status with
            IP := IPString a, KeepalivedGroup := gsm.Spec.KeepalivedGroup, GSM := gsm.Name,
            Service := vip.Spec.Service, Clone := some false,
            Message := "successfully allocated an IP address", State := State.Valid } } ∧
      (reconcileTimes r req 5 s).IPs = s.IPs ++ [claimOf gsm vip (IPString a)] ∧
      (reconcileTimes r req 5 s).service vip.Namespace vip.Spec.Service =
        some (patchService r svc (IPString a) gsm.Spec.KeepalivedGroup false) := by
  obtain ⟨a, ha, hmin, h1v, h1ips, h1ip, h1svc, _⟩ :=
    reconcile_allocates r req s vip gsm ip ones hstored hnd hnoaddr hfind hparse hones hfree
      hserved
  have haddr : IPString a ≠ "" := IPString_ne_empty a ha.1
  -- second invocation: the address finalizer
  obtain ⟨h2v, h2f, _⟩ := reconcile_adds_ip_finalizer r req (Reconcile r req s).1 _
    (claimOf gsm vip (IPString a)) h1v hnd haddr
    (by show ipFinalizer ∉ vip.Finalizers; rw [hnofin]; exact List.not_mem_nil _)
    h1ip rfl hserved
  have h2ip : (Reconcile r req (Reconcile r req s).1).1.ip (IPString a) =
      some (claimOf gsm vip (IPString a)) := by
    rw [ip_of_same _ _ h2f.1]; exact h1ip
  -- third invocation: the service is recorded
  obtain ⟨h3v, h3f, _⟩ := reconcile_exposing r req (Reconcile r req (Reconcile r req s).1).1 _
    (claimOf gsm vip (IPString a)) h2v hnd haddr
    (by show ipFinalizer ∈ vip.Finalizers ++ [ipFinalizer]; simp)
    h2ip rfl hnosvc hserved
  have h3ip : (Reconcile r req (Reconcile r req (Reconcile r req s).1).1).1.ip (IPString a) =
      some (claimOf gsm vip (IPString a)) := by
    rw [ip_of_same _ _ h3f.1]; exact h2ip
  have h3svc : (Reconcile r req (Reconcile r req (Reconcile r req s).1).1).1.service
      vip.Namespace vip.Spec.Service = some svc := by
    rw [service_of_same _ _ h3f.2.2, service_of_same _ _ h2f.2.2, service_of_same _ _ h1svc]
    exact hsvc
  -- fourth invocation: the service is bound, the service finalizer added
  obtain ⟨h4v, h4ips, h4svc, _⟩ := reconcile_binds_service r req
    (Reconcile r req (Reconcile r req (Reconcile r req s).1).1).1 _
    (claimOf gsm vip (IPString a)) svc h3v hnd haddr
    (by show ipFinalizer ∈ vip.Finalizers ++ [ipFinalizer]; simp)
    (by show serviceFinalizer ∉ vip.Finalizers ++ [ipFinalizer]
        rw [hnofin]; decide)
    h3ip rfl hname (by show some vip.Spec.Clone = some false; rw [hnoclone]) h3svc hserved
  have h4ip : (Reconcile r req (Reconcile r req (Reconcile r req
      (Reconcile r req s).1).1).1).1.ip (IPString a) = some (claimOf gsm vip (IPString a)) := by
    rw [ip_of_same _ _ h4ips]; exact h3ip
  -- fifth invocation: nothing left to do but the state
  obtain ⟨h5v, h5f, _⟩ := reconcile_validates r req
    (Reconcile r req (Reconcile r req (Reconcile r req (Reconcile r req s).1).1).1).1 _
    (claimOf gsm vip (IPString a))
    (patchService r svc (IPString a) gsm.Spec.KeepalivedGroup false) h4v hnd haddr
    (by show ipFinalizer ∈ vip.Finalizers ++ [ipFinalizer] ++ [serviceFinalizer]; simp)
    (by show serviceFinalizer ∈ vip.Finalizers ++ [ipFinalizer] ++ [serviceFinalizer]; simp)
    h4ip rfl hname (by show some vip.Spec.Clone = some false; rw [hnoclone]) h4svc
    (patchService_twice r svc _ _ false) hserved
  refine ⟨a, ha, hmin, ⟨_, h1v, rfl⟩, ⟨_, h3v, rfl⟩, ?_, ?_, ?_⟩
  · show (Reconcile r req (Reconcile r req (Reconcile r req (Reconcile r req
      (Reconcile r req s).1).1).1).1).1.virtualIP req.Namespace req.Name = _
    rw [h5v]
    simp only [hnofin, hnoclone, List.nil_append, List.cons_append, List.singleton_append]
  · show (Reconcile r req (Reconcile r req (Reconcile r req (Reconcile r req
      (Reconcile r req s).1).1).1).1).1.IPs = _
    rw [h5f.1, h4ips, h3f.1, h2f.1, h1ips]
  · show (Reconcile r req (Reconcile r req (Reconcile r req (Reconcile r req
      (Reconcile r req s).1).1).1).1).1.service vip.Namespace vip.Spec.Service = _
    rw [service_of_same _ _ h5f.2.2]
    exact h4svc

/-- Witness of C11: with `10.0.0.0` claimed and `10.0.0.1` excluded, the fresh
VirtualIP pinned to `10.0.0.0/30` gets an IP record of its own. -/
theorem reconcile_allocation_transition_witness :
    ∃ a, freeAddress exampleGSM pinnedStore [10, 0, 0, 0] 30 a ∧
      (Reconcile exampleReconciler ⟨"ns", "v"⟩ pinnedStore).1.ip (IPString a) =
        some (claimOf exampleGSM pinnedVirtualIP (IPString a)) ∧
      (Reconcile exampleReconciler ⟨"ns", "v"⟩ pinnedStore).2 = .ret {} none := by
  obtain ⟨a, h1, _, _, _, h5, _, h7⟩ :=
    reconcile_allocation_transition exampleReconciler ⟨"ns", "v"⟩ pinnedStore pinnedVirtualIP
      exampleGSM [10, 0, 0, 0] 30 (by decide) (by decide) (by decide) (by decide) (by decide)
      (by decide) ⟨[10, 0, 0, 2], by unfold freeAddress; decide⟩ (fun _ => rfl)
  exact ⟨a, h1, h5, h7⟩

/-- Witness of C12: the invocation that adds the address finalizer leaves the
IP record `10.0.0.2` labelled `gsm=a`; the one that adds the service
finalizer in clone mode leaves the clone with external IPs `[10.0.0.2]`. -/
theorem reconcile_finalizer_after_side_effect_witness :
    (∃ rec, (Reconcile exampleReconciler ⟨"ns", "v"⟩ claimedStore).1.ip "10.0.0.2" = some rec ∧
      mapGet rec.Labels groupSegmentMappingLabel = some "a") ∧
    (∃ svc, (Reconcile exampleReconciler ⟨"ns", "v"⟩ cloneStore).1.service "ns"
        "svc-keepalived-clone" = some svc ∧
      svc.Spec.ExternalIPs = ["10.0.0.2"]) := by
  have hA := ((reconcile_finalizer_after_side_effect exampleReconciler ⟨"ns", "v"⟩ claimedStore
    claimedVirtualIP (by decide)).1 (by decide)).1
    { claimedVirtualIP with Finalizers := [ipFinalizer] } (by decide) (by decide)
  have hB := ((reconcile_finalizer_after_side_effect exampleReconciler ⟨"ns", "v"⟩ cloneStore
    cloningVirtualIP (by decide)).2 (by decide)).1
    { cloningVirtualIP with Finalizers := [ipFinalizer, serviceFinalizer] } (by decide)
    (by decide)
  obtain ⟨clone, svc, h1, h2, h3, _⟩ := hB.2
  have hc : clone = true := by
    have : some true = some clone := h1
    exact (Option.some.inj this).symm
  subst hc
  exact ⟨hA.2, svc, h2, h3⟩

/-- Witness of C14: the annotation `team` of the example service survives the
patch. -/
theorem patchService_postconditions_witness :
    mapGet (patchService exampleReconciler plainService "10.0.0.2" "g1" false).Annotations
      "team" = some "blue" :=
  (((patchService_postconditions exampleReconciler plainService "10.0.0.2" "g1").2.2 false).1
    "team" (by decide)).trans (by decide)

/-- Witness of C16: the clone of the example service for `ns/v`. -/
theorem cloneService_postconditions_witness :
    cloneService exampleReconciler cloningVirtualIP plainService =
      .ok (cloneOf ("paas.org/v1", "VirtualIP") cloningVirtualIP plainService) :=
  ((cloneService_postconditions exampleReconciler cloningVirtualIP plainService).1
    (cloneOf ("paas.org/v1", "VirtualIP") cloningVirtualIP plainService) (by decide)).1

/-- Witness of C17: the segment `10.0.0.0/30` is pinned, the only
segment-mapping has `10.0.1.0/30`. -/
theorem allocateIP_pinned_without_match_witness :
    allocateIP exampleReconciler pinnedVirtualIP unmatchedStore =
      (unmatchedStore,
        .error (errorsNew "GroupSegmentMapping not found for the requested segment")) :=
  allocateIP_pinned_without_match exampleReconciler pinnedVirtualIP unmatchedStore (by decide)
    rfl (by decide)

/-- Witness of C18, amended: the example without a service name ends in
`Exposing`. -/
theorem reconcile_missing_service_exposing_witness :
    (∃ v1, (Reconcile exampleReconciler ⟨"ns", "v"⟩ unnamedServiceStore).1.virtualIP "ns" "v" =
        some v1 ∧ v1.Status.State = State.Exposing) ∧
      (Reconcile exampleReconciler ⟨"ns", "v"⟩ unnamedServiceStore).2 = .ret {} none :=
  have h := reconcile_missing_service_exposing exampleReconciler ⟨"ns", "v"⟩ unnamedServiceStore
    unnamedServiceVirtualIP (by decide) (by decide) (by decide) (by decide) (by decide)
    (by decide) (fun _ => rfl)
  ⟨⟨_, h.1, rfl⟩, h.2⟩

/-- Witness of C19: the target service and its clone are left as stored, the
service finalizer is removed. -/
theorem reconcile_clone_teardown_witness :
    (Reconcile exampleReconciler ⟨"ns", "v"⟩ cloneTeardownStore).1.Services =
        cloneTeardownStore.Services ∧
      ∃ vip1, (Reconcile exampleReconciler ⟨"ns", "v"⟩ cloneTeardownStore).1.virtualIP
          "ns" "v" = some vip1 ∧ serviceFinalizer ∉ vip1.Finalizers :=
  have h := reconcile_clone_teardown exampleReconciler ⟨"ns", "v"⟩ cloneTeardownStore
    releasingCloneVirtualIP (by decide) (by decide) (by decide) (by decide) (by decide)
  ⟨h.1, (h.2.1 plainService ("paas.org/v1", "VirtualIP") (by decide) rfl (fun _ => rfl)).1⟩

/-- C20, counterexample: the fresh VirtualIP `ns/v` pins `10.0.0.0/30`, names
the stored service `svc`, and the store lists an exhausted segment-mapping of
that segment before `exampleGSM`, which has `10.0.0.0` free. Every request is
served, yet after any number of invocations of `Reconcile`, five included,
the stored state is `Error`, no address is recorded, no finalizer is present,
no IP record exists and the services are as before. -/
theorem reconcile_shadowed_stays_in_error :
    (shadowedStore.virtualIP "ns" "v" = some pinnedVirtualIP ∧
      pinnedVirtualIP.DeletionTimestamp = none ∧ pinnedVirtualIP.Status.IP = "" ∧
      pinnedVirtualIP.Status.Service = "" ∧ pinnedVirtualIP.Finalizers = [] ∧
      pinnedVirtualIP.Spec.Clone = false ∧
      exampleGSM ∈ shadowedStore.GroupSegmentMappings ∧
      exampleGSM.Spec.Segment = pinnedVirtualIP.Spec.Segment ∧
      ParseCIDR exampleGSM.Spec.Segment = some ([10, 0, 0, 0], 30) ∧
      freeAddress exampleGSM shadowedStore [10, 0, 0, 0] 30 [10, 0, 0, 0] ∧
      shadowedStore.service "ns" pinnedVirtualIP.Spec.Service = some plainService) ∧
    ∀ n, 1 ≤ n →
      ((reconcileTimes exampleReconciler ⟨"ns", "v"⟩ n shadowedStore).virtualIP "ns" "v").map
          (fun v => (v.Status.State, v.Status.IP, v.Finalizers)) =
        some (State.Error, "", []) ∧
      (reconcileTimes exampleReconciler ⟨"ns", "v"⟩ n shadowedStore).IPs = [] ∧
      (reconcileTimes exampleReconciler ⟨"ns", "v"⟩ n shadowedStore).Services =
        shadowedStore.Services := by
  refine ⟨by unfold freeAddress; decide, ?_⟩
  have hfix : Reconcile exampleReconciler ⟨"ns", "v"⟩
      (Reconcile exampleReconciler ⟨"ns", "v"⟩ shadowedStore).1 =
        ((Reconcile exampleReconciler ⟨"ns", "v"⟩ shadowedStore).1, .ret {} none) := by decide
  have hstay : ∀ n, reconcileTimes exampleReconciler ⟨"ns", "v"⟩ n
      (Reconcile exampleReconciler ⟨"ns", "v"⟩ shadowedStore).1 =
        (Reconcile exampleReconciler ⟨"ns", "v"⟩ shadowedStore).1 := by
    intro n
    induction n with
    | zero => rfl
    | succ n ih => rw [reconcileTimes, hfix]; exact ih
  intro n hn
  obtain ⟨m, rfl⟩ : ∃ m, n = m + 1 := ⟨n - 1, by omega⟩
  rw [reconcileTimes, hstay m]
  decide

/-- C20, amended (convergence to `Valid`): start from a stored, non-deleting
VirtualIP with no address and no service recorded, no finalizers and clone
flag false, whose `spec.service` names a service stored in its namespace;
let `gsm` be the first listed segment-mapping whose segment equals
`spec.segment`, with prefix length at least 1 and a free address; every
request is served and only `Reconcile` writes to the store. With `a` the
lowest free address of `gsm`, the stored state is `CreatingIP` after one
invocation, `Exposing` after three, and after five the stored object has
`State = Valid`, both finalizers and `Status.IP = a`; exactly one IP record
has been added, named `a` and labelled with the name of `gsm`; and the target
service is the patched one, with external IPs `[a]` and the keepalived group
annotation. -/
theorem reconcile_converges_to_valid (r : VirtualIPReconciler) (req : Request) (s : Store)
    (vip : VirtualIP) (gsm : GroupSegmentMapping) (ip : IP) (ones : Nat) (svc : Service)
    (hstored : s.virtualIP req.Namespace req.Name = some vip)
    (hnd : vip.DeletionTimestamp = none) (hnoaddr : vip.Status.IP = "")
    (hnosvc : vip.Status.Service = "") (hnofin : vip.Finalizers = [])
    (hnoclone : vip.Spec.Clone = false)
    (hfind : s.GroupSegmentMappings.find?
      (fun g => decide (g.Spec.Segment = vip.Spec.Segment)) = some gsm)
    (hparse : ParseCIDR gsm.Spec.Segment = some (ip, ones)) (hones : 1 ≤ ones)
    (hfree : ∃ a, freeAddress gsm s ip ones a)
    (hname : vip.Spec.Service ≠ "")
    (hsvc : s.service vip.Namespace vip.Spec.Service = some svc)
    (hserved : ∀ op, r.Client op = none) :
    ∃ a, freeAddress gsm s ip ones a ∧
      (∀ b, freeAddress gsm s ip ones b → Net.toNat a ≤ Net.toNat b) ∧
      (∃ v1, (reconcileTimes r req 1 s).virtualIP req.Namespace req.Name = some v1 ∧
        v1.Status.State = State.CreatingIP) ∧
      (∃ v3, (reconcileTimes r req 3 s).virtualIP req.Namespace req.Name = some v3 ∧
        v3.Status.State = State.Exposing) ∧
      (reconcileTimes r req 5 s).virtualIP req.Namespace req.Name =
        some { vip with
          Finalizers := [ipFinalizer, serviceFinalizer]
          Status := { vip.Status with
            IP := IPString a, KeepalivedGroup := gsm.Spec.KeepalivedGroup, GSM := gsm.Name,
            Service := vip.Spec.Service, Clone := some false,
            Message := "successfully allocated an IP address", State := State.Valid } } ∧
      (reconcileTimes r req 5 s).IPs =
        s.IPs ++ [{ Name := IPString a, Labels := [(groupSegmentMappingLabel, gsm.Name)],
                    Annotations := [("virtualips.paas.il/owner",
                      vip.Namespace ++ "/" ++ vip.Name)] }] ∧
      ∃ bound, (reconcileTimes r req 5 s).service vip.Namespace vip.Spec.Service = some bound ∧
        bound = patchService r svc (IPString a) gsm.Spec.KeepalivedGroup false ∧
        bound.Spec.ExternalIPs = [IPString a] ∧
        mapGet bound.Annotations keepalivedGroupAnnotation =
          some (keepalivedGroupNamespace r ++ "/" ++ gsm.Spec.KeepalivedGroup) := by
  obtain ⟨a, h1, h2, h3, h4, h5, h6, h7⟩ := reconcile_five_invocations r req s vip gsm ip ones svc
    hstored hnd hnoaddr hnosvc hnofin hnoclone hfind hparse hones hfree hname hsvc hserved
  exact ⟨a, h1, h2, h3, h4, h5, h6, _, h7, rfl, rfl, mapGet_mapSet_self _ _ _⟩

/-- Witness of C20: five invocations on the example store of a pinned
allocation. -/
theorem reconcile_converges_to_valid_witness :
    ∃ a, freeAddress exampleGSM pinnedStore [10, 0, 0, 0] 30 a ∧
      ∃ v5, (reconcileTimes exampleReconciler ⟨"ns", "v"⟩ 5 pinnedStore).virtualIP "ns" "v" =
          some v5 ∧
        v5.Status.State = State.Valid ∧ v5.Status.IP = IPString a ∧
        v5.Finalizers = [ipFinalizer, serviceFinalizer] := by
  obtain ⟨a, h1, _, _, _, h5, _⟩ :=
    reconcile_converges_to_valid exampleReconciler ⟨"ns", "v"⟩ pinnedStore pinnedVirtualIP
      exampleGSM [10, 0, 0, 0] 30 plainService (by decide) (by decide) (by decide) (by decide)
      (by decide) (by decide) (by decide) (by decide) (by decide)
      ⟨[10, 0, 0, 2], by unfold freeAddress; decide⟩ (by decide) (by decide) (fun _ => rfl)
  exact ⟨a, h1, _, h5, rfl, rfl, rfl⟩


end Keepalived
